import Mathlib

/-!
MCU-Teensy-Samples: serial transport and firmware update

A shallow embedding of the ring buffer (`MCU_Server/RingBuffer.cpp`), the UART
frame codec (`MCU_Client/UARTProtocol.cpp`) and the DFU engine
(`MCU_Server/MCU_DFU.cpp`), with theorems about them.

Machine integers are natural numbers reduced explicitly: `size_t` is the 32-bit
unsigned type of the Teensy (ARM Cortex-M, ILP32), `uint16_t` and `uint8_t` are
reduced modulo `2^16` and `2^8` where the source narrows a value.
-/

set_option linter.unusedVariables false

namespace MCU

/-! ## Machine arithmetic -/

/-- Number of values of `size_t` (and of `uint32_t`) on the target. -/
def SIZE_MOD : Nat := 4294967296

/-- Number of values of `uint16_t`. -/
def U16_MOD : Nat := 65536

/-- Number of values of `uint8_t`. -/
def U8_MOD : Nat := 256

/-- Unsigned `size_t` addition. -/
def sizeAdd (a b : Nat) : Nat := (a + b) % SIZE_MOD

/-- Unsigned `size_t` subtraction: wraps around when `a < b`. -/
def sizeSub (a b : Nat) : Nat := (a + (SIZE_MOD - b % SIZE_MOD)) % SIZE_MOD

/-- The C library `memcpy(dst + off, src, n)` on arrays held as lists: cell
`off + i` of `dst` receives `src[i]` for every `i < n`. -/
def memcpy (dst : List Nat) (off : Nat) (src : List Nat) : Nat → List Nat
  | 0 => dst
  | n + 1 => (memcpy dst off src n).set (off + n) (src.getD n 0)

/-! ## Ring buffer (`RingBuffer.h`, `RingBuffer.cpp`) -/

/-- The struct `RingBuffer_T`: backing array, its length, write and read cursor. -/
structure RingBuffer_T where
  p_buf : List Nat
  buf_len : Nat
  wr : Nat
  rd : Nat
  deriving DecidableEq, Repr

/-- Source function `RingBuffer_Init`: attach the backing array and zero both cursors. -/
def RingBuffer_Init (p_buf_pointer : List Nat) (buf_len : Nat) : RingBuffer_T :=
  { p_buf := p_buf_pointer, buf_len := buf_len, wr := 0, rd := 0 }

/-- Source function `RingBuffer_isEmpty`: `wr == rd`. -/
def RingBuffer_isEmpty (rb : RingBuffer_T) : Bool :=
  rb.wr == rb.rd

/-- Source function `RingBuffer_SetWrIndex`: `wr = value % buf_len`; `value` is a `uint16_t`
parameter, so the argument is narrowed to 16 bits on the call. -/
def RingBuffer_SetWrIndex (rb : RingBuffer_T) (value : Nat) : RingBuffer_T :=
  { rb with wr := (value % U16_MOD) % rb.buf_len }

/-- Source function `RingBuffer_IncrementRdIndex`: `rd = (rd + value) % buf_len` with a
`uint16_t` value. -/
def RingBuffer_IncrementRdIndex (rb : RingBuffer_T) (value : Nat) : RingBuffer_T :=
  { rb with rd := (sizeAdd rb.rd (value % U16_MOD)) % rb.buf_len }

/-- Source function `RingBuffer_DataLen`: `(wr - rd) % buf_len` in `size_t` arithmetic, returned
as `uint16_t`. -/
def RingBuffer_DataLen (rb : RingBuffer_T) : Nat :=
  ((sizeSub rb.wr rb.rd) % rb.buf_len) % U16_MOD

/-- Source function `IsOverflow`: `len + RingBuffer_DataLen() > buf_len` (both operands are
`uint16_t`, promoted to `int`, so the sum does not wrap). -/
def IsOverflow (rb : RingBuffer_T) (len : Nat) : Bool :=
  decide (len + RingBuffer_DataLen rb > rb.buf_len)

/-- Source function `MaxQueueBufferLen`: how many of `table_len` bytes fit before the end of the
array; the result is a `uint16_t`. -/
def MaxQueueBufferLen (rb : RingBuffer_T) (table_len : Nat) : Nat :=
  if IsOverflow rb table_len then 0
  else if sizeAdd rb.wr table_len > rb.buf_len then (sizeSub rb.buf_len rb.wr) % U16_MOD
  else table_len

/-- Source function `RingBuffer_DequeueByte`: the returned flag, the byte written to
`*read_byte` (if any), and the buffer afterwards. -/
def RingBuffer_DequeueByte (rb : RingBuffer_T) : Bool × Option Nat × RingBuffer_T :=
  if RingBuffer_isEmpty rb then (false, none, rb)
  else
    let read_byte := rb.p_buf.getD rb.rd 0
    let rd1 := sizeAdd rb.rd 1
    let rd2 := if rd1 ≥ rb.buf_len then 0 else rd1
    (true, some read_byte, { rb with rd := rd2 })

/-- Source function `RingBuffer_QueueBytes`: the returned flag and the buffer afterwards.
`table` is the memory `table` points to, `table_len` the `uint16_t` length. -/
def RingBuffer_QueueBytes (rb : RingBuffer_T) (table : List Nat) (table_len : Nat) :
    Bool × RingBuffer_T :=
  if IsOverflow rb table_len then (false, rb)
  else
    let cpy_len := MaxQueueBufferLen rb table_len
    let buf1 := memcpy rb.p_buf rb.wr table cpy_len
    let buf2 :=
      if cpy_len ≠ table_len then
        let rest_of_table_len := (table_len + (U16_MOD - cpy_len)) % U16_MOD
        memcpy buf1 0 (table.drop cpy_len) rest_of_table_len
      else buf1
    (true, RingBuffer_SetWrIndex { rb with p_buf := buf2 } (sizeAdd rb.wr table_len))

/-- Source function `RingBuffer_GetMaxContinuousBuffer`: the index the returned pointer refers
to and the length stored in `*buf_len`. -/
def RingBuffer_GetMaxContinuousBuffer (rb : RingBuffer_T) : Nat × Nat :=
  if sizeAdd rb.rd (RingBuffer_DataLen rb) > rb.buf_len then
    (rb.rd, (sizeSub rb.buf_len rb.rd) % U16_MOD)
  else
    (rb.rd, RingBuffer_DataLen rb)

/-- A client of the ring buffer issues one of these two calls. -/
inductive RingOp where
  | queue (table : List Nat)
  | dequeue
  deriving DecidableEq, Repr

/-- What a ring-buffer call hands back to its caller. -/
inductive RingRet where
  | queued (ok : Bool)
  | dequeued (ok : Bool) (read_byte : Option Nat)
  deriving DecidableEq, Repr

/-- One call on the ring buffer: `RingBuffer_QueueBytes(table, len(table))`, the
length being one that fits the `uint16_t` parameter, or `RingBuffer_DequeueByte`. -/
def ringStep (rb : RingBuffer_T) : RingOp → RingRet × RingBuffer_T
  | .queue table =>
    let r := RingBuffer_QueueBytes rb table table.length
    (.queued r.1, r.2)
  | .dequeue =>
    let r := RingBuffer_DequeueByte rb
    (.dequeued r.1 r.2.1, r.2.2)

/-- A sequence of calls, with the results in call order. -/
def ringRun (rb : RingBuffer_T) : List RingOp → List RingRet × RingBuffer_T
  | [] => ([], rb)
  | op :: ops =>
    let r := ringStep rb op
    let rest := ringRun r.2 ops
    (r.1 :: rest.1, rest.2)

/-- The reference queue the spec describes: every queue call is accepted and
appends its bytes, a dequeue call removes the oldest byte, failing only when
no queued byte is left. -/
def fifoStep (q : List Nat) : RingOp → RingRet × List Nat
  | .queue table => (.queued true, q ++ table)
  | .dequeue =>
    match q with
    | [] => (.dequeued false none, [])
    | b :: rest => (.dequeued true (some b), rest)

/-- The reference queue run over a sequence of calls. -/
def fifoRun (q : List Nat) : List RingOp → List RingRet × List Nat
  | [] => ([], q)
  | op :: ops =>
    let r := fifoStep q op
    let rest := fifoRun r.2 ops
    (r.1 :: rest.1, rest.2)

/-- The number of queued and not yet dequeued bytes stays at or below `bound`
throughout the sequence of calls, starting from the queue content `q`. -/
def occupancyWithin (bound : Nat) (q : List Nat) : List RingOp → Bool
  | [] => decide (q.length ≤ bound)
  | op :: ops => decide (q.length ≤ bound) && occupancyWithin bound (fifoStep q op).2 ops

/-! ## Hash and CRC primitives (`CRC.h`, not part of the sources at hand) -/

/-- The primitives of `CRC.h`, taken as parameters: `CalcCRC16(data, len, init)`
and `CalcCRC32(data, len, init)` receive the `len` bytes as a list,
`CalcSHA256(data, len, out)` returns the digest it writes to `out`. -/
structure CRCLib where
  CRC16_INIT_VAL : Nat
  CalcCRC16 : List Nat → Nat → Nat
  CRC32_INIT_VAL : Nat
  CalcCRC32 : List Nat → Nat → Nat
  CalcSHA256 : List Nat → List Nat

/-! ## Frame codec (`UARTProtocol.h`, `UARTProtocol.cpp`) -/

def MAX_PAYLOAD_SIZE : Nat := 127

def UART_CMD_DFU_INIT_REQ : Nat := 0x80
def UART_CMD_DFU_INIT_RESP : Nat := 0x81
def UART_CMD_DFU_STATUS_REQ : Nat := 0x82
def UART_CMD_DFU_STATUS_RESP : Nat := 0x83
def UART_CMD_DFU_PAGE_CREATE_REQ : Nat := 0x84
def UART_CMD_DFU_PAGE_CREATE_RESP : Nat := 0x85
def UART_CMD_DFU_WRITE_DATA_EVENT : Nat := 0x86
def UART_CMD_DFU_PAGE_STORE_REQ : Nat := 0x87
def UART_CMD_DFU_PAGE_STORE_RESP : Nat := 0x88
def UART_CMD_DFU_STATE_CHECK_REQ : Nat := 0x89
def UART_CMD_DFU_STATE_CHECK_RESP : Nat := 0x8A
def UART_CMD_DFU_CANCEL_REQ : Nat := 0x8B
def UART_CMD_DFU_CANCEL_RESP : Nat := 0x8C

def PREAMBLE_BYTE_1 : Nat := 0xAA
def PREAMBLE_BYTE_2 : Nat := 0x55

def HEADER_LEN : Nat := 4
def CRC_LEN : Nat := 2
def PACKET_LEN (len : Nat) : Nat := HEADER_LEN + len + CRC_LEN
def PREAMBLE_BYTE_1_OFFSET : Nat := 0
def PREAMBLE_BYTE_2_OFFSET : Nat := 1
def LEN_OFFSET : Nat := 2
def CMD_OFFSET : Nat := 3
def PAYLOAD_OFFSET : Nat := 4
def CRC_BYTE_1_OFFSET (len : Nat) : Nat := PAYLOAD_OFFSET + len
def CRC_BYTE_2_OFFSET (len : Nat) : Nat := PAYLOAD_OFFSET + len + 1

/-- Arduino `lowByte(w)`: `(uint8_t)((w) & 0xff)`. -/
def lowByte (w : Nat) : Nat := w % U8_MOD

/-- Arduino `highByte(w)`: `(uint8_t)((w) >> 8)`. -/
def highByte (w : Nat) : Nat := (w / 256) % U8_MOD

/-- The struct `RxFrame_t`; `p_payload` is an array of `MAX_PAYLOAD_SIZE` bytes. -/
structure RxFrame_t where
  len : Nat
  cmd : Nat
  p_payload : List Nat
  deriving DecidableEq, Repr

/-- The receive state that outlives one call: the statics `crc` and `count` of
`ExtractFrameFromBuffer` and the static `rx_frame` of
`UART_ProcessIncomingCommand` that it fills. -/
structure RxParser where
  crc : Nat
  count : Nat
  rx_frame : RxFrame_t
  deriving DecidableEq, Repr

/-- Source function `UARTInternal_CalcCRC16`: the CRC16 chained over the length byte, the
command byte and the first `len` bytes of `data`; every stage is a `uint16_t`. -/
def UARTInternal_CalcCRC16 (L : CRCLib) (len cmd : Nat) (data : List Nat) : Nat :=
  let crc0 := L.CRC16_INIT_VAL % U16_MOD
  let crc1 := L.CalcCRC16 [len] crc0 % U16_MOD
  let crc2 := L.CalcCRC16 [cmd] crc1 % U16_MOD
  let crc3 := L.CalcCRC16 (data.take len) crc2 % U16_MOD
  crc3

/-- Source function `ExtractFrameFromBuffer`: one call. `read` is what `UARTDriver_ReadByte`
delivers (`none` when the receive buffer is empty, otherwise a `uint8_t`); the
result is the returned flag `isCRCValid` and the receive state afterwards. -/
def ExtractFrameFromBuffer (L : CRCLib) (read : Option Nat) (s : RxParser) : Bool × RxParser :=
  match read with
  | none => (false, s)
  | some received_byte =>
    if s.count = PREAMBLE_BYTE_1_OFFSET then
      if received_byte = PREAMBLE_BYTE_1 then (false, { s with count := s.count + 1 })
      else (false, { s with count := 0 })
    else if s.count = PREAMBLE_BYTE_2_OFFSET then
      if received_byte = PREAMBLE_BYTE_2 then (false, { s with count := s.count + 1 })
      else (false, { s with count := 0 })
    else if s.count = LEN_OFFSET then
      if received_byte ≤ MAX_PAYLOAD_SIZE then
        (false, { s with rx_frame := { s.rx_frame with len := received_byte },
                         count := s.count + 1 })
      else (false, { s with count := 0 })
    else if s.count = CMD_OFFSET then
      (false, { s with rx_frame := { s.rx_frame with cmd := received_byte },
                       count := s.count + 1 })
    else if CMD_OFFSET < s.count ∧ s.count < CRC_BYTE_1_OFFSET s.rx_frame.len then
      (false, { s with
        rx_frame := { s.rx_frame with
          p_payload := s.rx_frame.p_payload.set (s.count - PAYLOAD_OFFSET) received_byte },
        count := s.count + 1 })
    else if s.count = CRC_BYTE_1_OFFSET s.rx_frame.len then
      (false, { s with crc := received_byte, count := s.count + 1 })
    else if s.count = CRC_BYTE_2_OFFSET s.rx_frame.len then
      let crc := (s.crc + received_byte * 256) % U16_MOD
      let isCRCValid :=
        crc == UARTInternal_CalcCRC16 L s.rx_frame.len s.rx_frame.cmd s.rx_frame.p_payload
      (isCRCValid, { s with crc := crc, count := 0 })
    else (false, s)

/-- Source function `UART_ProcessIncomingCommand`: one poll. The leading
`UARTDriver_RxDMAPoll()` only refills the driver's receive buffer, whose next
byte is `read`. When no frame was completed the function returns before the
`switch`; otherwise `dispatch` stands for the `switch (rx_frame.cmd)` and acts
on the rest of the system `σ` (handlers, transmitter). -/
def UART_ProcessIncomingCommand {σ : Type} (L : CRCLib) (dispatch : RxFrame_t → σ → σ)
    (read : Option Nat) (s : RxParser) (sys : σ) : RxParser × σ :=
  let r := ExtractFrameFromBuffer L read s
  if !r.1 then (r.2, sys)
  else (r.2, dispatch r.2.rx_frame sys)

/-- Source function `UARTInternal_Send`: the bytes of `msg` handed to `UARTDriver_WriteBytes`
in its single call; `p_payload` is the memory the pointer refers to. -/
def UARTInternal_Send (L : CRCLib) (len cmd : Nat) (p_payload : List Nat) : List Nat :=
  let crc := UARTInternal_CalcCRC16 L len cmd p_payload
  [PREAMBLE_BYTE_1, PREAMBLE_BYTE_2, len, cmd] ++ p_payload.take len ++
    [lowByte crc, highByte crc]

/-- Feed received bytes to `ExtractFrameFromBuffer` one call at a time; the
flags returned by the calls, in order, and the receive state at the end. -/
def feedBytes (L : CRCLib) (s : RxParser) : List Nat → List Bool × RxParser
  | [] => ([], s)
  | b :: bs =>
    let r := ExtractFrameFromBuffer L (some b) s
    let rest := feedBytes L r.2 bs
    (r.1 :: rest.1, rest.2)

/-! ## C library routines used by the DFU engine -/

/-- The C library `memcmp(a, b, n)`: `0` when the first `n` bytes agree, otherwise
the difference of the first pair of bytes that differ. -/
def memcmp (a b : List Nat) : Nat → Int
  | 0 => 0
  | n + 1 =>
    if a.getD 0 0 ≠ b.getD 0 0 then (a.getD 0 0 : Int) - (b.getD 0 0 : Int)
    else memcmp a.tail b.tail n

/-- The C library `strncmp(a, b, n)`: like `memcmp`, but the comparison also
stops, with result `0`, after a NUL byte common to both strings. A string
literal is the list of its characters; the byte after its end reads as NUL. -/
def strncmp (a b : List Nat) : Nat → Int
  | 0 => 0
  | n + 1 =>
    if a.getD 0 0 ≠ b.getD 0 0 then (a.getD 0 0 : Int) - (b.getD 0 0 : Int)
    else if a.getD 0 0 = 0 then 0
    else strncmp a.tail b.tail n

/-- The C library `memchr(s, c, n)`: the offset of the first byte equal to `c`
among the first `n` bytes of `s`, `none` for a NULL result. -/
def memchr (s : List Nat) (c : Nat) : Nat → Option Nat
  | 0 => none
  | n + 1 =>
    if s.getD 0 0 = c then some 0
    else (memchr s.tail c n).map (fun k => k + 1)

/-- The C library `strlen` of a string literal. -/
def strlen (literal : List Nat) : Nat := literal.length

/-! ## DFU engine (`MCU_DFU.cpp`) -/

def SHA256_SIZE : Nat := 32
def MAX_PAGE_SIZE : Nat := 1024

def DFU_INVALID_CODE : Nat := 0x00
def DFU_SUCCESS : Nat := 0x01
def DFU_OPCODE_NOT_SUPPORTED : Nat := 0x02
def DFU_INVALID_PARAMETER : Nat := 0x03
def DFU_INSUFFICIENT_RESOURCES : Nat := 0x04
def DFU_INVALID_OBJECT : Nat := 0x05
def DFU_UNSUPPORTED_TYPE : Nat := 0x07
def DFU_OPERATION_NOT_PERMITTED : Nat := 0x08
def DFU_OPERATION_FAILED : Nat := 0x0A
def DFU_FIRMWARE_ALREADY_UP_TO_DATE : Nat := 0x80
def DFU_FIRMWARE_SUCCESSFULLY_UPDATED : Nat := 0xFF

def DFU_STATUS_IN_PROGRESS : Nat := 0x00
def DFU_STATUS_NOT_IN_PROGRESS : Nat := 0x01

/-- The literal `"ignore"` of `DFU_VALIDATION_IGNORE_STRING`, as character codes. -/
def DFU_VALIDATION_IGNORE_STRING : List Nat := [105, 103, 110, 111, 114, 101]

/-- The literal `"client"` of `DFU_VALIDATION_STRING` (`Config.h`), as character codes. -/
def DFU_VALIDATION_STRING : List Nat := [99, 108, 105, 101, 110, 116]

/-- The literal `"0.0.0"` of `BUILD_NUMBER` (`Config.h`), as character codes. -/
def BUILD_NUMBER : List Nat := [48, 46, 48, 46, 48]

/-- The character `'/'`. -/
def SLASH : Nat := 47

/-- The file-scope statics of `MCU_DFU.cpp`: the DFU session state. -/
structure DfuState where
  DfuInProgress : Nat
  FirmwareSize : Nat
  FirmwareOffset : Nat
  Sha256 : List Nat
  PageBuffer : List Nat
  PageOffset : Nat
  PageSize : Nat
  deriving DecidableEq, Repr

/-- A call the DFU engine makes into a collaborator that acts on the outside
world: a frame handed to `UARTInternal_Send` by one of the `UART_SendDfu...`
functions (command code and the `len` payload bytes), or a call of the flash
interface. -/
inductive DfuEvent where
  | UART_Send (cmd : Nat) (payload : List Nat)
  | Flasher_EraseSpace
  | Flasher_SaveMemoryToFlash (address : Nat) (p_src : List Nat) (words : Nat)
  | Flasher_UpdateFirmware (words : Nat)
  deriving DecidableEq, Repr

/-- The flash interface (`Flasher.h`, not part of the sources at hand), taken
as a parameter: a state machine over the outside world `W`. `memory w a n` is
the `n` bytes a read through a pointer to address `a` finds. -/
structure Flasher (W : Type) where
  FLASHER_SUCCESS : Nat
  Flasher_GetSpaceAddr : W → Nat
  Flasher_GetSpaceSize : W → Nat
  Flasher_EraseSpace : W → W
  Flasher_SaveMemoryToFlash : W → Nat → List Nat → Nat → Nat × W
  Flasher_UpdateFirmware : W → Nat → W
  memory : W → Nat → Nat → List Nat

/-- What one DFU handler call leaves behind: the session state, the outside
world, the collaborator calls it made in order, and whether control returns
to the caller (`ProcessDfuPageStoreRequest` ends in an endless loop after
`Flasher_UpdateFirmware`). -/
structure DfuResult (W : Type) where
  state : DfuState
  world : W
  events : List DfuEvent
  returns : Bool

/-- Source function `MCU_DFU_ClearStates`: every static zeroed. -/
def MCU_DFU_ClearStates : DfuState :=
  { DfuInProgress := 0, FirmwareSize := 0, FirmwareOffset := 0,
    Sha256 := List.replicate SHA256_SIZE 0, PageBuffer := List.replicate MAX_PAGE_SIZE 0,
    PageOffset := 0, PageSize := 0 }

/-- The four-byte little-endian read
`p[i] | p[i+1] << 8 | p[i+2] << 16 | p[i+3] << 24` on `uint32_t`. -/
def readU32 (p_payload : List Nat) (index : Nat) : Nat :=
  (p_payload.getD index 0) % SIZE_MOD
    ||| ((p_payload.getD (index + 1) 0) <<< 8) % SIZE_MOD
    ||| ((p_payload.getD (index + 2) 0) <<< 16) % SIZE_MOD
    ||| ((p_payload.getD (index + 3) 0) <<< 24) % SIZE_MOD

/-- Source function `MCU_DFU_AppData_Validate`: `p_app_data` is the memory the pointer refers
to, `app_data_len` the `uint8_t` length. -/
def MCU_DFU_AppData_Validate (p_app_data : List Nat) (app_data_len : Nat) : Nat :=
  if app_data_len = strlen DFU_VALIDATION_IGNORE_STRING ∧
      memcmp p_app_data DFU_VALIDATION_IGNORE_STRING app_data_len = 0 then
    DFU_SUCCESS
  else
    match memchr p_app_data SLASH app_data_len with
    | none => DFU_INVALID_OBJECT
    | some delimiter =>
      let fw_type := p_app_data
      let fw_type_len := delimiter % U8_MOD
      let fw_build := p_app_data.drop (fw_type_len + 1)
      let fw_build_len := (app_data_len + (U8_MOD - fw_type_len) + (U8_MOD - 1)) % U8_MOD
      if strncmp fw_type DFU_VALIDATION_STRING fw_type_len ≠ 0 ∨
          fw_type_len ≠ strlen DFU_VALIDATION_STRING then
        DFU_INVALID_OBJECT
      else if strncmp fw_build BUILD_NUMBER fw_build_len = 0 ∧
          fw_build_len = strlen BUILD_NUMBER then
        DFU_FIRMWARE_ALREADY_UP_TO_DATE
      else DFU_SUCCESS

/-- The loop `Sha256[SHA256_SIZE - i - 1] = p_payload[index++]` of
`ProcessDfuInitRequest`, `index` starting at 4. -/
def readSha256 (p_payload : List Nat) (sha : List Nat) : List Nat :=
  (List.range SHA256_SIZE).foldl
    (fun acc i => acc.set (SHA256_SIZE - i - 1) (p_payload.getD (4 + i) 0)) sha

/-- Source function `ProcessDfuInitRequest`. The parameter `len` is not read by the source. -/
def ProcessDfuInitRequest {W : Type} (F : Flasher W) (p_payload : List Nat) (len : Nat)
    (s : DfuState) (w : W) : DfuResult W :=
  let s1 := { MCU_DFU_ClearStates with
    FirmwareSize := readU32 p_payload 0,
    Sha256 := readSha256 p_payload MCU_DFU_ClearStates.Sha256 }
  let app_data_len := p_payload.getD 36 0
  let p_app_data := p_payload.drop 37
  let init_status := MCU_DFU_AppData_Validate p_app_data app_data_len
  if init_status ≠ DFU_SUCCESS then
    { state := MCU_DFU_ClearStates, world := w,
      events := [.UART_Send UART_CMD_DFU_INIT_RESP [init_status]], returns := true }
  else
    let available := F.Flasher_GetSpaceSize w
    if available > s1.FirmwareSize then
      { state := { s1 with DfuInProgress := 1 }, world := F.Flasher_EraseSpace w,
        events := [.Flasher_EraseSpace, .UART_Send UART_CMD_DFU_INIT_RESP [DFU_SUCCESS]],
        returns := true }
    else
      { state := MCU_DFU_ClearStates, world := w,
        events := [.UART_Send UART_CMD_DFU_INIT_RESP [DFU_INSUFFICIENT_RESOURCES]],
        returns := true }

/-- Source function `ProcessDfuPageCreateRequest`. -/
def ProcessDfuPageCreateRequest {W : Type} (p_payload : List Nat) (len : Nat)
    (s : DfuState) (w : W) : DfuResult W :=
  if s.DfuInProgress = 0 then
    { state := s, world := w,
      events := [.UART_Send UART_CMD_DFU_PAGE_CREATE_RESP [DFU_OPERATION_NOT_PERMITTED],
                 .UART_Send UART_CMD_DFU_CANCEL_REQ []],
      returns := true }
  else
    let req_page_size := readU32 p_payload 0
    if req_page_size ≤ MAX_PAGE_SIZE then
      { state := { s with PageOffset := 0, PageSize := req_page_size }, world := w,
        events := [.UART_Send UART_CMD_DFU_PAGE_CREATE_RESP [DFU_SUCCESS]], returns := true }
    else
      { state := s, world := w,
        events := [.UART_Send UART_CMD_DFU_PAGE_CREATE_RESP [DFU_INSUFFICIENT_RESOURCES]],
        returns := true }

/-- Source function `ProcessDfuWriteDataEvent`. -/
def ProcessDfuWriteDataEvent {W : Type} (p_payload : List Nat) (len : Nat)
    (s : DfuState) (w : W) : DfuResult W :=
  if s.DfuInProgress = 0 then
    { state := s, world := w, events := [.UART_Send UART_CMD_DFU_CANCEL_REQ []],
      returns := true }
  else
    let image_len := p_payload.getD 0 0
    let p_image := p_payload.drop 1
    if sizeAdd s.PageOffset image_len ≤ s.PageSize then
      { state := { s with
          PageBuffer := memcpy s.PageBuffer s.PageOffset p_image image_len,
          PageOffset := sizeAdd s.PageOffset image_len },
        world := w, events := [], returns := true }
    else
      { state := s, world := w, events := [], returns := true }

/-- Source function `ProcessDfuPageStoreRequest`. The `CalcCRC32` call of the source on the
"more pages expected" path only feeds a log line and is left out. -/
def ProcessDfuPageStoreRequest {W : Type} (L : CRCLib) (F : Flasher W) (p_payload : List Nat)
    (len : Nat) (s : DfuState) (w : W) : DfuResult W :=
  if s.DfuInProgress = 0 then
    { state := s, world := w,
      events := [.UART_Send UART_CMD_DFU_PAGE_STORE_RESP [DFU_OPERATION_NOT_PERMITTED],
                 .UART_Send UART_CMD_DFU_CANCEL_REQ []],
      returns := true }
  else if s.PageOffset = 0 then
    { state := s, world := w,
      events := [.UART_Send UART_CMD_DFU_PAGE_STORE_RESP [DFU_SUCCESS]], returns := true }
  else if s.PageOffset ≠ s.PageSize then
    { state := s, world := w,
      events := [.UART_Send UART_CMD_DFU_PAGE_STORE_RESP [DFU_OPERATION_NOT_PERMITTED]],
      returns := true }
  else
    let page_store_address := (F.Flasher_GetSpaceAddr w + s.FirmwareOffset) % SIZE_MOD
    let words := s.PageSize / 4
    let saved := F.Flasher_SaveMemoryToFlash w page_store_address s.PageBuffer words
    let ret_val := saved.1 % U8_MOD
    let w1 := saved.2
    let save := DfuEvent.Flasher_SaveMemoryToFlash page_store_address s.PageBuffer words
    if ret_val ≠ F.FLASHER_SUCCESS then
      { state := s, world := w1,
        events := [save, .UART_Send UART_CMD_DFU_PAGE_STORE_RESP [DFU_OPERATION_FAILED]],
        returns := true }
    else
      let s1 := { s with
        FirmwareOffset := sizeAdd s.FirmwareOffset s.PageOffset, PageOffset := 0, PageSize := 0 }
      if s1.FirmwareOffset ≠ s1.FirmwareSize then
        { state := s1, world := w1,
          events := [save, .UART_Send UART_CMD_DFU_PAGE_STORE_RESP [DFU_SUCCESS]],
          returns := true }
      else
        let calculated_sha256 :=
          L.CalcSHA256 (F.memory w1 (F.Flasher_GetSpaceAddr w1) s1.FirmwareOffset)
        let is_object_valid := decide (0 = memcmp calculated_sha256 s1.Sha256 SHA256_SIZE)
        if !is_object_valid then
          { state := MCU_DFU_ClearStates, world := w1,
            events := [save, .UART_Send UART_CMD_DFU_PAGE_STORE_RESP [DFU_INVALID_OBJECT]],
            returns := true }
        else
          let FwSizeWords := s1.FirmwareSize / 4
          { state := MCU_DFU_ClearStates, world := F.Flasher_UpdateFirmware w1 FwSizeWords,
            events := [save,
              .UART_Send UART_CMD_DFU_PAGE_STORE_RESP [DFU_FIRMWARE_SUCCESSFULLY_UPDATED],
              .Flasher_UpdateFirmware FwSizeWords],
            returns := false }

/-- A flash interface for concrete runs: a region of `size` bytes at address
`0x8000`, every write succeeds with code `0`, and the world is trivial. -/
def flasherOfSize (size : Nat) : Flasher Unit :=
  { FLASHER_SUCCESS := 0,
    Flasher_GetSpaceAddr := fun _ => 0x8000,
    Flasher_GetSpaceSize := fun _ => size,
    Flasher_EraseSpace := fun w => w,
    Flasher_SaveMemoryToFlash := fun w _ _ _ => (0, w),
    Flasher_UpdateFirmware := fun w _ => w,
    memory := fun _ _ n => List.replicate n 0 }

/-- A CRC library for concrete runs: every checksum is the seed plus the sum
of the bytes, the digest is 32 zero bytes. -/
def crcOfSum : CRCLib :=
  { CRC16_INIT_VAL := 0xFFFF,
    CalcCRC16 := fun data init => init + data.sum,
    CRC32_INIT_VAL := 0xFFFFFFFF,
    CalcCRC32 := fun data init => init + data.sum,
    CalcSHA256 := fun _ => List.replicate 32 0 }

/-- The application-data status as the spec words it: the bypass token always
validates; otherwise the data must read `<product-tag>/<build-number>`, a
missing delimiter or another tag is INVALID_OBJECT, the running build number
is FIRMWARE_ALREADY_UP_TO_DATE, any other build number is SUCCESS. -/
def appDataStatusSpec (d : List Nat) : Nat :=
  if d = DFU_VALIDATION_IGNORE_STRING then DFU_SUCCESS
  else if SLASH ∉ d ∨ d.takeWhile (fun c => c != SLASH) ≠ DFU_VALIDATION_STRING then
    DFU_INVALID_OBJECT
  else if (d.dropWhile (fun c => c != SLASH)).tail = BUILD_NUMBER then
    DFU_FIRMWARE_ALREADY_UP_TO_DATE
  else DFU_SUCCESS

/-- The ring buffer `rb` of capacity `C` holds the queue `q`: the cursors are in
range, `wr` is `q.length` cells ahead of `rd`, and the cells from `rd` on hold
the bytes of `q` in order. Fewer than `C` bytes are held. -/
def RingHolds (C : Nat) (rb : RingBuffer_T) (q : List Nat) : Prop :=
  rb.buf_len = C ∧ rb.p_buf.length = C ∧ rb.wr < C ∧ rb.rd < C ∧ q.length < C ∧
  rb.wr = (rb.rd + q.length) % C ∧
  ∀ i, i < q.length → rb.p_buf.getD ((rb.rd + i) % C) 0 = q.getD i 0

/-- The receive state at start-up: C zero-initialises the statics `crc`, `count`
and `rx_frame`. -/
def rxReset : RxParser :=
  { crc := 0, count := 0,
    rx_frame := { len := 0, cmd := 0, p_payload := List.replicate MAX_PAYLOAD_SIZE 0 } }

/-- An Init payload for concrete runs: the declared size as four little-endian
bytes, a zero digest, and the bypass token `"ignore"` as application data. -/
def initPayloadIgnore (b0 b1 b2 b3 : Nat) : List Nat :=
  [b0, b1, b2, b3] ++ List.replicate 32 0 ++ [6, 105, 103, 110, 111, 114, 101]

/-- A session for concrete runs, reached through the handlers: Init declaring
100 bytes (flash space 4096), PageCreate for `chunk.length` bytes, and one
WriteData event carrying `chunk`. -/
def sessionWithPage (chunk : List Nat) : DfuState :=
  let afterInit :=
    ProcessDfuInitRequest (flasherOfSize 4096) (initPayloadIgnore 100 0 0 0) 43
      MCU_DFU_ClearStates ()
  let afterCreate :=
    ProcessDfuPageCreateRequest [chunk.length, 0, 0, 0] 4 afterInit.state ()
  let afterWrite :=
    ProcessDfuWriteDataEvent (chunk.length :: chunk) (chunk.length + 1) afterCreate.state ()
  afterWrite.state

/-- The `uint32_t` complement `~x`. -/
def not32 (x : Nat) : Nat := SIZE_MOD - 1 - x % SIZE_MOD

/-- Source function `MCU_DFU_CalcCRC`: the CRC32 chained over the bytes already
in flash and the bytes pending in the page buffer. -/
def MCU_DFU_CalcCRC {W : Type} (L : CRCLib) (F : Flasher W) (s : DfuState) (w : W) : Nat :=
  let crc0 := not32 L.CRC32_INIT_VAL
  let crc1 :=
    if s.FirmwareOffset ≠ 0 then
      L.CalcCRC32 (F.memory w (F.Flasher_GetSpaceAddr w) s.FirmwareOffset) (not32 crc0) % SIZE_MOD
    else crc0
  let crc2 :=
    if s.PageOffset ≠ 0 then
      L.CalcCRC32 (s.PageBuffer.take s.PageOffset) (not32 crc1) % SIZE_MOD
    else crc1
  crc2

/-- The four bytes `(uint8_t)v, (uint8_t)(v >> 8), (uint8_t)(v >> 16),
(uint8_t)(v >> 24)` the source writes into a response. -/
def bytesU32 (v : Nat) : List Nat :=
  [v % U8_MOD, (v >>> 8) % U8_MOD, (v >>> 16) % U8_MOD, (v >>> 24) % U8_MOD]

/-- Source function `ProcessDfuStatusRequest`. -/
def ProcessDfuStatusRequest {W : Type} (L : CRCLib) (F : Flasher W) (p_payload : List Nat)
    (len : Nat) (s : DfuState) (w : W) : DfuResult W :=
  let offset := sizeAdd s.FirmwareOffset s.PageOffset
  let crc := MCU_DFU_CalcCRC L F s w
  let response := [DFU_SUCCESS] ++ bytesU32 MAX_PAGE_SIZE ++ bytesU32 offset ++ bytesU32 crc
  { state := s, world := w, events := [.UART_Send UART_CMD_DFU_STATUS_RESP response],
    returns := true }

/-- Source function `ProcessDfuStateCheckResponse`. -/
def ProcessDfuStateCheckResponse {W : Type} (p_payload : List Nat) (len : Nat)
    (s : DfuState) (w : W) : DfuResult W :=
  let status := p_payload.getD 0 0
  if (if status = DFU_STATUS_IN_PROGRESS then 1 else 0) ≠ s.DfuInProgress then
    { state := s, world := w, events := [.UART_Send UART_CMD_DFU_CANCEL_REQ []],
      returns := true }
  else
    { state := s, world := w, events := [], returns := true }

/-- Source function `ProcessDfuCancelResponse`. -/
def ProcessDfuCancelResponse {W : Type} (p_payload : List Nat) (len : Nat)
    (s : DfuState) (w : W) : DfuResult W :=
  { state := MCU_DFU_ClearStates, world := w, events := [], returns := true }

/-- The inbound DFU commands, one per `ProcessDfu...` handler of `MCU_DFU.cpp`. -/
inductive DfuCommand where
  | InitRequest
  | StatusRequest
  | PageCreateRequest
  | WriteDataEvent
  | PageStoreRequest
  | StateCheckResponse
  | CancelResponse
  deriving DecidableEq, Repr

/-- The handler of an inbound DFU command, called with the frame's payload and
declared length. -/
def dfuHandle {W : Type} (L : CRCLib) (F : Flasher W) (c : DfuCommand) (p_payload : List Nat)
    (len : Nat) (s : DfuState) (w : W) : DfuResult W :=
  match c with
  | .InitRequest => ProcessDfuInitRequest F p_payload len s w
  | .StatusRequest => ProcessDfuStatusRequest L F p_payload len s w
  | .PageCreateRequest => ProcessDfuPageCreateRequest p_payload len s w
  | .WriteDataEvent => ProcessDfuWriteDataEvent p_payload len s w
  | .PageStoreRequest => ProcessDfuPageStoreRequest L F p_payload len s w
  | .StateCheckResponse => ProcessDfuStateCheckResponse p_payload len s w
  | .CancelResponse => ProcessDfuCancelResponse p_payload len s w

/-- The PageStore request handled `n` times in a row, each call starting from
what the call before left; the collaborator calls of all the calls in order.
A call from which control does not return ends the run. -/
def pageStoreTimes {W : Type} (L : CRCLib) (F : Flasher W) (p_payload : List Nat) (len : Nat) :
    Nat → DfuState → W → DfuResult W
  | 0, s, w => { state := s, world := w, events := [], returns := true }
  | n + 1, s, w =>
    let r := ProcessDfuPageStoreRequest L F p_payload len s w
    if r.returns then
      let rest := pageStoreTimes L F p_payload len n r.state r.world
      { state := rest.state, world := rest.world, events := r.events ++ rest.events,
        returns := rest.returns }
    else r

/-- The result of the flash write `ProcessDfuPageStoreRequest` issues for a
complete page: `Flasher_SaveMemoryToFlash(Flasher_GetSpaceAddr() +
FirmwareOffset, PageBuffer, PageSize / 4)`, as return value and world after. -/
def pageStoreSave {W : Type} (F : Flasher W) (s : DfuState) (w : W) : Nat × W :=
  F.Flasher_SaveMemoryToFlash w ((F.Flasher_GetSpaceAddr w + s.FirmwareOffset) % SIZE_MOD)
    s.PageBuffer (s.PageSize / 4)

/-- The flash-write call recorded for `pageStoreSave`. -/
def pageStoreSaveEvent {W : Type} (F : Flasher W) (s : DfuState) (w : W) : DfuEvent :=
  .Flasher_SaveMemoryToFlash ((F.Flasher_GetSpaceAddr w + s.FirmwareOffset) % SIZE_MOD)
    s.PageBuffer (s.PageSize / 4)

/-- A session for concrete runs, reached through the handlers: Init declaring
`size` bytes (flash space 4096), PageCreate for `pageSize` bytes, and one
WriteData event carrying `chunk`; `size` and `pageSize` are below 256. -/
def sessionAfter (size pageSize : Nat) (chunk : List Nat) : DfuState :=
  let afterInit :=
    ProcessDfuInitRequest (flasherOfSize 4096) (initPayloadIgnore size 0 0 0) 43
      MCU_DFU_ClearStates ()
  let afterCreate :=
    ProcessDfuPageCreateRequest [pageSize, 0, 0, 0] 4 afterInit.state ()
  let afterWrite :=
    ProcessDfuWriteDataEvent (chunk.length :: chunk) (chunk.length + 1) afterCreate.state ()
  afterWrite.state

/-- A flash interface for concrete runs whose writes fail with code `1`. -/
def flasherFailing : Flasher Unit :=
  { flasherOfSize 4096 with Flasher_SaveMemoryToFlash := fun w _ _ _ => (1, w) }

/-- A CRC library for concrete runs whose digest is 32 bytes of value `1`. -/
def crcOfOnes : CRCLib :=
  { crcOfSum with CalcSHA256 := fun _ => List.replicate 32 1 }

/-- An Init payload for concrete runs: declared size 4, a zero digest, and the
application data `"client/0.0.0"`, the running build. -/
def initPayloadRunningBuild : List Nat :=
  [4, 0, 0, 0] ++ List.replicate 32 0
    ++ [12, 99, 108, 105, 101, 110, 116, 47, 48, 46, 48, 46, 48]

/-- An Init payload for concrete runs: declared size `0x0164 = 356`, the digest
bytes `1, 2, ..., 32` in transmission order, and the bypass token `"ignore"`. -/
def initPayloadDigest : List Nat :=
  [100, 1, 0, 0] ++ (List.range 32).map (fun i => i + 1)
    ++ [6, 105, 103, 110, 111, 114, 101]

/-! ## Command dispatch -/

def UART_CMD_PING_REQUEST : Nat := 0x01
def UART_CMD_PONG_RESPONSE : Nat := 0x02
def UART_CMD_INIT_DEVICE_EVENT : Nat := 0x03
def UART_CMD_CREATE_INSTANCES_RESPONSE : Nat := 0x05
def UART_CMD_INIT_NODE_EVENT : Nat := 0x06
def UART_CMD_MESH_MESSAGE_REQUEST : Nat := 0x07
def UART_CMD_START_NODE_RESPONSE : Nat := 0x0B
def UART_CMD_FACTORY_RESET_EVENT : Nat := 0x0E
def UART_CMD_ERROR : Nat := 0x12
def UART_CMD_MODEM_FIRMWARE_VERSION_RESPONSE : Nat := 0x14
def UART_CMD_ATTENTION_EVENT : Nat := 0x16
def UART_CMD_START_TEST_REQ : Nat := 0x20
def UART_CMD_FIRMWARE_VERSION_SET_RESP : Nat := 0x25
def UART_CMD_TIME_SOURCE_SET_REQ : Nat := 0x29
def UART_CMD_TIME_SOURCE_GET_REQ : Nat := 0x2B
def UART_CMD_TIME_GET_RESP : Nat := 0x2E

/-- The functions called from the `switch (rx_frame.cmd)` of
`UART_ProcessIncomingCommand`; the seven DFU handlers are named by their
`DfuCommand`. -/
inductive Handler where
  | UART_SendPongResponse
  | ProcessEnterInitDevice
  | ProcessEnterDevice
  | ProcessEnterInitNode
  | ProcessEnterNode
  | ProcessMeshCommand
  | ProcessAttention
  | ProcessError
  | ProcessModemFirmwareVersion
  | ProcessStartTest
  | Dfu (c : DfuCommand)
  | ProcessFirmwareVersionSetResponse
  | ProcessFactoryResetEvent
  | MeshTime_ProcessTimeSourceSetRequest
  | MeshTime_ProcessTimeSourceGetRequest
  | MeshTime_ProcessTimeGetResponse
  deriving DecidableEq, Repr

/-- One call made by the `switch`: the function and its arguments
`(rx_frame.p_payload, rx_frame.len)`, the pointer being held as the memory it
refers to, or no arguments for the two functions declared `(void)`. -/
structure HandlerCall where
  handler : Handler
  args : Option (List Nat × Nat)
  deriving DecidableEq, Repr

/-- The `switch (rx_frame.cmd)` of `UART_ProcessIncomingCommand` as the list of
calls it makes: one per `case`, none when no `case` matches (the `switch` has
no `default`). A handler receives the pointer `rx_frame.p_payload`; the memory
it reads through that pointer is the 127 cells of the array followed by
`beyond`, the bytes that lie after the array in memory. -/
def switchCalls (beyond : List Nat) (rx_frame : RxFrame_t) : List HandlerCall :=
  let a := some (rx_frame.p_payload ++ beyond, rx_frame.len)
  if rx_frame.cmd = UART_CMD_PING_REQUEST then [⟨.UART_SendPongResponse, a⟩]
  else if rx_frame.cmd = UART_CMD_INIT_DEVICE_EVENT then [⟨.ProcessEnterInitDevice, a⟩]
  else if rx_frame.cmd = UART_CMD_CREATE_INSTANCES_RESPONSE then [⟨.ProcessEnterDevice, a⟩]
  else if rx_frame.cmd = UART_CMD_INIT_NODE_EVENT then [⟨.ProcessEnterInitNode, a⟩]
  else if rx_frame.cmd = UART_CMD_START_NODE_RESPONSE then [⟨.ProcessEnterNode, a⟩]
  else if rx_frame.cmd = UART_CMD_MESH_MESSAGE_REQUEST then [⟨.ProcessMeshCommand, a⟩]
  else if rx_frame.cmd = UART_CMD_ATTENTION_EVENT then [⟨.ProcessAttention, a⟩]
  else if rx_frame.cmd = UART_CMD_ERROR then [⟨.ProcessError, a⟩]
  else if rx_frame.cmd = UART_CMD_MODEM_FIRMWARE_VERSION_RESPONSE then
    [⟨.ProcessModemFirmwareVersion, a⟩]
  else if rx_frame.cmd = UART_CMD_START_TEST_REQ then [⟨.ProcessStartTest, a⟩]
  else if rx_frame.cmd = UART_CMD_DFU_INIT_REQ then [⟨.Dfu .InitRequest, a⟩]
  else if rx_frame.cmd = UART_CMD_DFU_STATUS_REQ then [⟨.Dfu .StatusRequest, a⟩]
  else if rx_frame.cmd = UART_CMD_DFU_PAGE_CREATE_REQ then [⟨.Dfu .PageCreateRequest, a⟩]
  else if rx_frame.cmd = UART_CMD_DFU_WRITE_DATA_EVENT then [⟨.Dfu .WriteDataEvent, a⟩]
  else if rx_frame.cmd = UART_CMD_DFU_PAGE_STORE_REQ then [⟨.Dfu .PageStoreRequest, a⟩]
  else if rx_frame.cmd = UART_CMD_DFU_STATE_CHECK_RESP then [⟨.Dfu .StateCheckResponse, a⟩]
  else if rx_frame.cmd = UART_CMD_DFU_CANCEL_RESP then [⟨.Dfu .CancelResponse, a⟩]
  else if rx_frame.cmd = UART_CMD_FIRMWARE_VERSION_SET_RESP then
    [⟨.ProcessFirmwareVersionSetResponse, none⟩]
  else if rx_frame.cmd = UART_CMD_FACTORY_RESET_EVENT then [⟨.ProcessFactoryResetEvent, none⟩]
  else if rx_frame.cmd = UART_CMD_TIME_SOURCE_SET_REQ then
    [⟨.MeshTime_ProcessTimeSourceSetRequest, a⟩]
  else if rx_frame.cmd = UART_CMD_TIME_SOURCE_GET_REQ then
    [⟨.MeshTime_ProcessTimeSourceGetRequest, a⟩]
  else if rx_frame.cmd = UART_CMD_TIME_GET_RESP then [⟨.MeshTime_ProcessTimeGetResponse, a⟩]
  else []

/-- The `case` labels of the `switch (rx_frame.cmd)`, in source order. -/
def switchLabels : List Nat :=
  [UART_CMD_PING_REQUEST, UART_CMD_INIT_DEVICE_EVENT, UART_CMD_CREATE_INSTANCES_RESPONSE,
   UART_CMD_INIT_NODE_EVENT, UART_CMD_START_NODE_RESPONSE, UART_CMD_MESH_MESSAGE_REQUEST,
   UART_CMD_ATTENTION_EVENT, UART_CMD_ERROR, UART_CMD_MODEM_FIRMWARE_VERSION_RESPONSE,
   UART_CMD_START_TEST_REQ, UART_CMD_DFU_INIT_REQ, UART_CMD_DFU_STATUS_REQ,
   UART_CMD_DFU_PAGE_CREATE_REQ, UART_CMD_DFU_WRITE_DATA_EVENT, UART_CMD_DFU_PAGE_STORE_REQ,
   UART_CMD_DFU_STATE_CHECK_RESP, UART_CMD_DFU_CANCEL_RESP, UART_CMD_FIRMWARE_VERSION_SET_RESP,
   UART_CMD_FACTORY_RESET_EVENT, UART_CMD_TIME_SOURCE_SET_REQ, UART_CMD_TIME_SOURCE_GET_REQ,
   UART_CMD_TIME_GET_RESP]

/-- The system the dispatcher acts on: the ping switch `UART_PingsEnabled`, the
DFU session and the outside world, the collaborator calls made so far
(transmitted frames and flash calls), the handler calls made so far, and
whether control has been lost in the endless loop that ends a firmware
update. -/
structure McuSystem (W : Type) where
  UART_PingsEnabled : Bool
  dfu : DfuState
  world : W
  events : List DfuEvent
  calls : List HandlerCall
  halted : Bool

/-- What a call of a DFU handler leaves of the system: the call is logged, the
session and the outside world are those the handler leaves, its collaborator
calls follow those made before, and control is lost when the handler does not
return. -/
def handlerEffect {W : Type} (sys : McuSystem W) (c : HandlerCall) (r : DfuResult W) :
    McuSystem W :=
  { sys with calls := sys.calls ++ [c], dfu := r.state, world := r.world,
             events := sys.events ++ r.events, halted := !r.returns }

/-- The effect of one handler call. The DFU handlers and `UART_SendPongResponse`
are the source functions; the other handlers belong to collaborators outside
the sources at hand and act through the parameter `ext`. -/
def runHandler {W : Type} (L : CRCLib) (F : Flasher W)
    (ext : HandlerCall → McuSystem W → McuSystem W) (c : HandlerCall) (sys : McuSystem W) :
    McuSystem W :=
  let sys1 := { sys with calls := sys.calls ++ [c] }
  match c.handler, c.args with
  | .Dfu d, some (p_payload, len) =>
    handlerEffect sys c (dfuHandle L F d p_payload len sys.dfu sys.world)
  | .UART_SendPongResponse, some (p_payload, len) =>
    if sys.UART_PingsEnabled then
      { sys1 with events := sys.events ++ [.UART_Send UART_CMD_PONG_RESPONSE (p_payload.take len)] }
    else sys1
  | _, _ => ext c sys1

/-- The `switch (rx_frame.cmd)` acting on the system: its calls run in order.
`beyond` is the memory that follows `rx_frame.p_payload`. -/
def dispatchFrame {W : Type} (L : CRCLib) (F : Flasher W)
    (ext : HandlerCall → McuSystem W → McuSystem W) (beyond : List Nat) (rx_frame : RxFrame_t)
    (sys : McuSystem W) : McuSystem W :=
  (switchCalls beyond rx_frame).foldl (fun acc c => runHandler L F ext c acc) sys

/-- The command code of each inbound DFU command as the specification lists
them. -/
def inboundCode : DfuCommand → Nat
  | .InitRequest => 0x80
  | .StatusRequest => 0x82
  | .PageCreateRequest => 0x84
  | .WriteDataEvent => 0x86
  | .PageStoreRequest => 0x87
  | .StateCheckResponse => 0x8A
  | .CancelResponse => 0x8C

/-! ## DFU traces -/

/-- One inbound DFU frame as the dispatcher hands it to its handler: the
command, the payload memory and the declared length. -/
structure DfuRequest where
  cmd : DfuCommand
  p_payload : List Nat
  len : Nat
  deriving DecidableEq, Repr

/-- The handlers run on a sequence of inbound DFU frames, each call starting
from what the call before left; the collaborator calls of all the calls in
order. A call from which control does not return ends the run. -/
def dfuRun {W : Type} (L : CRCLib) (F : Flasher W) :
    List DfuRequest → DfuState → W → DfuResult W
  | [], s, w => { state := s, world := w, events := [], returns := true }
  | r :: rs, s, w =>
    let a := dfuHandle L F r.cmd r.p_payload r.len s w
    if a.returns then
      let rest := dfuRun L F rs a.state a.world
      { state := rest.state, world := rest.world, events := a.events ++ rest.events,
        returns := rest.returns }
    else a

/-- An Init request as the peer builds it: the image size as four
little-endian bytes, the 32 digest bytes, the length of the application data
and the application data. -/
def initRequest (size : Nat) (sha appData : List Nat) : DfuRequest :=
  { cmd := .InitRequest, p_payload := bytesU32 size ++ sha ++ [appData.length] ++ appData,
    len := 37 + appData.length }

/-- A PageCreate request for a page of `p` bytes. -/
def pageCreateRequest (p : Nat) : DfuRequest :=
  { cmd := .PageCreateRequest, p_payload := bytesU32 p, len := 4 }

/-- A WriteData event carrying `chunk`: the chunk length, then the chunk. -/
def writeDataEvent (chunk : List Nat) : DfuRequest :=
  { cmd := .WriteDataEvent, p_payload := chunk.length :: chunk, len := chunk.length + 1 }

/-- A PageStore request; it has no payload. -/
def pageStoreRequest : DfuRequest :=
  { cmd := .PageStoreRequest, p_payload := [], len := 0 }

/-- The opening of an update: Init declaring `size` bytes with application data
`<DFU_VALIDATION_STRING>/<build>`, PageCreate for `p` bytes, and one WriteData
event per chunk. -/
def happyPath (size : Nat) (sha build : List Nat) (p : Nat) (chunks : List (List Nat)) :
    List DfuRequest :=
  initRequest size sha (DFU_VALIDATION_STRING ++ [SLASH] ++ build)
    :: pageCreateRequest p :: chunks.map writeDataEvent

/-! ## Corrupted frames -/

/-- The byte `b` with bit `k` inverted. -/
def flipBit (b k : Nat) : Nat := b ^^^ 2 ^ k

/-- A system for concrete runs: pings enabled, no DFU session, nothing sent or
called yet. -/
def sysIdle : McuSystem Unit :=
  { UART_PingsEnabled := true, dfu := MCU_DFU_ClearStates, world := (), events := [],
    calls := [], halted := false }

/-- A system for concrete runs in which a DFU session is open (image of 100
bytes, a page of 8 bytes created, nothing written yet). -/
def sysInSession : McuSystem Unit :=
  { sysIdle with dfu := sessionAfter 100 8 [] }

/-! ## Timestamps (`Timestamp.cpp`) -/

/-- The constant `TIMESTAMP_MAX = UINT32_MAX`. -/
def TIMESTAMP_MAX : Nat := 4294967295

/-- The constant `TIMESTAMP_MAX_COMPARABLE_DIFF = UINT32_MAX / 2`. -/
def TIMESTAMP_MAX_COMPARABLE_DIFF : Nat := TIMESTAMP_MAX / 2

/-- Source function `Timestamp_Compare`:
`(timestamp_rhs - timestamp_lhs) <= TIMESTAMP_MAX_COMPARABLE_DIFF` on `uint32_t`. -/
def Timestamp_Compare (timestamp_lhs timestamp_rhs : Nat) : Bool :=
  decide (sizeSub timestamp_rhs timestamp_lhs ≤ TIMESTAMP_MAX_COMPARABLE_DIFF)

/-- Source function `Timestamp_GetTimeElapsed`, every operation on `uint32_t`. -/
def Timestamp_GetTimeElapsed (timestamp_earlier timestamp_further : Nat) : Nat :=
  if timestamp_further < timestamp_earlier then
    sizeAdd (sizeAdd timestamp_further (sizeSub TIMESTAMP_MAX timestamp_earlier)) 1
  else sizeSub timestamp_further timestamp_earlier

/-- Source function `Timestamp_GetDelayed`: `timestamp + delay` on `uint32_t`. -/
def Timestamp_GetDelayed (timestamp delay : Nat) : Nat :=
  sizeAdd timestamp delay

/-! ## A reference CRC-32 -/

/-- Modelled from the spec: one bit of the standard reflected CRC-32
(polynomial `0xEDB88320`) on the shift register. -/
def crc32Bit (r : Nat) : Nat :=
  if r % 2 = 1 then (r / 2) ^^^ 0xEDB88320 else r / 2

/-- Modelled from the spec: one byte of the standard CRC-32 on the 32-bit
register: the byte is xor-ed in and eight bits are shifted out. -/
def crc32Update (r b : Nat) : Nat :=
  (crc32Bit (crc32Bit (crc32Bit (crc32Bit (crc32Bit (crc32Bit (crc32Bit (crc32Bit
    (r ^^^ b))))))))) % SIZE_MOD

/-- Modelled from the spec: a CRC library whose `CalcCRC32(data, n, init)` is the
standard CRC-32 that takes the register value before the final inversion as
its seed and returns the finalised (inverted) value; `CRC32_INIT_VAL` is
`0xFFFFFFFF`. -/
def crc32Lib : CRCLib :=
  { crcOfSum with
    CRC32_INIT_VAL := 0xFFFFFFFF,
    CalcCRC32 := fun data init => not32 (data.foldl crc32Update (init % SIZE_MOD)) }

/-! ## Runs within the declared image, parser stores -/

/-- The page-store requests of a run stay within the declared image: whenever a
PageStore request is handled, `firmware_offset + page_offset` is at most
`firmware_size`. -/
def storesWithinImage {W : Type} (L : CRCLib) (F : Flasher W) :
    List DfuRequest → DfuState → W → Bool
  | [], _, _ => true
  | r :: rs, s, w =>
    (r.cmd != .PageStoreRequest || decide (s.FirmwareOffset + s.PageOffset ≤ s.FirmwareSize)) &&
    (!(dfuHandle L F r.cmd r.p_payload r.len s w).returns ||
      storesWithinImage L F rs (dfuHandle L F r.cmd r.p_payload r.len s w).state
        (dfuHandle L F r.cmd r.p_payload r.len s w).world)

/-- The cell of `rx_frame.p_payload` the next call of `ExtractFrameFromBuffer`
stores its byte in, if it stores one there: the branch
`count > CMD_OFFSET && count < CRC_BYTE_1_OFFSET(rx_frame.len)` writes
`p_payload[count - PAYLOAD_OFFSET]`, no other branch writes the array. -/
def payloadStoreIndex (s : RxParser) : Option Nat :=
  if CMD_OFFSET < s.count ∧ s.count < CRC_BYTE_1_OFFSET s.rx_frame.len then
    some (s.count - PAYLOAD_OFFSET)
  else none

/-! ## A reference CRC-16 -/

/-- Modelled from the spec: one bit of a bit-serial CRC-16 with generator
`poly` on the 16-bit register. In the reflected form (least significant bit
first) the register is shifted right and `poly` is xor-ed in when a one falls
out; in the other form (most significant bit first) it is shifted left. -/
def crc16Bit (reflected : Bool) (poly r : Nat) : Nat :=
  if reflected then
    if r % 2 = 1 then ((r / 2) ^^^ poly) % U16_MOD else r / 2
  else
    if 32768 ≤ r then ((2 * r) % U16_MOD ^^^ poly) % U16_MOD else (2 * r) % U16_MOD

/-- Modelled from the spec: one byte of the CRC-16: the byte is xor-ed into the
low byte (reflected form) or the high byte of the register, then eight bits
are shifted out. -/
def crc16Update (reflected : Bool) (poly r b : Nat) : Nat :=
  (crc16Bit reflected poly)^[8] (r ^^^ (if reflected then b else b * 256))

/-- Modelled from the spec: a CRC library whose `CalcCRC16(data, n, init)` runs
the CRC-16 with generator `poly` over the data from the `uint16_t` seed, and
whose `CRC16_INIT_VAL` is `init`. -/
def crc16Lib (reflected : Bool) (poly init : Nat) : CRCLib :=
  { crcOfSum with
    CRC16_INIT_VAL := init,
    CalcCRC16 := fun data seed => data.foldl (crc16Update reflected poly) (seed % U16_MOD) }

/-- The flash writes among the collaborator calls of a run: the address and the
number of 32-bit words of each `Flasher_SaveMemoryToFlash` call, in order. -/
def flashWriteCalls : List DfuEvent → List (Nat × Nat)
  | [] => []
  | .Flasher_SaveMemoryToFlash address _ words :: rest => (address, words) :: flashWriteCalls rest
  | _ :: rest => flashWriteCalls rest

/-! ## Ring buffer: theorems -/

theorem memcpy_length (dst : List Nat) (off : Nat) (src : List Nat) (n : Nat) :
    (memcpy dst off src n).length = dst.length := by
  induction n with
  | zero => rfl
  | succ n ih => simp [memcpy, ih]

theorem getD_set_eq_ite (l : List Nat) (i k a d : Nat) :
    (l.set i a).getD k d = if k = i ∧ i < l.length then a else l.getD k d := by
  simp only [List.getD_eq_getElem?_getD, List.getElem?_set]
  by_cases hik : i = k
  · subst hik
    by_cases hl : i < l.length
    · simp [hl]
    · simp [hl, List.getElem?_eq_none (Nat.le_of_not_lt hl)]
  · have hki : ¬ k = i := fun h => hik h.symm
    simp [hik, hki]

theorem memcpy_getD (dst : List Nat) (off : Nat) (src : List Nat) (n k d : Nat) :
    (memcpy dst off src n).getD k d =
      if off ≤ k ∧ k < off + n ∧ k < dst.length then src.getD (k - off) 0
      else dst.getD k d := by
  induction n with
  | zero =>
    have : ¬ (off ≤ k ∧ k < off + 0 ∧ k < dst.length) := by omega
    rw [if_neg this]
    rfl
  | succ n ih =>
    simp only [memcpy, getD_set_eq_ite, memcpy_length, ih]
    by_cases h1 : k = off + n ∧ off + n < dst.length
    · obtain ⟨hk, hl⟩ := h1
      have h2 : off ≤ k ∧ k < off + (n + 1) ∧ k < dst.length := by omega
      have h3 : k - off = n := by omega
      simp [hk, hl, h2, h3]
    · rw [if_neg h1]
      by_cases h2 : off ≤ k ∧ k < off + n ∧ k < dst.length
      · have h3 : off ≤ k ∧ k < off + (n + 1) ∧ k < dst.length := by omega
        rw [if_pos h2, if_pos h3]
      · have h3 : ¬ (off ≤ k ∧ k < off + (n + 1) ∧ k < dst.length) := by omega
        rw [if_neg h2, if_neg h3]

theorem getD_drop_eq (t : List Nat) (c k d : Nat) : (t.drop c).getD k d = t.getD (c + k) d := by
  simp [List.getD_eq_getElem?_getD, List.getElem?_drop]

theorem mod_wrap (x C : Nat) (h : x < 2 * C) : x % C = if x < C then x else x - C := by
  by_cases hx : x < C
  · rw [if_pos hx, Nat.mod_eq_of_lt hx]
  · rw [if_neg hx, Nat.mod_eq_sub_mod (Nat.le_of_not_lt hx), Nat.mod_eq_of_lt (by omega)]

theorem sizeAdd_of_lt (a b : Nat) (h : a + b < SIZE_MOD) : sizeAdd a b = a + b := by
  unfold sizeAdd
  exact Nat.mod_eq_of_lt h

theorem sizeSub_of_le (a b : Nat) (h : b ≤ a) (ha : a < SIZE_MOD) : sizeSub a b = a - b := by
  unfold sizeSub SIZE_MOD at *
  omega

theorem sizeSub_of_lt (a b : Nat) (h : a < b) (hb : b < SIZE_MOD) :
    sizeSub a b = a + SIZE_MOD - b := by
  unfold sizeSub SIZE_MOD at *
  omega

/-- The occupancy the spec words: the mathematical `(wr − rd) mod capacity`. -/
theorem dataLenSpec_eq (C wr rd : Nat) (hwr : wr < C) (hrd : rd < C) :
    (((wr : Int) - (rd : Int)) % (C : Int)).toNat = if rd ≤ wr then wr - rd else wr + C - rd := by
  by_cases h : rd ≤ wr
  · rw [if_pos h]
    have h1 : ((wr : Int) - (rd : Int)) = ((wr - rd : Nat) : Int) := by omega
    rw [h1, ← Int.natCast_mod, Int.toNat_natCast, Nat.mod_eq_of_lt (by omega)]
  · rw [if_neg h]
    have h1 : ((wr : Int) - (rd : Int)) = ((wr + C - rd : Nat) : Int) + (C : Int) * (-1) := by
      omega
    rw [h1, Int.add_mul_emod_self_left, ← Int.natCast_mod, Int.toNat_natCast,
      Nat.mod_eq_of_lt (by omega)]

/-- Where the capacity divides `2^16` (a power of two up to 65536) the source's
unsigned computation of `RingBuffer_DataLen` is the occupancy. -/
theorem dataLen_of_dvd (rb : RingBuffer_T) (hdvd : U16_MOD % rb.buf_len = 0)
    (hwr : rb.wr < rb.buf_len) (hrd : rb.rd < rb.buf_len) :
    RingBuffer_DataLen rb = if rb.rd ≤ rb.wr then rb.wr - rb.rd else rb.wr + rb.buf_len - rb.rd := by
  obtain ⟨k, hk⟩ := Nat.dvd_of_mod_eq_zero hdvd
  have hC : rb.buf_len ≤ 65536 := by
    have : 0 < k := by
      rcases Nat.eq_zero_or_pos k with h0 | h0
      · subst h0; simp [U16_MOD] at hk
      · exact h0
    unfold U16_MOD at hk
    nlinarith
  unfold RingBuffer_DataLen
  by_cases h : rb.rd ≤ rb.wr
  · have e1 : sizeSub rb.wr rb.rd = rb.wr - rb.rd :=
      sizeSub_of_le _ _ h (by unfold SIZE_MOD; omega)
    have e2 : (rb.wr - rb.rd) % rb.buf_len = rb.wr - rb.rd := Nat.mod_eq_of_lt (by omega)
    have e3 : (rb.wr - rb.rd) % U16_MOD = rb.wr - rb.rd :=
      Nat.mod_eq_of_lt (by unfold U16_MOD; omega)
    rw [if_pos h, e1, e2, e3]
  · have e1 : sizeSub rb.wr rb.rd = rb.wr + SIZE_MOD - rb.rd :=
      sizeSub_of_lt _ _ (by omega) (by unfold SIZE_MOD; omega)
    have h4 : 1 ≤ k * 65536 := by
      rcases Nat.eq_zero_or_pos k with h0 | h0
      · subst h0; simp [U16_MOD] at hk
      · omega
    have h5 : rb.buf_len * (k * 65536 - 1) + rb.buf_len = rb.buf_len * (k * 65536) := by
      have : k * 65536 = (k * 65536 - 1) + 1 := by omega
      conv_rhs => rw [this, Nat.mul_add, Nat.mul_one]
    have h3 : SIZE_MOD = rb.buf_len * (k * 65536 - 1) + rb.buf_len := by
      rw [h5, ← Nat.mul_assoc, ← hk]
      rfl
    have h2 : rb.wr + SIZE_MOD - rb.rd
        = (rb.wr + rb.buf_len - rb.rd) + rb.buf_len * (k * 65536 - 1) := by
      rw [h3]
      generalize rb.buf_len * (k * 65536 - 1) = m
      omega
    have e2 : (rb.wr + rb.buf_len - rb.rd) % rb.buf_len = rb.wr + rb.buf_len - rb.rd :=
      Nat.mod_eq_of_lt (by omega)
    have e3 : (rb.wr + rb.buf_len - rb.rd) % U16_MOD = rb.wr + rb.buf_len - rb.rd :=
      Nat.mod_eq_of_lt (by unfold U16_MOD; omega)
    rw [if_neg h, e1, h2, Nat.add_mul_mod_self_left, e2, e3]

theorem isOverflow_eq_false (rb : RingBuffer_T) (n : Nat)
    (h : n + RingBuffer_DataLen rb ≤ rb.buf_len) : IsOverflow rb n = false := by
  unfold IsOverflow
  exact decide_eq_false (by omega)

theorem isOverflow_eq_true (rb : RingBuffer_T) (n : Nat)
    (h : n + RingBuffer_DataLen rb > rb.buf_len) : IsOverflow rb n = true := by
  unfold IsOverflow
  exact decide_eq_true h

/-- An accepted `RingBuffer_QueueBytes`: the returned buffer, cell by cell.
`hw` says that narrowing `wr + n` to `uint16_t` does not change its residue. -/
theorem queueBytes_accept (rb : RingBuffer_T) (table : List Nat) (n : Nat)
    (hlen : rb.p_buf.length = rb.buf_len) (hwr : rb.wr < rb.buf_len)
    (hn : n < U16_MOD) (hsz : rb.wr + n < SIZE_MOD)
    (hw : ((rb.wr + n) % U16_MOD) % rb.buf_len = (rb.wr + n) % rb.buf_len)
    (hno : n + RingBuffer_DataLen rb ≤ rb.buf_len) :
    ∃ buf, RingBuffer_QueueBytes rb table n
        = (true, { rb with p_buf := buf, wr := (rb.wr + n) % rb.buf_len }) ∧
      buf.length = rb.buf_len ∧
      ∀ k d, k < rb.buf_len → buf.getD k d =
        if rb.wr ≤ k ∧ k < rb.wr + n then table.getD (k - rb.wr) 0
        else if k + rb.buf_len < rb.wr + n then table.getD (k + rb.buf_len - rb.wr) 0
        else rb.p_buf.getD k d := by
  have hov := isOverflow_eq_false rb n hno
  have hadd : sizeAdd rb.wr n = rb.wr + n := sizeAdd_of_lt _ _ (by omega)
  have hnC : n ≤ rb.buf_len := by omega
  by_cases hwrap : rb.wr + n > rb.buf_len
  · -- the copy wraps at the end of the array
    have hsub : sizeSub rb.buf_len rb.wr = rb.buf_len - rb.wr :=
      sizeSub_of_le _ _ (by omega) (by omega)
    have hcpy : MaxQueueBufferLen rb n = rb.buf_len - rb.wr := by
      unfold MaxQueueBufferLen
      rw [hov, hadd, hsub]
      simp only [Bool.false_eq_true, if_false, if_pos hwrap]
      exact Nat.mod_eq_of_lt (by omega)
    have hrest : (n + (U16_MOD - (rb.buf_len - rb.wr))) % U16_MOD
        = n - (rb.buf_len - rb.wr) := by
      unfold U16_MOD at *
      omega
    refine ⟨memcpy (memcpy rb.p_buf rb.wr table (rb.buf_len - rb.wr)) 0
      (table.drop (rb.buf_len - rb.wr)) (n - (rb.buf_len - rb.wr)), ?_, ?_, ?_⟩
    · unfold RingBuffer_QueueBytes RingBuffer_SetWrIndex
      have hne : rb.buf_len - rb.wr ≠ n := by omega
      simp only [hov, Bool.false_eq_true, if_false, hcpy, hrest, hadd, hw, ne_eq, hne,
        not_false_eq_true, if_true]
    · simp [memcpy_length, hlen]
    · intro k d hk
      rw [memcpy_getD, memcpy_getD, memcpy_length, getD_drop_eq, hlen]
      by_cases h1 : k < n - (rb.buf_len - rb.wr)
      · have c1 : 0 ≤ k ∧ k < 0 + (n - (rb.buf_len - rb.wr)) ∧ k < rb.buf_len := by omega
        have c2 : ¬ (rb.wr ≤ k ∧ k < rb.wr + n) := by omega
        have c3 : k + rb.buf_len < rb.wr + n := by omega
        have c4 : rb.buf_len - rb.wr + (k - 0) = k + rb.buf_len - rb.wr := by omega
        rw [if_pos c1, if_neg c2, if_pos c3, c4]
      · have c1 : ¬ (0 ≤ k ∧ k < 0 + (n - (rb.buf_len - rb.wr)) ∧ k < rb.buf_len) := by omega
        have c3 : ¬ (k + rb.buf_len < rb.wr + n) := by omega
        rw [if_neg c1]
        by_cases h2 : rb.wr ≤ k
        · have c2 : rb.wr ≤ k ∧ k < rb.wr + (rb.buf_len - rb.wr) ∧ k < rb.buf_len := by omega
          have c5 : rb.wr ≤ k ∧ k < rb.wr + n := by omega
          rw [if_pos c2, if_pos c5]
        · have c2 : ¬ (rb.wr ≤ k ∧ k < rb.wr + (rb.buf_len - rb.wr) ∧ k < rb.buf_len) := by
            omega
          have c5 : ¬ (rb.wr ≤ k ∧ k < rb.wr + n) := by omega
          rw [if_neg c2, if_neg c5, if_neg c3]
  · -- the copy fits before the end of the array
    have hcpy : MaxQueueBufferLen rb n = n := by
      unfold MaxQueueBufferLen
      rw [hov, hadd]
      simp only [Bool.false_eq_true, if_false, if_neg hwrap]
    refine ⟨memcpy rb.p_buf rb.wr table n, ?_, ?_, ?_⟩
    · unfold RingBuffer_QueueBytes RingBuffer_SetWrIndex
      simp only [hov, Bool.false_eq_true, if_false, hcpy, hadd, hw, ne_eq, not_true_eq_false]
    · simp [memcpy_length, hlen]
    · intro k d hk
      rw [memcpy_getD, hlen]
      have c3 : ¬ (k + rb.buf_len < rb.wr + n) := by omega
      by_cases h2 : rb.wr ≤ k ∧ k < rb.wr + n
      · have c2 : rb.wr ≤ k ∧ k < rb.wr + n ∧ k < rb.buf_len := by omega
        rw [if_pos c2, if_pos h2]
      · have c2 : ¬ (rb.wr ≤ k ∧ k < rb.wr + n ∧ k < rb.buf_len) := by omega
        rw [if_neg c2, if_neg h2, if_neg c3]

theorem ringHolds_dequeue (C : Nat) (rb : RingBuffer_T) (q : List Nat) (hC : C ≤ U16_MOD)
    (h : RingHolds C rb q) :
    (ringStep rb .dequeue).1 = (fifoStep q .dequeue).1 ∧
      RingHolds C (ringStep rb .dequeue).2 (fifoStep q .dequeue).2 := by
  obtain ⟨hbl, hpl, hwr, hrd, hql, hw, hcell⟩ := h
  cases q with
  | nil =>
    have hwr2 : rb.wr = rb.rd := by
      rw [hw]
      simpa using Nat.mod_eq_of_lt hrd
    have he : RingBuffer_isEmpty rb = true := by
      unfold RingBuffer_isEmpty
      simp [hwr2]
    simp only [ringStep, fifoStep, RingBuffer_DequeueByte, he, if_true]
    exact ⟨trivial, hbl, hpl, hwr, hrd, hql, hw, hcell⟩
  | cons b q' =>
    simp only [List.length_cons] at hql hw hcell
    have hw2 := hw
    rw [mod_wrap _ _ (by omega)] at hw2
    have hne : rb.wr ≠ rb.rd := by
      split_ifs at hw2 <;> omega
    have he : RingBuffer_isEmpty rb = false := by
      unfold RingBuffer_isEmpty
      simp [hne]
    have hadd : sizeAdd rb.rd 1 = rb.rd + 1 :=
      sizeAdd_of_lt _ _ (by unfold SIZE_MOD; unfold U16_MOD at hC; omega)
    have h0 := hcell 0 (by omega)
    rw [Nat.add_zero, Nat.mod_eq_of_lt hrd] at h0
    simp only [ringStep, fifoStep, RingBuffer_DequeueByte, he, Bool.false_eq_true, if_false,
      hadd]
    rw [hbl]
    refine ⟨by simpa using h0, rfl, hpl, hwr, ?_, by omega, ?_, ?_⟩
    · show (if rb.rd + 1 ≥ C then 0 else rb.rd + 1) < C
      split_ifs <;> omega
    · show rb.wr = ((if rb.rd + 1 ≥ C then 0 else rb.rd + 1) + q'.length) % C
      rw [mod_wrap _ _ (by split_ifs <;> omega)]
      split_ifs at hw2 ⊢ <;> omega
    · intro i hi
      show rb.p_buf.getD (((if rb.rd + 1 ≥ C then 0 else rb.rd + 1) + i) % C) 0 = q'.getD i 0
      have h1 := hcell (i + 1) (by omega)
      rw [List.getD_cons_succ] at h1
      rw [← h1]
      congr 1
      rw [mod_wrap _ _ (by split_ifs <;> omega), mod_wrap (rb.rd + (i + 1)) _ (by omega)]
      split_ifs <;> omega

theorem ringHolds_queue (C : Nat) (rb : RingBuffer_T) (q table : List Nat)
    (hdvd : U16_MOD % C = 0) (h : RingHolds C rb q) (hfit : q.length + table.length < C) :
    (ringStep rb (.queue table)).1 = .queued true ∧
      RingHolds C (ringStep rb (.queue table)).2 (q ++ table) := by
  obtain ⟨hbl, hpl, hwr, hrd, hql, hw, hcell⟩ := h
  have hC : C ≤ U16_MOD := Nat.le_of_dvd (by unfold U16_MOD; omega) (Nat.dvd_of_mod_eq_zero hdvd)
  have hw2 := hw
  rw [mod_wrap _ _ (by omega)] at hw2
  have hdl : RingBuffer_DataLen rb = q.length := by
    rw [dataLen_of_dvd rb (by rw [hbl]; exact hdvd) (by omega) (by omega), hbl]
    split_ifs at hw2 ⊢ <;> omega
  obtain ⟨buf, hq, hbuflen, hbuf⟩ := queueBytes_accept rb table table.length
    (by omega) (by omega) (by omega)
    (by unfold SIZE_MOD; unfold U16_MOD at hC; omega)
    (by rw [hbl]; exact Nat.mod_mod_of_dvd _ (Nat.dvd_of_mod_eq_zero hdvd))
    (by omega)
  simp only [ringStep, hq]
  refine ⟨trivial, hbl, by simpa [hbl] using hbuflen, ?_, hrd, by simp; omega, ?_, ?_⟩
  · show (rb.wr + table.length) % rb.buf_len < C
    rw [hbl]
    exact Nat.mod_lt _ (by omega)
  · show (rb.wr + table.length) % rb.buf_len = (rb.rd + (q ++ table).length) % C
    rw [hbl, List.length_append, mod_wrap _ _ (by omega), mod_wrap (rb.rd + _) _ (by omega)]
    split_ifs at hw2 ⊢ <;> omega
  · intro i hi
    rw [List.length_append] at hi
    show buf.getD ((rb.rd + i) % C) 0 = (q ++ table).getD i 0
    have hk : (rb.rd + i) % C < rb.buf_len := by
      rw [hbl]
      exact Nat.mod_lt _ (by omega)
    rw [hbuf _ 0 hk, hbl]
    by_cases hil : i < q.length
    · rw [List.getD_append _ _ _ _ hil, ← hcell i hil]
      have hk2 := mod_wrap (rb.rd + i) C (by omega)
      have c1 : ¬ (rb.wr ≤ (rb.rd + i) % C ∧ (rb.rd + i) % C < rb.wr + table.length) := by
        rw [hk2]
        split_ifs at hw2 ⊢ <;> omega
      have c2 : ¬ ((rb.rd + i) % C + C < rb.wr + table.length) := by
        rw [hk2]
        split_ifs at hw2 ⊢ <;> omega
      rw [if_neg c1, if_neg c2]
    · rw [List.getD_append_right _ _ _ _ (by omega)]
      have hk2 := mod_wrap (rb.rd + i) C (by omega)
      by_cases c1 : rb.wr ≤ (rb.rd + i) % C ∧ (rb.rd + i) % C < rb.wr + table.length
      · rw [if_pos c1]
        congr 1
        rw [hk2] at c1 ⊢
        split_ifs at hw2 c1 ⊢ <;> omega
      · have c2 : (rb.rd + i) % C + C < rb.wr + table.length := by
          rw [hk2] at c1 ⊢
          split_ifs at hw2 c1 ⊢ <;> omega
        rw [if_neg c1, if_pos c2]
        congr 1
        rw [hk2] at c1 c2 ⊢
        split_ifs at hw2 c1 c2 ⊢ <;> omega

theorem occupancyWithin_head (bound : Nat) (q : List Nat) (ops : List RingOp)
    (h : occupancyWithin bound q ops = true) : q.length ≤ bound := by
  cases ops with
  | nil => simpa [occupancyWithin] using h
  | cons op ops =>
    simp only [occupancyWithin, Bool.and_eq_true, decide_eq_true_eq] at h
    exact h.1

theorem ringRun_refines_fifo (C : Nat) (hdvd : U16_MOD % C = 0) (ops : List RingOp) :
    ∀ (rb : RingBuffer_T) (q : List Nat), RingHolds C rb q →
      occupancyWithin (C - 1) q ops = true → (ringRun rb ops).1 = (fifoRun q ops).1 := by
  have hC : C ≤ U16_MOD :=
    Nat.le_of_dvd (by unfold U16_MOD; omega) (Nat.dvd_of_mod_eq_zero hdvd)
  induction ops with
  | nil => intro rb q _ _; rfl
  | cons op ops ih =>
    intro rb q hinv hocc
    simp only [occupancyWithin, Bool.and_eq_true, decide_eq_true_eq] at hocc
    obtain ⟨_, hrest⟩ := hocc
    cases op with
    | dequeue =>
      obtain ⟨h1, h2⟩ := ringHolds_dequeue C rb q hC hinv
      simp only [ringRun, fifoRun]
      rw [h1, ih _ _ h2 hrest]
    | queue table =>
      have hfit : q.length + table.length < C := by
        have := occupancyWithin_head _ _ _ hrest
        simp only [fifoStep, List.length_append] at this
        have hq := hinv.2.2.2.2.1
        omega
      obtain ⟨h1, h2⟩ := ringHolds_queue C rb q table hdvd hinv hfit
      simp only [ringRun, fifoRun]
      rw [h1, ih _ _ h2 hrest]
      rfl

theorem ringHolds_init (C : Nat) (p_buf : List Nat) (hC : 0 < C) (hbuf : p_buf.length = C) :
    RingHolds C (RingBuffer_Init p_buf C) [] := by
  refine ⟨rfl, hbuf, hC, hC, hC, ?_, ?_⟩
  · simp [RingBuffer_Init]
  · intro i hi
    simp at hi

/-- C3 (as amended): for every capacity `C` that divides 65536 (a power of two
up to `2^16`) and every sequence of `RingBuffer_QueueBytes` /
`RingBuffer_DequeueByte` calls on a freshly initialised buffer in which the
number of queued and not yet dequeued bytes never exceeds `C - 1`, the calls
return what the reference FIFO queue returns: every queue call succeeds, every
successful dequeue yields the oldest byte not yet dequeued, and a dequeue fails
only when no queued byte is left. -/
theorem ring_fifo (C : Nat) (p_buf : List Nat) (ops : List RingOp)
    (hdvd : U16_MOD % C = 0) (hbuf : p_buf.length = C)
    (hocc : occupancyWithin (C - 1) [] ops = true) :
    (ringRun (RingBuffer_Init p_buf C) ops).1 = (fifoRun [] ops).1 := by
  have hC : 0 < C := by
    rcases Nat.eq_zero_or_pos C with h0 | h0
    · subst h0; simp [U16_MOD] at hdvd
    · exact h0
  exact ringRun_refines_fifo C hdvd ops _ _ (ringHolds_init C p_buf hC hbuf) hocc

/-- Witness of `ring_fifo`: capacity 4, three bytes queued, two dequeued, two
more queued across the end of the array, then all dequeued. -/
theorem ring_fifo_witness :
    (ringRun (RingBuffer_Init [0, 0, 0, 0] 4)
      [.queue [10, 11, 12], .dequeue, .dequeue, .queue [13, 14], .dequeue, .dequeue,
        .dequeue, .dequeue]).1
    = [.queued true, .dequeued true (some 10), .dequeued true (some 11), .queued true,
        .dequeued true (some 12), .dequeued true (some 13), .dequeued true (some 14),
        .dequeued false none] :=
  ring_fifo 4 [0, 0, 0, 0]
    [.queue [10, 11, 12], .dequeue, .dequeue, .queue [13, 14], .dequeue, .dequeue,
      .dequeue, .dequeue] (by decide) (by decide) (by decide)

/-- C3 (as stated) fails. Capacity 2: two bytes are queued, which the claim
allows, and the next `RingBuffer_DequeueByte` returns false although no byte has
been dequeued. Capacity 6: the occupancy never exceeds 3, and the last
`RingBuffer_QueueBytes` returns false. -/
theorem ring_fifo_counterexample :
    (occupancyWithin 2 [] [.queue [1, 2], .dequeue] = true ∧
      (ringRun (RingBuffer_Init [0, 0] 2) [.queue [1, 2], .dequeue]).1
        = [.queued true, .dequeued false none] ∧
      (fifoRun [] [.queue [1, 2], .dequeue]).1 = [.queued true, .dequeued true (some 1)]) ∧
    (occupancyWithin 3 []
        [.queue [1, 2, 3], .dequeue, .dequeue, .dequeue, .queue [4, 5, 6], .dequeue,
          .dequeue, .queue [7, 8]] = true ∧
      (ringRun (RingBuffer_Init [0, 0, 0, 0, 0, 0] 6)
        [.queue [1, 2, 3], .dequeue, .dequeue, .dequeue, .queue [4, 5, 6], .dequeue,
          .dequeue, .queue [7, 8]]).1
        = [.queued true, .dequeued true (some 1), .dequeued true (some 2),
            .dequeued true (some 3), .queued true, .dequeued true (some 4),
            .dequeued true (some 5), .queued false]) := by
  decide

/-- C4: the code at the failing input. With capacity 2, queueing two bytes is
accepted and leaves `wr = rd`; both bytes are unread, so no free space is left,
yet the next `RingBuffer_QueueBytes` of one byte returns true and overwrites the
unread byte in cell 0. -/
theorem queueBytes_overwrites_full_buffer :
    ringRun (RingBuffer_Init [0, 0] 2) [.queue [1, 2]]
        = ([.queued true], ⟨[1, 2], 2, 0, 0⟩) ∧
      RingBuffer_DataLen ⟨[1, 2], 2, 0, 0⟩ = 0 ∧
      RingBuffer_QueueBytes ⟨[1, 2], 2, 0, 0⟩ [3] 1 = (true, ⟨[3, 2], 2, 1, 0⟩) := by
  decide

/-- C5: the code at the failing input. With capacity 3 the calls queue `[1, 2]`,
dequeue, queue `[3]` lead to `wr = 0`, `rd = 1` with two unread bytes;
`RingBuffer_DataLen` returns 0 there, while `(wr - rd) mod 3` is 2. -/
theorem dataLen_wraps_wrongly :
    (ringRun (RingBuffer_Init [0, 0, 0] 3) [.queue [1, 2], .dequeue, .queue [3]]).2
        = ⟨[1, 2, 3], 3, 0, 1⟩ ∧
      RingBuffer_DataLen ⟨[1, 2, 3], 3, 0, 1⟩ = 0 ∧
      ((((0 : Nat) : Int) - ((1 : Nat) : Int)) % ((3 : Nat) : Int)).toNat = 2 ∧
      RingBuffer_isEmpty ⟨[1, 2, 3], 3, 0, 1⟩ = false := by
  decide

/-- What `RingBuffer_QueueBytes` does while the write cursor stays within
`uint16_t`: for every buffer state with `wr < C`, an array of `C` cells and an
input of `n` bytes with `wr + n < 65536`, it returns false and changes nothing
if `n + RingBuffer_DataLen() > C`; otherwise it returns true, stores `data[i]`
at index `(wr + i) mod C` for every `i < n`, leaves all other cells, `rd` and
the capacity unchanged, and sets `wr` to `(wr + n) mod C`. -/
theorem queueBytes_contract (rb : RingBuffer_T) (table : List Nat) (n : Nat)
    (hlen : rb.p_buf.length = rb.buf_len) (hwr : rb.wr < rb.buf_len)
    (hsum : rb.wr + n < U16_MOD) :
    (n + RingBuffer_DataLen rb > rb.buf_len →
      RingBuffer_QueueBytes rb table n = (false, rb)) ∧
    (¬ (n + RingBuffer_DataLen rb > rb.buf_len) →
      (RingBuffer_QueueBytes rb table n).1 = true ∧
      (RingBuffer_QueueBytes rb table n).2.rd = rb.rd ∧
      (RingBuffer_QueueBytes rb table n).2.buf_len = rb.buf_len ∧
      (RingBuffer_QueueBytes rb table n).2.wr = (rb.wr + n) % rb.buf_len ∧
      (RingBuffer_QueueBytes rb table n).2.p_buf.length = rb.buf_len ∧
      (∀ i, i < n →
        (RingBuffer_QueueBytes rb table n).2.p_buf.getD ((rb.wr + i) % rb.buf_len) 0
          = table.getD i 0) ∧
      (∀ k, k < rb.buf_len → (∀ i, i < n → k ≠ (rb.wr + i) % rb.buf_len) →
        (RingBuffer_QueueBytes rb table n).2.p_buf.getD k 0 = rb.p_buf.getD k 0)) := by
  constructor
  · intro hov
    unfold RingBuffer_QueueBytes
    rw [isOverflow_eq_true rb n hov]
    rfl
  · intro hno
    have hno2 : n + RingBuffer_DataLen rb ≤ rb.buf_len := by omega
    have hnC : n ≤ rb.buf_len := by omega
    obtain ⟨buf, hq, hbuflen, hbuf⟩ := queueBytes_accept rb table n hlen hwr
      (by omega) (by unfold SIZE_MOD; unfold U16_MOD at hsum; omega)
      (by rw [Nat.mod_eq_of_lt hsum]) hno2
    rw [hq]
    refine ⟨rfl, rfl, rfl, rfl, hbuflen, ?_, ?_⟩
    · intro i hi
      show buf.getD ((rb.wr + i) % rb.buf_len) 0 = table.getD i 0
      have hk2 := mod_wrap (rb.wr + i) rb.buf_len (by omega)
      have hk : (rb.wr + i) % rb.buf_len < rb.buf_len := Nat.mod_lt _ (by omega)
      rw [hbuf _ 0 hk]
      by_cases c1 : rb.wr ≤ (rb.wr + i) % rb.buf_len ∧ (rb.wr + i) % rb.buf_len < rb.wr + n
      · rw [if_pos c1]
        congr 1
        rw [hk2] at c1 ⊢
        split_ifs at c1 ⊢ <;> omega
      · have c2 : (rb.wr + i) % rb.buf_len + rb.buf_len < rb.wr + n := by
          rw [hk2] at c1 ⊢
          split_ifs at c1 ⊢ <;> omega
        rw [if_neg c1, if_pos c2]
        congr 1
        rw [hk2] at c1 c2 ⊢
        split_ifs at c1 c2 ⊢ <;> omega
    · intro k hk hout
      show buf.getD k 0 = rb.p_buf.getD k 0
      rw [hbuf k 0 hk]
      have c1 : ¬ (rb.wr ≤ k ∧ k < rb.wr + n) := by
        intro hc
        have h1 := hout (k - rb.wr) (by omega)
        have h2 : rb.wr + (k - rb.wr) = k := by omega
        rw [h2, Nat.mod_eq_of_lt hk] at h1
        exact h1 rfl
      have c2 : ¬ (k + rb.buf_len < rb.wr + n) := by
        intro hc
        have h1 := hout (k + rb.buf_len - rb.wr) (by omega)
        have h2 : rb.wr + (k + rb.buf_len - rb.wr) = k + rb.buf_len := by omega
        rw [h2, Nat.add_mod_right, Nat.mod_eq_of_lt hk] at h1
        exact h1 rfl
      rw [if_neg c1, if_neg c2]

/-- Witness of `queueBytes_contract`: capacity 4, `wr = 3`, `rd = 2`, two bytes
queued across the end of the array. -/
theorem queueBytes_contract_witness :
    (2 + RingBuffer_DataLen ⟨[5, 6, 7, 8], 4, 3, 2⟩ > 4 →
      RingBuffer_QueueBytes ⟨[5, 6, 7, 8], 4, 3, 2⟩ [20, 21] 2
        = (false, ⟨[5, 6, 7, 8], 4, 3, 2⟩)) ∧
    (¬ (2 + RingBuffer_DataLen ⟨[5, 6, 7, 8], 4, 3, 2⟩ > 4) →
      (RingBuffer_QueueBytes ⟨[5, 6, 7, 8], 4, 3, 2⟩ [20, 21] 2).1 = true ∧
      (RingBuffer_QueueBytes ⟨[5, 6, 7, 8], 4, 3, 2⟩ [20, 21] 2).2.rd = 2 ∧
      (RingBuffer_QueueBytes ⟨[5, 6, 7, 8], 4, 3, 2⟩ [20, 21] 2).2.buf_len = 4 ∧
      (RingBuffer_QueueBytes ⟨[5, 6, 7, 8], 4, 3, 2⟩ [20, 21] 2).2.wr = (3 + 2) % 4 ∧
      (RingBuffer_QueueBytes ⟨[5, 6, 7, 8], 4, 3, 2⟩ [20, 21] 2).2.p_buf.length = 4 ∧
      (∀ i, i < 2 →
        (RingBuffer_QueueBytes ⟨[5, 6, 7, 8], 4, 3, 2⟩ [20, 21] 2).2.p_buf.getD ((3 + i) % 4) 0
          = [20, 21].getD i 0) ∧
      (∀ k, k < 4 → (∀ i, i < 2 → k ≠ (3 + i) % 4) →
        (RingBuffer_QueueBytes ⟨[5, 6, 7, 8], 4, 3, 2⟩ [20, 21] 2).2.p_buf.getD k 0
          = [5, 6, 7, 8].getD k 0)) :=
  queueBytes_contract ⟨[5, 6, 7, 8], 4, 3, 2⟩ [20, 21] 2 (by decide) (by decide) (by decide)

/-- C6: the code at the failing input. Capacity 40000, `wr = rd = 39999`, 30000
bytes queued: `n + RingBuffer_DataLen() = 30000` does not exceed the capacity,
the call is accepted and returns true, and `wr + n = 69999` is narrowed to the
`uint16_t` parameter of `RingBuffer_SetWrIndex`, so `wr` becomes `4463`, not
`69999 mod 40000 = 29999`. -/
theorem queueBytes_narrows_write_cursor :
    RingBuffer_DataLen ⟨List.replicate 40000 0, 40000, 39999, 39999⟩ = 0 ∧
    (RingBuffer_QueueBytes ⟨List.replicate 40000 0, 40000, 39999, 39999⟩
      (List.replicate 30000 7) 30000).1 = true ∧
    (RingBuffer_QueueBytes ⟨List.replicate 40000 0, 40000, 39999, 39999⟩
      (List.replicate 30000 7) 30000).2.wr = 4463 ∧
    (39999 + 30000) % 40000 = 29999 := by
  generalize List.replicate 40000 0 = buf
  generalize List.replicate 30000 7 = table
  have hd : RingBuffer_DataLen ⟨buf, 40000, 39999, 39999⟩ = 0 := by
    simp [RingBuffer_DataLen, sizeSub, SIZE_MOD, U16_MOD]
  have hov : IsOverflow ⟨buf, 40000, 39999, 39999⟩ 30000 = false := by
    simp [IsOverflow, hd]
  refine ⟨hd, ?_, ?_, by norm_num⟩
  · simp [RingBuffer_QueueBytes, hov]
  · simp [RingBuffer_QueueBytes, hov, RingBuffer_SetWrIndex, sizeAdd, SIZE_MOD, U16_MOD]

/-! ## Frame codec: theorems -/

theorem feedBytes_append (L : CRCLib) (s : RxParser) (a b : List Nat) :
    feedBytes L s (a ++ b) =
      ((feedBytes L s a).1 ++ (feedBytes L (feedBytes L s a).2 b).1,
        (feedBytes L (feedBytes L s a).2 b).2) := by
  induction a generalizing s with
  | nil => simp [feedBytes]
  | cons x a ih => simp [feedBytes, ih]

/-- The four header bytes of a frame, fed from the reset state. -/
theorem feedBytes_header (L : CRCLib) (s : RxParser) (len cmd : Nat) (h0 : s.count = 0)
    (hlen : len ≤ MAX_PAYLOAD_SIZE) :
    feedBytes L s [PREAMBLE_BYTE_1, PREAMBLE_BYTE_2, len, cmd] =
      ([false, false, false, false],
        { s with count := 4, rx_frame := { s.rx_frame with len := len, cmd := cmd } }) := by
  obtain ⟨crc, count, ⟨l, c, p⟩⟩ := s
  simp only at h0
  subst h0
  simp [feedBytes, ExtractFrameFromBuffer, PREAMBLE_BYTE_1_OFFSET, PREAMBLE_BYTE_2_OFFSET,
    LEN_OFFSET, CMD_OFFSET, hlen]

/-- One payload byte: the call stores it at index `count - 4` and returns false. -/
theorem extract_payload_byte (L : CRCLib) (s : RxParser) (b : Nat) (h1 : 3 < s.count)
    (h2 : s.count < 4 + s.rx_frame.len) :
    ExtractFrameFromBuffer L (some b) s =
      (false, { s with
        rx_frame := { s.rx_frame with p_payload := s.rx_frame.p_payload.set (s.count - 4) b },
        count := s.count + 1 }) := by
  have c0 : ¬ s.count = 0 := by omega
  have c1 : ¬ s.count = 1 := by omega
  have c2 : ¬ s.count = 2 := by omega
  have c3 : ¬ s.count = 3 := by omega
  have c4 : 3 < s.count ∧ s.count < 4 + s.rx_frame.len := ⟨h1, h2⟩
  simp only [ExtractFrameFromBuffer, PREAMBLE_BYTE_1_OFFSET, PREAMBLE_BYTE_2_OFFSET,
    LEN_OFFSET, CMD_OFFSET, CRC_BYTE_1_OFFSET, PAYLOAD_OFFSET]
  rw [if_neg c0, if_neg c1, if_neg c2, if_neg c3, if_pos c4]

/-- The first CRC byte: stored in `crc`, the call returns false. -/
theorem extract_crc_low (L : CRCLib) (s : RxParser) (b : Nat)
    (h : s.count = 4 + s.rx_frame.len) :
    ExtractFrameFromBuffer L (some b) s = (false, { s with crc := b, count := s.count + 1 }) := by
  have c0 : ¬ s.count = 0 := by omega
  have c1 : ¬ s.count = 1 := by omega
  have c2 : ¬ s.count = 2 := by omega
  have c3 : ¬ s.count = 3 := by omega
  have c4 : ¬ (3 < s.count ∧ s.count < 4 + s.rx_frame.len) := by omega
  simp only [ExtractFrameFromBuffer, PREAMBLE_BYTE_1_OFFSET, PREAMBLE_BYTE_2_OFFSET,
    LEN_OFFSET, CMD_OFFSET, CRC_BYTE_1_OFFSET, PAYLOAD_OFFSET]
  rw [if_neg c0, if_neg c1, if_neg c2, if_neg c3, if_neg c4, if_pos h]

/-- The second CRC byte: the CRC is assembled and compared, the counter is reset. -/
theorem extract_crc_high (L : CRCLib) (s : RxParser) (b : Nat)
    (h : s.count = 4 + s.rx_frame.len + 1) :
    ExtractFrameFromBuffer L (some b) s =
      ((s.crc + b * 256) % U16_MOD
          == UARTInternal_CalcCRC16 L s.rx_frame.len s.rx_frame.cmd s.rx_frame.p_payload,
        { s with crc := (s.crc + b * 256) % U16_MOD, count := 0 }) := by
  have c0 : ¬ s.count = 0 := by omega
  have c1 : ¬ s.count = 1 := by omega
  have c2 : ¬ s.count = 2 := by omega
  have c3 : ¬ s.count = 3 := by omega
  have c4 : ¬ (3 < s.count ∧ s.count < 4 + s.rx_frame.len) := by omega
  have c5 : ¬ s.count = 4 + s.rx_frame.len := by omega
  simp only [ExtractFrameFromBuffer, PREAMBLE_BYTE_1_OFFSET, PREAMBLE_BYTE_2_OFFSET,
    LEN_OFFSET, CMD_OFFSET, CRC_BYTE_1_OFFSET, CRC_BYTE_2_OFFSET, PAYLOAD_OFFSET]
  rw [if_neg c0, if_neg c1, if_neg c2, if_neg c3, if_neg c4, if_neg c5, if_pos h]

theorem set_take_drop (p : List Nat) (k b : Nat) (pl : List Nat)
    (hk : k + (pl.length + 1) ≤ p.length) :
    (p.set k b).take (k + 1) ++ pl ++ (p.set k b).drop (k + 1 + pl.length)
      = p.take k ++ b :: pl ++ p.drop (k + (pl.length + 1)) := by
  have hk1 : k < p.length := by omega
  have e1 : (p.set k b).take (k + 1) = p.take k ++ [b] := by
    rw [List.set_eq_take_append_cons_drop, if_pos hk1]
    rw [List.take_append_eq_append_take]
    simp [List.length_take, Nat.min_eq_left (Nat.le_of_lt hk1)]
  have e2 : (p.set k b).drop (k + 1 + pl.length) = p.drop (k + (pl.length + 1)) := by
    rw [List.set_eq_take_append_cons_drop, if_pos hk1]
    rw [List.drop_append_eq_append_drop]
    have h3 : (List.take k p).length = k := by
      simp [List.length_take, Nat.min_eq_left (Nat.le_of_lt hk1)]
    rw [h3]
    have h4 : k + 1 + pl.length - k = pl.length + 1 := by omega
    have h5 : List.drop (k + 1 + pl.length) (List.take k p) = [] := by
      apply List.drop_eq_nil_of_le
      rw [h3]
      omega
    rw [h4, h5, List.nil_append, List.drop_succ_cons, List.drop_drop]
    congr 1
    omega
  rw [e1, e2]
  simp

/-- The payload bytes of a frame: every call returns false and the bytes land
in `p_payload` from index `k = count - 4` on. -/
theorem feedBytes_payload (L : CRCLib) (pl : List Nat) :
    ∀ (s : RxParser) (k : Nat), s.count = 4 + k → k + pl.length ≤ s.rx_frame.len →
      k + pl.length ≤ s.rx_frame.p_payload.length →
      feedBytes L s pl =
        (List.replicate pl.length false,
          { s with
            count := 4 + k + pl.length,
            rx_frame := { s.rx_frame with
              p_payload := s.rx_frame.p_payload.take k ++ pl
                ++ s.rx_frame.p_payload.drop (k + pl.length) } }) := by
  induction pl with
  | nil =>
    intro s k hc _ _
    obtain ⟨crc, count, ⟨l, c, p⟩⟩ := s
    simp only at hc
    simp [feedBytes, hc]
  | cons b pl ih =>
    intro s k hc hl hp
    simp only [List.length_cons] at hl hp
    have hstep := extract_payload_byte L s b (by omega) (by omega)
    simp only [feedBytes, hstep]
    rw [ih _ (k + 1) (by simp [hc]; omega) (by simpa using (by omega : k + 1 + pl.length ≤ s.rx_frame.len))
      (by simp only [List.length_set]; omega)]
    have hk : s.count - 4 = k := by omega
    simp only [hk, List.length_cons, List.replicate_succ]
    rw [set_take_drop _ _ _ _ (by omega)]
    have h6 : 4 + (k + 1) + pl.length = 4 + k + (pl.length + 1) := by omega
    rw [h6]

theorem calcCRC16_append (L : CRCLib) (cmd : Nat) (pl rest : List Nat) :
    UARTInternal_CalcCRC16 L pl.length cmd (pl ++ rest)
      = UARTInternal_CalcCRC16 L pl.length cmd pl := by
  simp [UARTInternal_CalcCRC16]

theorem calcCRC16_lt (L : CRCLib) (len cmd : Nat) (data : List Nat) :
    UARTInternal_CalcCRC16 L len cmd data < U16_MOD := by
  unfold UARTInternal_CalcCRC16
  exact Nat.mod_lt _ (by unfold U16_MOD; omega)

/-- A frame up to and including its first CRC byte, fed from the reset state:
every call returns false, and the receive state holds the header fields, the
payload and the low CRC byte. -/
theorem feedBytes_to_crc_low (L : CRCLib) (s : RxParser) (cmd c0 : Nat) (pl : List Nat)
    (h0 : s.count = 0) (hp : s.rx_frame.p_payload.length = MAX_PAYLOAD_SIZE)
    (hmax : pl.length ≤ MAX_PAYLOAD_SIZE) :
    feedBytes L s ([PREAMBLE_BYTE_1, PREAMBLE_BYTE_2, pl.length, cmd] ++ pl ++ [c0]) =
      (List.replicate (pl.length + 5) false,
        { crc := c0, count := 4 + pl.length + 1,
          rx_frame := { len := pl.length, cmd := cmd,
                        p_payload := pl ++ s.rx_frame.p_payload.drop pl.length } }) := by
  rw [feedBytes_append, feedBytes_append, feedBytes_header L s pl.length cmd h0 hmax]
  simp only
  rw [feedBytes_payload L pl _ 0 rfl (by simp) (by simp [hp]; exact hmax)]
  simp only [feedBytes]
  rw [extract_crc_low L _ c0 (by simp)]
  obtain ⟨crc, count, ⟨l, c, p⟩⟩ := s
  simp [List.replicate_succ]
  rw [← List.replicate_succ', List.replicate_succ]

theorem crc_bytes_reassemble (crc : Nat) (h : crc < U16_MOD) :
    (lowByte crc + highByte crc * 256) % U16_MOD = crc := by
  unfold lowByte highByte U8_MOD U16_MOD at *
  omega

/-- C1: frame round trip. For every command byte and every payload of length
`len ≤ 127`, the `len + 6` bytes that `UARTInternal_Send(len, cmd, payload)`
hands to the driver, fed one at a time to `ExtractFrameFromBuffer` from the
reset state (`count = 0`), make every call return false except the last, which
returns true; afterwards `rx_frame.len = len`, `rx_frame.cmd = cmd`, the first
`len` bytes of `rx_frame.p_payload` are the payload, and `count` is 0 again. -/
theorem frame_round_trip (L : CRCLib) (s : RxParser) (cmd : Nat) (payload : List Nat)
    (h0 : s.count = 0) (hp : s.rx_frame.p_payload.length = MAX_PAYLOAD_SIZE)
    (hmax : payload.length ≤ 127) :
    (UARTInternal_Send L payload.length cmd payload).length = payload.length + 6 ∧
    (feedBytes L s (UARTInternal_Send L payload.length cmd payload)).1
      = List.replicate (payload.length + 5) false ++ [true] ∧
    (feedBytes L s (UARTInternal_Send L payload.length cmd payload)).2.count = 0 ∧
    (feedBytes L s (UARTInternal_Send L payload.length cmd payload)).2.rx_frame.len
      = payload.length ∧
    (feedBytes L s (UARTInternal_Send L payload.length cmd payload)).2.rx_frame.cmd = cmd ∧
    (feedBytes L s (UARTInternal_Send L payload.length cmd payload)).2.rx_frame.p_payload.take
      payload.length = payload := by
  have hsend : UARTInternal_Send L payload.length cmd payload
      = ([PREAMBLE_BYTE_1, PREAMBLE_BYTE_2, payload.length, cmd] ++ payload
          ++ [lowByte (UARTInternal_CalcCRC16 L payload.length cmd payload)])
        ++ [highByte (UARTInternal_CalcCRC16 L payload.length cmd payload)] := by
    simp [UARTInternal_Send]
  have hfeed := feedBytes_to_crc_low L s cmd
    (lowByte (UARTInternal_CalcCRC16 L payload.length cmd payload)) payload h0 hp hmax
  have hcrc := crc_bytes_reassemble _ (calcCRC16_lt L payload.length cmd payload)
  refine ⟨by rw [hsend]; simp, ?_⟩
  rw [hsend, feedBytes_append, hfeed]
  simp only [feedBytes]
  rw [extract_crc_high L _ _ (by simp)]
  simp only [calcCRC16_append, hcrc, beq_self_eq_true, List.take_left']
  exact ⟨trivial, trivial, trivial, trivial, trivial⟩

/-- Witness of `frame_round_trip`: command `0x87` with payload `[1, 2, 3]`, from
the start-up receive state. -/
theorem frame_round_trip_witness :
    rxReset.count = 0 ∧ rxReset.rx_frame.p_payload.length = MAX_PAYLOAD_SIZE ∧
    [1, 2, 3].length ≤ 127 ∧
    (feedBytes crcOfSum rxReset (UARTInternal_Send crcOfSum [1, 2, 3].length 0x87 [1, 2, 3])).1
      = List.replicate ([1, 2, 3].length + 5) false ++ [true] :=
  ⟨rfl, List.length_replicate _ _, by decide,
    (frame_round_trip crcOfSum rxReset 0x87 [1, 2, 3] rfl (List.length_replicate _ _)
      (by decide)).2.1⟩

/-- C2: the CRC decides validity. For every byte sequence
`AA 55 L C P[0..L) c0 c1` with `L ≤ 127`, fed from the reset state, the call
that consumes `c1` returns true if and only if `c0 + 256 * c1` equals
`UARTInternal_CalcCRC16` over `L`, `C`, `P`; the byte counter is 0 afterwards
either way; on a mismatch the call returns false and
`UART_ProcessIncomingCommand` returns before its `switch`, so no handler runs
and the rest of the system (transmitter included) is left as it was. -/
theorem crc_decides_validity {σ : Type} (L : CRCLib) (dispatch : RxFrame_t → σ → σ) (sys : σ)
    (s : RxParser) (cmd c0 c1 : Nat) (P : List Nat)
    (h0 : s.count = 0) (hp : s.rx_frame.p_payload.length = MAX_PAYLOAD_SIZE)
    (hmax : P.length ≤ 127) (hc0 : c0 < 256) (hc1 : c1 < 256) :
    ((ExtractFrameFromBuffer L (some c1)
        (feedBytes L s ([PREAMBLE_BYTE_1, PREAMBLE_BYTE_2, P.length, cmd] ++ P ++ [c0])).2).1
        = true
      ↔ c0 + 256 * c1 = UARTInternal_CalcCRC16 L P.length cmd P) ∧
    (ExtractFrameFromBuffer L (some c1)
        (feedBytes L s ([PREAMBLE_BYTE_1, PREAMBLE_BYTE_2, P.length, cmd] ++ P ++ [c0])).2).2.count
      = 0 ∧
    (c0 + 256 * c1 ≠ UARTInternal_CalcCRC16 L P.length cmd P →
      (UART_ProcessIncomingCommand L dispatch (some c1)
        (feedBytes L s ([PREAMBLE_BYTE_1, PREAMBLE_BYTE_2, P.length, cmd] ++ P ++ [c0])).2
        sys).2 = sys) := by
  rw [feedBytes_to_crc_low L s cmd c0 P h0 hp hmax]
  have hstep := extract_crc_high L
    { crc := c0, count := 4 + P.length + 1,
      rx_frame := { len := P.length, cmd := cmd,
                    p_payload := P ++ s.rx_frame.p_payload.drop P.length } } c1 (by simp)
  have hval : (c0 + c1 * 256) % U16_MOD = c0 + 256 * c1 := by
    unfold U16_MOD
    omega
  simp only [calcCRC16_append, hval] at hstep
  simp only [UART_ProcessIncomingCommand, hstep, beq_iff_eq]
  refine ⟨trivial, trivial, ?_⟩
  intro hne
  simp [hne]

/-- Witness of `crc_decides_validity`: the frame `AA 55 02 07 [1, 2] 34 12` from
the start-up receive state, the rest of the system being a transmit log. -/
theorem crc_decides_validity_witness :
    ((ExtractFrameFromBuffer crcOfSum (some 0x12)
        (feedBytes crcOfSum rxReset
          ([PREAMBLE_BYTE_1, PREAMBLE_BYTE_2, [1, 2].length, 7] ++ [1, 2] ++ [0x34])).2).1 = true
      ↔ 0x34 + 256 * 0x12 = UARTInternal_CalcCRC16 crcOfSum [1, 2].length 7 [1, 2]) ∧
    (ExtractFrameFromBuffer crcOfSum (some 0x12)
        (feedBytes crcOfSum rxReset
          ([PREAMBLE_BYTE_1, PREAMBLE_BYTE_2, [1, 2].length, 7] ++ [1, 2] ++ [0x34])).2).2.count
      = 0 ∧
    (0x34 + 256 * 0x12 ≠ UARTInternal_CalcCRC16 crcOfSum [1, 2].length 7 [1, 2] →
      (UART_ProcessIncomingCommand crcOfSum (fun f log => log ++ [f.cmd]) (some 0x12)
        (feedBytes crcOfSum rxReset
          ([PREAMBLE_BYTE_1, PREAMBLE_BYTE_2, [1, 2].length, 7] ++ [1, 2] ++ [0x34])).2
        ([] : List Nat)).2 = []) :=
  crc_decides_validity crcOfSum (fun f log => log ++ [f.cmd]) ([] : List Nat) rxReset 7 0x34 0x12
    [1, 2] rfl (List.length_replicate _ _) (by decide) (by decide) (by decide)

/-! ## DFU engine: theorems -/

theorem memcmp_eq_zero_iff (a : List Nat) :
    ∀ b : List Nat, a.length = b.length → (memcmp a b a.length = 0 ↔ a = b) := by
  induction a with
  | nil =>
    intro b hb
    cases b with
    | nil => simp [memcmp]
    | cons y b => simp at hb
  | cons x a ih =>
    intro b hb
    cases b with
    | nil => simp at hb
    | cons y b =>
      simp only [List.length_cons, Nat.add_right_cancel_iff] at hb
      simp only [List.length_cons, memcmp, List.getD_cons_zero, List.tail_cons]
      by_cases hxy : x = y
      · subst hxy
        simp [ih b hb]
      · have hne : (x : Int) - (y : Int) ≠ 0 := by omega
        simp [hxy, hne]

theorem strncmp_literal (lit : List Nat) (hnul : ∀ x ∈ lit, x ≠ 0) :
    ∀ a : List Nat, lit.length ≤ a.length →
      (strncmp a lit lit.length = 0 ↔ a.take lit.length = lit) := by
  induction lit with
  | nil => intro a _; simp [strncmp]
  | cons y lit ih =>
    intro a ha
    cases a with
    | nil => simp at ha
    | cons x a =>
      simp only [List.length_cons, Nat.add_le_add_iff_right] at ha
      have hy : y ≠ 0 := hnul y (by simp)
      have hrest : ∀ x ∈ lit, x ≠ 0 := fun z hz => hnul z (by simp [hz])
      simp only [List.length_cons, strncmp, List.getD_cons_zero, List.tail_cons,
        List.take_succ_cons]
      by_cases hxy : x = y
      · subst hxy
        simp [hy, ih hrest a ha]
      · have hne : (x : Int) - (y : Int) ≠ 0 := by omega
        simp [hxy, hne]

theorem takeWhile_ne_cons (c x : Nat) (d : List Nat) (hxc : ¬ x = c) :
    (x :: d).takeWhile (fun y => y != c) = x :: d.takeWhile (fun y => y != c) :=
  List.takeWhile_cons_of_pos (by simp [hxc])

theorem dropWhile_ne_cons (c x : Nat) (d : List Nat) (hxc : ¬ x = c) :
    (x :: d).dropWhile (fun y => y != c) = d.dropWhile (fun y => y != c) :=
  List.dropWhile_cons_of_pos (by simp [hxc])

theorem takeWhile_eq_cons (c : Nat) (d : List Nat) :
    (c :: d).takeWhile (fun y => y != c) = [] :=
  List.takeWhile_cons_of_neg (by simp)

theorem dropWhile_eq_cons (c : Nat) (d : List Nat) :
    (c :: d).dropWhile (fun y => y != c) = c :: d :=
  List.dropWhile_cons_of_neg (by simp)

theorem memchr_spec (c : Nat) (d : List Nat) :
    memchr d c d.length =
      if c ∈ d then some (d.takeWhile (fun x => x != c)).length else none := by
  induction d with
  | nil => simp [memchr]
  | cons x d ih =>
    simp only [List.length_cons, memchr, List.getD_cons_zero, List.tail_cons, ih]
    by_cases hxc : x = c
    · subst hxc
      simp [takeWhile_eq_cons]
    · have hcx : ¬ c = x := fun h => hxc h.symm
      rw [takeWhile_ne_cons c x d hxc]
      by_cases hmem : c ∈ d
      · simp [hxc, hcx, hmem]
      · simp [hxc, hcx, hmem]

theorem takeWhile_length_lt (c : Nat) (d : List Nat) (h : c ∈ d) :
    (d.takeWhile (fun x => x != c)).length < d.length := by
  induction d with
  | nil => simp at h
  | cons x d ih =>
    by_cases hxc : x = c
    · subst hxc
      simp [takeWhile_eq_cons]
    · have hmem : c ∈ d := by
        rcases List.mem_cons.mp h with h1 | h1
        · exact absurd h1.symm hxc
        · exact h1
      rw [takeWhile_ne_cons c x d hxc]
      simp [ih hmem]

theorem take_takeWhile_length (c : Nat) (d : List Nat) :
    d.take (d.takeWhile (fun x => x != c)).length = d.takeWhile (fun x => x != c) := by
  induction d with
  | nil => simp
  | cons x d ih =>
    by_cases hxc : x = c
    · subst hxc
      simp [takeWhile_eq_cons]
    · rw [takeWhile_ne_cons c x d hxc]
      simp [ih]

theorem drop_takeWhile_length (c : Nat) (d : List Nat) :
    d.drop ((d.takeWhile (fun x => x != c)).length + 1)
      = (d.dropWhile (fun x => x != c)).tail := by
  induction d with
  | nil => simp
  | cons x d ih =>
    by_cases hxc : x = c
    · subst hxc
      simp [takeWhile_eq_cons, dropWhile_eq_cons]
    · rw [takeWhile_ne_cons c x d hxc, dropWhile_ne_cons c x d hxc]
      simp [ih]

theorem validate_bypass_iff (d : List Nat) :
    (d.length = strlen DFU_VALIDATION_IGNORE_STRING ∧
        memcmp d DFU_VALIDATION_IGNORE_STRING d.length = 0)
      ↔ d = DFU_VALIDATION_IGNORE_STRING := by
  constructor
  · rintro ⟨hl, hm⟩
    exact (memcmp_eq_zero_iff d DFU_VALIDATION_IGNORE_STRING hl).mp hm
  · intro h
    subst h
    exact ⟨rfl, (memcmp_eq_zero_iff _ _ rfl).mpr rfl⟩

theorem validate_tag_iff (d : List Nat) (k : Nat) (hk : k ≤ d.length) :
    (strncmp d DFU_VALIDATION_STRING k ≠ 0 ∨ k ≠ strlen DFU_VALIDATION_STRING)
      ↔ d.take k ≠ DFU_VALIDATION_STRING := by
  by_cases hk6 : k = strlen DFU_VALIDATION_STRING
  · subst hk6
    have h := strncmp_literal DFU_VALIDATION_STRING (by decide) d hk
    unfold strlen at *
    constructor
    · rintro (h1 | h1)
      · exact fun h2 => h1 (h.mpr h2)
      · exact absurd rfl h1
    · intro h1
      exact Or.inl (fun h2 => h1 (h.mp h2))
  · constructor
    · intro _ htake
      apply hk6
      have : (d.take k).length = DFU_VALIDATION_STRING.length := by rw [htake]
      rw [List.length_take, Nat.min_eq_left hk] at this
      exact this
    · intro _
      exact Or.inr hk6

theorem validate_build_iff (b : List Nat) :
    (strncmp b BUILD_NUMBER b.length = 0 ∧ b.length = strlen BUILD_NUMBER)
      ↔ b = BUILD_NUMBER := by
  constructor
  · rintro ⟨hs, hl⟩
    have h := strncmp_literal BUILD_NUMBER (by decide) b (by unfold strlen at hl; omega)
    unfold strlen at hl
    rw [hl] at hs
    have h2 := h.mp hs
    rw [← hl, List.take_length] at h2
    exact h2
  · intro h
    subst h
    exact ⟨by decide, rfl⟩

/-- C8: application-data validation. For every byte string `d` of length
0..255, `MCU_DFU_AppData_Validate` returns SUCCESS if `d` is the bypass token
`"ignore"`; otherwise INVALID_OBJECT if `d` contains no `'/'` or the bytes
before the first `'/'` differ from `DFU_VALIDATION_STRING`; otherwise
FIRMWARE_ALREADY_UP_TO_DATE if the bytes after the first `'/'` are exactly
`BUILD_NUMBER`; otherwise SUCCESS. No other status is returned. -/
theorem appData_validate (d : List Nat) (hlen : d.length ≤ 255) :
    MCU_DFU_AppData_Validate d d.length = appDataStatusSpec d ∧
    (MCU_DFU_AppData_Validate d d.length = DFU_SUCCESS ∨
      MCU_DFU_AppData_Validate d d.length = DFU_INVALID_OBJECT ∨
      MCU_DFU_AppData_Validate d d.length = DFU_FIRMWARE_ALREADY_UP_TO_DATE) := by
  have hmain : MCU_DFU_AppData_Validate d d.length = appDataStatusSpec d := by
    unfold MCU_DFU_AppData_Validate appDataStatusSpec
    by_cases hig : d = DFU_VALIDATION_IGNORE_STRING
    · rw [if_pos ((validate_bypass_iff d).mpr hig), if_pos hig]
    · rw [if_neg (fun h => hig ((validate_bypass_iff d).mp h)), if_neg hig, memchr_spec]
      by_cases hmem : SLASH ∈ d
      · have hk := takeWhile_length_lt SLASH d hmem
        have hkmod : (d.takeWhile (fun x => x != SLASH)).length % U8_MOD
            = (d.takeWhile (fun x => x != SLASH)).length := by
          unfold U8_MOD
          omega
        have hbl : (d.length + (U8_MOD - (d.takeWhile (fun x => x != SLASH)).length)
            + (U8_MOD - 1)) % U8_MOD
            = (d.drop ((d.takeWhile (fun x => x != SLASH)).length + 1)).length := by
          rw [List.length_drop]
          unfold U8_MOD
          omega
        simp only [if_pos hmem, hkmod, hbl]
        rw [drop_takeWhile_length]
        have htag := validate_tag_iff d _ (Nat.le_of_lt hk)
        rw [take_takeWhile_length] at htag
        have hbuild := validate_build_iff (d.dropWhile (fun x => x != SLASH)).tail
        by_cases ht : d.takeWhile (fun x => x != SLASH) = DFU_VALIDATION_STRING
        · have ht2 : ¬ (SLASH ∉ d ∨ d.takeWhile (fun x => x != SLASH) ≠ DFU_VALIDATION_STRING) := by
            simp [hmem, ht]
          rw [if_neg (fun h => (htag.mp h) ht), if_neg ht2]
          by_cases hb : (d.dropWhile (fun x => x != SLASH)).tail = BUILD_NUMBER
          · rw [if_pos (hbuild.mpr hb), if_pos hb]
          · rw [if_neg (fun h => hb (hbuild.mp h)), if_neg hb]
        · rw [if_pos (htag.mpr ht), if_pos (Or.inr ht)]
      · simp only [if_neg hmem]
        rw [if_pos (Or.inl hmem)]
  refine ⟨hmain, ?_⟩
  rw [hmain]
  unfold appDataStatusSpec
  split_ifs <;> simp

/-- Witness of `appData_validate`: the application data `"client/0.0.0"`. -/
theorem appData_validate_witness :
    [99, 108, 105, 101, 110, 116, 47, 48, 46, 48, 46, 48].length ≤ 255 ∧
    MCU_DFU_AppData_Validate [99, 108, 105, 101, 110, 116, 47, 48, 46, 48, 46, 48]
      [99, 108, 105, 101, 110, 116, 47, 48, 46, 48, 46, 48].length
      = appDataStatusSpec [99, 108, 105, 101, 110, 116, 47, 48, 46, 48, 46, 48] :=
  ⟨by decide,
    (appData_validate [99, 108, 105, 101, 110, 116, 47, 48, 46, 48, 46, 48] (by decide)).1⟩

theorem or_bytes_eq_add (a b c d : Nat) (ha : a < 256) (hb : b < 256) (hc : c < 256)
    (hd : d < 256) :
    a % SIZE_MOD ||| (b <<< 8) % SIZE_MOD ||| (c <<< 16) % SIZE_MOD ||| (d <<< 24) % SIZE_MOD
      = a + 256 * b + 65536 * c + 16777216 * d := by
  have e0 : a % SIZE_MOD = a := Nat.mod_eq_of_lt (by unfold SIZE_MOD; omega)
  have e1 : (b <<< 8) % SIZE_MOD = 2 ^ 8 * b := by
    rw [Nat.shiftLeft_eq, Nat.mul_comm]
    exact Nat.mod_eq_of_lt (by unfold SIZE_MOD; omega)
  have e2 : (c <<< 16) % SIZE_MOD = 2 ^ 16 * c := by
    rw [Nat.shiftLeft_eq, Nat.mul_comm]
    exact Nat.mod_eq_of_lt (by unfold SIZE_MOD; omega)
  have e3 : (d <<< 24) % SIZE_MOD = 2 ^ 24 * d := by
    rw [Nat.shiftLeft_eq, Nat.mul_comm]
    exact Nat.mod_eq_of_lt (by unfold SIZE_MOD; omega)
  rw [e0, e1, e2, e3]
  have s1 : a ||| 2 ^ 8 * b = 2 ^ 8 * b + a := by
    rw [Nat.lor_comm, ← Nat.mul_add_lt_is_or (by omega) b]
  have s2 : 2 ^ 8 * b + a ||| 2 ^ 16 * c = 2 ^ 16 * c + (2 ^ 8 * b + a) := by
    rw [Nat.lor_comm, ← Nat.mul_add_lt_is_or (by omega) c]
  have s3 : 2 ^ 16 * c + (2 ^ 8 * b + a) ||| 2 ^ 24 * d
      = 2 ^ 24 * d + (2 ^ 16 * c + (2 ^ 8 * b + a)) := by
    rw [Nat.lor_comm, ← Nat.mul_add_lt_is_or (by omega) d]
  rw [s1, s2, s3]
  omega

/-- The source's shift-and-or read of four bytes is the little-endian value. -/
theorem readU32_eq (p : List Nat) (index : Nat) (h0 : p.getD index 0 < 256)
    (h1 : p.getD (index + 1) 0 < 256) (h2 : p.getD (index + 2) 0 < 256)
    (h3 : p.getD (index + 3) 0 < 256) :
    readU32 p index = p.getD index 0 + 256 * p.getD (index + 1) 0
      + 65536 * p.getD (index + 2) 0 + 16777216 * p.getD (index + 3) 0 := by
  unfold readU32
  exact or_bytes_eq_add _ _ _ _ h0 h1 h2 h3

theorem getD_lt_of_bytes (p : List Nat) (hbytes : ∀ x ∈ p, x < 256) (i : Nat) :
    p.getD i 0 < 256 := by
  by_cases hi : i < p.length
  · rw [List.getD_eq_getElem _ _ hi]
    exact hbytes _ (List.getElem_mem hi)
  · rw [List.getD_eq_default _ _ (Nat.le_of_not_lt hi)]
    omega

/-- C7 (as amended): for every Init request whose application data validates to
SUCCESS, with declared size `size` (the first four payload bytes, little
endian): if `size < Flasher_GetSpaceSize()`, `ProcessDfuInitRequest` erases the
flash region, sends exactly one Init response `[SUCCESS]` and leaves
`in_progress = 1`, `firmware_size = size`,
`firmware_offset = page_offset = page_size = 0`; if
`size ≥ Flasher_GetSpaceSize()` (an image of exactly the size of the space
included) it sends exactly `[INSUFFICIENT_RESOURCES]`, does not erase, and
leaves the session in the zero state with `in_progress = 0`. -/
theorem init_fitting_image {W : Type} (F : Flasher W) (p : List Nat) (len : Nat)
    (s : DfuState) (w : W) (size : Nat)
    (hbytes : ∀ x ∈ p, x < 256)
    (hsize : size = p.getD 0 0 + 256 * p.getD 1 0 + 65536 * p.getD 2 0
      + 16777216 * p.getD 3 0)
    (hvalid : MCU_DFU_AppData_Validate (p.drop 37) (p.getD 36 0) = DFU_SUCCESS) :
    (size < F.Flasher_GetSpaceSize w →
      (ProcessDfuInitRequest F p len s w).events
        = [.Flasher_EraseSpace, .UART_Send UART_CMD_DFU_INIT_RESP [DFU_SUCCESS]] ∧
      (ProcessDfuInitRequest F p len s w).world = F.Flasher_EraseSpace w ∧
      (ProcessDfuInitRequest F p len s w).returns = true ∧
      (ProcessDfuInitRequest F p len s w).state.DfuInProgress = 1 ∧
      (ProcessDfuInitRequest F p len s w).state.FirmwareSize = size ∧
      (ProcessDfuInitRequest F p len s w).state.FirmwareOffset = 0 ∧
      (ProcessDfuInitRequest F p len s w).state.PageOffset = 0 ∧
      (ProcessDfuInitRequest F p len s w).state.PageSize = 0) ∧
    (F.Flasher_GetSpaceSize w ≤ size →
      (ProcessDfuInitRequest F p len s w).events
        = [.UART_Send UART_CMD_DFU_INIT_RESP [DFU_INSUFFICIENT_RESOURCES]] ∧
      (ProcessDfuInitRequest F p len s w).world = w ∧
      (ProcessDfuInitRequest F p len s w).returns = true ∧
      (ProcessDfuInitRequest F p len s w).state = MCU_DFU_ClearStates ∧
      (ProcessDfuInitRequest F p len s w).state.DfuInProgress = 0) := by
  have hread : readU32 p 0 = size := by
    rw [hsize]
    exact readU32_eq p 0 (getD_lt_of_bytes p hbytes _) (getD_lt_of_bytes p hbytes _)
      (getD_lt_of_bytes p hbytes _) (getD_lt_of_bytes p hbytes _)
  constructor
  · intro hfit
    have hgt : F.Flasher_GetSpaceSize w > readU32 p 0 := by omega
    have hr : ProcessDfuInitRequest F p len s w =
        { state := { MCU_DFU_ClearStates with
            FirmwareSize := readU32 p 0,
            Sha256 := readSha256 p MCU_DFU_ClearStates.Sha256,
            DfuInProgress := 1 },
          world := F.Flasher_EraseSpace w,
          events := [.Flasher_EraseSpace, .UART_Send UART_CMD_DFU_INIT_RESP [DFU_SUCCESS]],
          returns := true } := by
      unfold ProcessDfuInitRequest
      dsimp only
      rw [if_neg (by rw [hvalid]; exact fun h => h rfl), if_pos hgt]
    rw [hr]
    exact ⟨rfl, rfl, rfl, rfl, hread, rfl, rfl, rfl⟩
  · intro hnofit
    have hgt : ¬ (F.Flasher_GetSpaceSize w > readU32 p 0) := by omega
    have hr : ProcessDfuInitRequest F p len s w =
        { state := MCU_DFU_ClearStates, world := w,
          events := [.UART_Send UART_CMD_DFU_INIT_RESP [DFU_INSUFFICIENT_RESOURCES]],
          returns := true } := by
      unfold ProcessDfuInitRequest
      dsimp only
      rw [if_neg (by rw [hvalid]; exact fun h => h rfl), if_neg hgt]
    rw [hr]
    exact ⟨rfl, rfl, rfl, rfl, rfl⟩

/-- Witness of `init_fitting_image`: a declared size of 4 bytes and a flash
space of 8 bytes, from the zero session state. -/
theorem init_fitting_image_witness :
    MCU_DFU_AppData_Validate ((initPayloadIgnore 4 0 0 0).drop 37)
        ((initPayloadIgnore 4 0 0 0).getD 36 0) = DFU_SUCCESS ∧
    (4 < (flasherOfSize 8).Flasher_GetSpaceSize () →
      (ProcessDfuInitRequest (flasherOfSize 8) (initPayloadIgnore 4 0 0 0) 43
          MCU_DFU_ClearStates ()).events
        = [.Flasher_EraseSpace, .UART_Send UART_CMD_DFU_INIT_RESP [DFU_SUCCESS]]) :=
  ⟨by decide, fun h =>
    ((init_fitting_image (flasherOfSize 8) (initPayloadIgnore 4 0 0 0) 43 MCU_DFU_ClearStates ()
      4 (by decide) (by decide) (by decide)).1 h).1⟩

/-- C7 (as stated) fails. The declared size is 4 and the flash space is 4 bytes,
so the image does not exceed the space, and the application data validates;
`ProcessDfuInitRequest` answers `[INSUFFICIENT_RESOURCES]`, does not erase, and
leaves `in_progress = 0`. -/
theorem init_fitting_image_counterexample :
    MCU_DFU_AppData_Validate ((initPayloadIgnore 4 0 0 0).drop 37)
        ((initPayloadIgnore 4 0 0 0).getD 36 0) = DFU_SUCCESS ∧
    readU32 (initPayloadIgnore 4 0 0 0) 0 ≤ (flasherOfSize 4).Flasher_GetSpaceSize () ∧
    (ProcessDfuInitRequest (flasherOfSize 4) (initPayloadIgnore 4 0 0 0) 43
        MCU_DFU_ClearStates ()).events
      = [.UART_Send UART_CMD_DFU_INIT_RESP [DFU_INSUFFICIENT_RESOURCES]] ∧
    (ProcessDfuInitRequest (flasherOfSize 4) (initPayloadIgnore 4 0 0 0) 43
        MCU_DFU_ClearStates ()).state.DfuInProgress = 0 := by
  decide

/-- C9: the code at the failing input. After Init, PageCreate(5) and a WriteData
event of 5 bytes the page is complete (`page_offset = page_size = 5`);
`ProcessDfuPageStoreRequest` then calls the flash write at
`Flasher_GetSpaceAddr() + firmware_offset` with the page buffer and a word count
of `5 / 4 = 1`, so 4 bytes are handed to the flash write, while
`firmware_offset` advances by 5 and the response is `[SUCCESS]`. -/
theorem pageStore_drops_page_tail :
    (sessionWithPage [1, 2, 3, 4, 5]).DfuInProgress = 1 ∧
    (sessionWithPage [1, 2, 3, 4, 5]).PageOffset = 5 ∧
    (sessionWithPage [1, 2, 3, 4, 5]).PageSize = 5 ∧
    (sessionWithPage [1, 2, 3, 4, 5]).FirmwareOffset = 0 ∧
    (sessionWithPage [1, 2, 3, 4, 5]).PageBuffer.take 5 = [1, 2, 3, 4, 5] ∧
    (ProcessDfuPageStoreRequest crcOfSum (flasherOfSize 4096) [] 0
        (sessionWithPage [1, 2, 3, 4, 5]) ()).events
      = [.Flasher_SaveMemoryToFlash 0x8000 (sessionWithPage [1, 2, 3, 4, 5]).PageBuffer 1,
         .UART_Send UART_CMD_DFU_PAGE_STORE_RESP [DFU_SUCCESS]] ∧
    4 * 1 ≠ (sessionWithPage [1, 2, 3, 4, 5]).PageSize ∧
    (ProcessDfuPageStoreRequest crcOfSum (flasherOfSize 4096) [] 0
        (sessionWithPage [1, 2, 3, 4, 5]) ()).state.FirmwareOffset = 5 := by
  refine ⟨by decide, by decide, by decide, by decide, by decide, rfl, by decide, by decide⟩

/-- C10: PageStore, more pages expected. For every in-progress session with
`0 < page_offset = page_size` where the flash write succeeds and
`firmware_offset + page_offset ≠ firmware_size` (the `size_t` sum the source
computes, which is the plain sum whenever that is below `2^32`),
`ProcessDfuPageStoreRequest` makes one flash write and sends exactly one
PageStore response `[SUCCESS]`, and leaves
`firmware_offset' = firmware_offset + page_offset`, `page_offset' = 0`,
`page_size' = 0`, with `in_progress`, `firmware_size`, the expected hash and the
page buffer unchanged. -/
theorem pageStore_more_pages {W : Type} (L : CRCLib) (F : Flasher W) (p : List Nat)
    (len : Nat) (s : DfuState) (w : W)
    (hin : s.DfuInProgress ≠ 0) (hpo : 0 < s.PageOffset) (hps : s.PageOffset = s.PageSize)
    (hok : (F.Flasher_SaveMemoryToFlash w ((F.Flasher_GetSpaceAddr w + s.FirmwareOffset) % SIZE_MOD)
      s.PageBuffer (s.PageSize / 4)).1 % U8_MOD = F.FLASHER_SUCCESS)
    (hmore : sizeAdd s.FirmwareOffset s.PageOffset ≠ s.FirmwareSize) :
    (ProcessDfuPageStoreRequest L F p len s w).events
      = [.Flasher_SaveMemoryToFlash ((F.Flasher_GetSpaceAddr w + s.FirmwareOffset) % SIZE_MOD)
            s.PageBuffer (s.PageSize / 4),
         .UART_Send UART_CMD_DFU_PAGE_STORE_RESP [DFU_SUCCESS]] ∧
    (ProcessDfuPageStoreRequest L F p len s w).returns = true ∧
    (ProcessDfuPageStoreRequest L F p len s w).state.FirmwareOffset
      = sizeAdd s.FirmwareOffset s.PageOffset ∧
    (s.FirmwareOffset + s.PageOffset < SIZE_MOD →
      (ProcessDfuPageStoreRequest L F p len s w).state.FirmwareOffset
        = s.FirmwareOffset + s.PageOffset) ∧
    (ProcessDfuPageStoreRequest L F p len s w).state.PageOffset = 0 ∧
    (ProcessDfuPageStoreRequest L F p len s w).state.PageSize = 0 ∧
    (ProcessDfuPageStoreRequest L F p len s w).state.DfuInProgress = s.DfuInProgress ∧
    (ProcessDfuPageStoreRequest L F p len s w).state.FirmwareSize = s.FirmwareSize ∧
    (ProcessDfuPageStoreRequest L F p len s w).state.Sha256 = s.Sha256 ∧
    (ProcessDfuPageStoreRequest L F p len s w).state.PageBuffer = s.PageBuffer := by
  have hpo2 : ¬ s.PageOffset = 0 := by omega
  have hps2 : ¬ s.PageOffset ≠ s.PageSize := fun h => h hps
  have hok2 : ¬ ((F.Flasher_SaveMemoryToFlash w
      ((F.Flasher_GetSpaceAddr w + s.FirmwareOffset) % SIZE_MOD)
      s.PageBuffer (s.PageSize / 4)).1 % U8_MOD ≠ F.FLASHER_SUCCESS) := fun h => h hok
  have hr : ProcessDfuPageStoreRequest L F p len s w =
      { state := { s with
          FirmwareOffset := sizeAdd s.FirmwareOffset s.PageOffset, PageOffset := 0,
          PageSize := 0 },
        world := (F.Flasher_SaveMemoryToFlash w
          ((F.Flasher_GetSpaceAddr w + s.FirmwareOffset) % SIZE_MOD)
          s.PageBuffer (s.PageSize / 4)).2,
        events := [.Flasher_SaveMemoryToFlash
            ((F.Flasher_GetSpaceAddr w + s.FirmwareOffset) % SIZE_MOD)
            s.PageBuffer (s.PageSize / 4),
          .UART_Send UART_CMD_DFU_PAGE_STORE_RESP [DFU_SUCCESS]],
        returns := true } := by
    unfold ProcessDfuPageStoreRequest
    dsimp only
    rw [if_neg hin, if_neg hpo2, if_neg hps2, if_neg hok2, if_pos hmore]
  rw [hr]
  refine ⟨rfl, rfl, rfl, ?_, rfl, rfl, rfl, rfl, rfl, rfl⟩
  intro hlt
  exact sizeAdd_of_lt _ _ hlt

/-- Witness of `pageStore_more_pages`: a complete page of 8 bytes in a session
that expects 100 bytes. -/
theorem pageStore_more_pages_witness :
    (sessionWithPage [1, 2, 3, 4, 5, 6, 7, 8]).DfuInProgress ≠ 0 ∧
    0 < (sessionWithPage [1, 2, 3, 4, 5, 6, 7, 8]).PageOffset ∧
    (sessionWithPage [1, 2, 3, 4, 5, 6, 7, 8]).PageOffset
      = (sessionWithPage [1, 2, 3, 4, 5, 6, 7, 8]).PageSize ∧
    (ProcessDfuPageStoreRequest crcOfSum (flasherOfSize 4096) [] 0
        (sessionWithPage [1, 2, 3, 4, 5, 6, 7, 8]) ()).state.FirmwareOffset
      = sizeAdd (sessionWithPage [1, 2, 3, 4, 5, 6, 7, 8]).FirmwareOffset
          (sessionWithPage [1, 2, 3, 4, 5, 6, 7, 8]).PageOffset :=
  ⟨by decide, by decide, by decide,
    (pageStore_more_pages crcOfSum (flasherOfSize 4096) [] 0
      (sessionWithPage [1, 2, 3, 4, 5, 6, 7, 8]) () (by decide) (by decide) (by decide)
      (by decide) (by decide)).2.2.1⟩

/-! ## DFU engine: page store, session boundaries and Init decoding -/

theorem getD_tail (a : List Nat) (i : Nat) : a.tail.getD i 0 = a.getD (i + 1) 0 := by
  cases a <;> simp

/-- Two arrays compare equal under `memcmp` exactly when their first `n` bytes agree. -/
theorem memcmp_eq_zero_iff_bytes (n : Nat) :
    ∀ a b : List Nat, memcmp a b n = 0 ↔ ∀ i, i < n → a.getD i 0 = b.getD i 0 := by
  induction n with
  | zero => intro a b; simp [memcmp]
  | succ n ih =>
    intro a b
    simp only [memcmp]
    by_cases h0 : a.getD 0 0 = b.getD 0 0
    · have hne : ¬ a.getD 0 0 ≠ b.getD 0 0 := fun h => h h0
      rw [if_neg hne, ih]
      constructor
      · intro h i hi
        cases i with
        | zero => exact h0
        | succ i =>
          have := h i (by omega)
          rwa [getD_tail, getD_tail] at this
      · intro h i hi
        rw [getD_tail, getD_tail]
        exact h (i + 1) (by omega)
    · rw [if_pos h0]
      constructor
      · intro h
        exfalso
        omega
      · intro h
        exact absurd (h 0 (by omega)) h0

theorem clear_DfuInProgress : MCU_DFU_ClearStates.DfuInProgress = 0 := rfl
theorem clear_FirmwareSize : MCU_DFU_ClearStates.FirmwareSize = 0 := rfl
theorem clear_FirmwareOffset : MCU_DFU_ClearStates.FirmwareOffset = 0 := rfl
theorem clear_PageOffset : MCU_DFU_ClearStates.PageOffset = 0 := rfl
theorem clear_PageSize : MCU_DFU_ClearStates.PageSize = 0 := rfl

/-- The handler on a complete page of an open session, up to the result of
the flash write. -/
theorem pageStore_complete {W : Type} (L : CRCLib) (F : Flasher W) (p : List Nat) (len : Nat)
    (s : DfuState) (w : W) (hin : s.DfuInProgress ≠ 0) (hpo : 0 < s.PageOffset)
    (hps : s.PageOffset = s.PageSize) :
    ProcessDfuPageStoreRequest L F p len s w =
      if (pageStoreSave F s w).1 % U8_MOD ≠ F.FLASHER_SUCCESS then
        { state := s, world := (pageStoreSave F s w).2,
          events := [pageStoreSaveEvent F s w,
            .UART_Send UART_CMD_DFU_PAGE_STORE_RESP [DFU_OPERATION_FAILED]],
          returns := true }
      else if sizeAdd s.FirmwareOffset s.PageOffset ≠ s.FirmwareSize then
        { state := { s with
            FirmwareOffset := sizeAdd s.FirmwareOffset s.PageOffset, PageOffset := 0,
            PageSize := 0 },
          world := (pageStoreSave F s w).2,
          events := [pageStoreSaveEvent F s w,
            .UART_Send UART_CMD_DFU_PAGE_STORE_RESP [DFU_SUCCESS]],
          returns := true }
      else if ¬ (0 = memcmp
          (L.CalcSHA256 (F.memory (pageStoreSave F s w).2
            (F.Flasher_GetSpaceAddr (pageStoreSave F s w).2)
            (sizeAdd s.FirmwareOffset s.PageOffset)))
          s.Sha256 SHA256_SIZE) then
        { state := MCU_DFU_ClearStates, world := (pageStoreSave F s w).2,
          events := [pageStoreSaveEvent F s w,
            .UART_Send UART_CMD_DFU_PAGE_STORE_RESP [DFU_INVALID_OBJECT]],
          returns := true }
      else
        { state := MCU_DFU_ClearStates,
          world := F.Flasher_UpdateFirmware (pageStoreSave F s w).2 (s.FirmwareSize / 4),
          events := [pageStoreSaveEvent F s w,
            .UART_Send UART_CMD_DFU_PAGE_STORE_RESP [DFU_FIRMWARE_SUCCESSFULLY_UPDATED],
            .Flasher_UpdateFirmware (s.FirmwareSize / 4)],
          returns := false } := by
  have hpo2 : ¬ s.PageOffset = 0 := by omega
  have hps2 : ¬ s.PageOffset ≠ s.PageSize := fun h => h hps
  unfold ProcessDfuPageStoreRequest pageStoreSave pageStoreSaveEvent
  dsimp only
  rw [if_neg hin, if_neg hpo2, if_neg hps2]
  by_cases h1 : (F.Flasher_SaveMemoryToFlash w
      ((F.Flasher_GetSpaceAddr w + s.FirmwareOffset) % SIZE_MOD) s.PageBuffer
      (s.PageSize / 4)).1 % U8_MOD ≠ F.FLASHER_SUCCESS
  · rw [if_pos h1, if_pos h1]
  · rw [if_neg h1, if_neg h1]
    by_cases h2 : sizeAdd s.FirmwareOffset s.PageOffset ≠ s.FirmwareSize
    · rw [if_pos h2, if_pos h2]
    · rw [if_neg h2, if_neg h2]
      by_cases h3 : 0 = memcmp
          (L.CalcSHA256 (F.memory (F.Flasher_SaveMemoryToFlash w
              ((F.Flasher_GetSpaceAddr w + s.FirmwareOffset) % SIZE_MOD) s.PageBuffer
              (s.PageSize / 4)).2
            (F.Flasher_GetSpaceAddr (F.Flasher_SaveMemoryToFlash w
              ((F.Flasher_GetSpaceAddr w + s.FirmwareOffset) % SIZE_MOD) s.PageBuffer
              (s.PageSize / 4)).2)
            (sizeAdd s.FirmwareOffset s.PageOffset)))
          s.Sha256 SHA256_SIZE
      · have h4 : ¬ ((!decide (0 = memcmp
          (L.CalcSHA256 (F.memory (F.Flasher_SaveMemoryToFlash w
              ((F.Flasher_GetSpaceAddr w + s.FirmwareOffset) % SIZE_MOD) s.PageBuffer
              (s.PageSize / 4)).2
            (F.Flasher_GetSpaceAddr (F.Flasher_SaveMemoryToFlash w
              ((F.Flasher_GetSpaceAddr w + s.FirmwareOffset) % SIZE_MOD) s.PageBuffer
              (s.PageSize / 4)).2)
            (sizeAdd s.FirmwareOffset s.PageOffset)))
          s.Sha256 SHA256_SIZE)) = true) := by
          rw [decide_eq_true h3]
          decide
        rw [if_neg h4, if_neg (not_not.mpr h3)]
      · have h4 : (!decide (0 = memcmp
          (L.CalcSHA256 (F.memory (F.Flasher_SaveMemoryToFlash w
              ((F.Flasher_GetSpaceAddr w + s.FirmwareOffset) % SIZE_MOD) s.PageBuffer
              (s.PageSize / 4)).2
            (F.Flasher_GetSpaceAddr (F.Flasher_SaveMemoryToFlash w
              ((F.Flasher_GetSpaceAddr w + s.FirmwareOffset) % SIZE_MOD) s.PageBuffer
              (s.PageSize / 4)).2)
            (sizeAdd s.FirmwareOffset s.PageOffset)))
          s.Sha256 SHA256_SIZE)) = true := by
          rw [decide_eq_false h3]
          decide
        rw [if_pos h4, if_pos h3]

/-- C11: PageStore, final page with matching hash. For every in-progress
session with `0 < page_offset = page_size` where the flash write succeeds,
`firmware_offset + page_offset = firmware_size` (the `size_t` sum of the
source) and the 32 bytes of the SHA-256 of the flashed region
`[base, base + firmware_size)` equal `expected_sha256`,
`ProcessDfuPageStoreRequest` makes the flash write, sends exactly one PageStore
response `[FIRMWARE_SUCCESSFULLY_UPDATED]`, leaves the whole session state
zeroed, and calls `Flasher_UpdateFirmware` last, with `firmware_size / 4`
computed from the `firmware_size` held before the reset; control does not
return from the handler. -/
theorem pageStore_final_page_updates {W : Type} (L : CRCLib) (F : Flasher W) (p : List Nat)
    (len : Nat) (s : DfuState) (w : W)
    (hin : s.DfuInProgress ≠ 0) (hpo : 0 < s.PageOffset) (hps : s.PageOffset = s.PageSize)
    (hok : (pageStoreSave F s w).1 % U8_MOD = F.FLASHER_SUCCESS)
    (hlast : sizeAdd s.FirmwareOffset s.PageOffset = s.FirmwareSize)
    (hsha : ∀ i, i < SHA256_SIZE →
      (L.CalcSHA256 (F.memory (pageStoreSave F s w).2
        (F.Flasher_GetSpaceAddr (pageStoreSave F s w).2) s.FirmwareSize)).getD i 0
        = s.Sha256.getD i 0) :
    (ProcessDfuPageStoreRequest L F p len s w).events
      = [pageStoreSaveEvent F s w,
         .UART_Send UART_CMD_DFU_PAGE_STORE_RESP [DFU_FIRMWARE_SUCCESSFULLY_UPDATED],
         .Flasher_UpdateFirmware (s.FirmwareSize / 4)] ∧
    (ProcessDfuPageStoreRequest L F p len s w).state = MCU_DFU_ClearStates ∧
    (ProcessDfuPageStoreRequest L F p len s w).world
      = F.Flasher_UpdateFirmware (pageStoreSave F s w).2 (s.FirmwareSize / 4) ∧
    (ProcessDfuPageStoreRequest L F p len s w).returns = false := by
  have hcmp : 0 = memcmp
      (L.CalcSHA256 (F.memory (pageStoreSave F s w).2
        (F.Flasher_GetSpaceAddr (pageStoreSave F s w).2)
        (sizeAdd s.FirmwareOffset s.PageOffset)))
      s.Sha256 SHA256_SIZE := by
    rw [hlast]
    exact ((memcmp_eq_zero_iff_bytes _ _ _).mpr hsha).symm
  rw [pageStore_complete L F p len s w hin hpo hps, if_neg (fun h => h hok),
    if_neg (fun h => h hlast), if_neg (fun h => h hcmp)]
  exact ⟨rfl, rfl, rfl, rfl⟩

/-- C12: PageStore, final page with wrong hash. For every in-progress session
in which the page just stored brings `firmware_offset` to `firmware_size` but
the SHA-256 of the flashed region differs from `expected_sha256` in one of its
32 bytes, `ProcessDfuPageStoreRequest` responds `[INVALID_OBJECT]`, does not
call `Flasher_UpdateFirmware`, and leaves the session in the zero state; a
Status request that follows immediately reports the cumulative offset 0 (and
the CRC32 of no bytes), and `in_progress` is false. -/
theorem pageStore_final_page_wrong_hash {W : Type} (L : CRCLib) (F : Flasher W)
    (p q : List Nat) (len qlen : Nat) (s : DfuState) (w : W)
    (hin : s.DfuInProgress ≠ 0) (hpo : 0 < s.PageOffset) (hps : s.PageOffset = s.PageSize)
    (hok : (pageStoreSave F s w).1 % U8_MOD = F.FLASHER_SUCCESS)
    (hlast : sizeAdd s.FirmwareOffset s.PageOffset = s.FirmwareSize)
    (hsha : ¬ ∀ i, i < SHA256_SIZE →
      (L.CalcSHA256 (F.memory (pageStoreSave F s w).2
        (F.Flasher_GetSpaceAddr (pageStoreSave F s w).2) s.FirmwareSize)).getD i 0
        = s.Sha256.getD i 0) :
    (ProcessDfuPageStoreRequest L F p len s w).events
      = [pageStoreSaveEvent F s w,
         .UART_Send UART_CMD_DFU_PAGE_STORE_RESP [DFU_INVALID_OBJECT]] ∧
    (∀ n, DfuEvent.Flasher_UpdateFirmware n ∉ (ProcessDfuPageStoreRequest L F p len s w).events) ∧
    (ProcessDfuPageStoreRequest L F p len s w).state = MCU_DFU_ClearStates ∧
    (ProcessDfuPageStoreRequest L F p len s w).state.DfuInProgress = 0 ∧
    (ProcessDfuPageStoreRequest L F p len s w).world = (pageStoreSave F s w).2 ∧
    (ProcessDfuPageStoreRequest L F p len s w).returns = true ∧
    (ProcessDfuStatusRequest L F q qlen (ProcessDfuPageStoreRequest L F p len s w).state
        (ProcessDfuPageStoreRequest L F p len s w).world).events
      = [.UART_Send UART_CMD_DFU_STATUS_RESP
          ([DFU_SUCCESS] ++ bytesU32 MAX_PAGE_SIZE ++ [0, 0, 0, 0]
            ++ bytesU32 (not32 L.CRC32_INIT_VAL))] := by
  have hcmp : ¬ (0 = memcmp
      (L.CalcSHA256 (F.memory (pageStoreSave F s w).2
        (F.Flasher_GetSpaceAddr (pageStoreSave F s w).2)
        (sizeAdd s.FirmwareOffset s.PageOffset)))
      s.Sha256 SHA256_SIZE) := by
    rw [hlast]
    intro h
    exact hsha ((memcmp_eq_zero_iff_bytes _ _ _).mp h.symm)
  rw [pageStore_complete L F p len s w hin hpo hps, if_neg (fun h => h hok),
    if_neg (fun h => h hlast), if_pos hcmp]
  refine ⟨rfl, ?_, rfl, rfl, rfl, rfl, ?_⟩
  · intro n hmem
    simp [pageStoreSaveEvent] at hmem
  · unfold ProcessDfuStatusRequest MCU_DFU_CalcCRC
    dsimp only
    rw [clear_FirmwareOffset, clear_PageOffset, if_neg (fun h => h rfl),
      if_neg (fun h => h rfl)]
    rfl

/-- C13: PageStore rejects a partial page. For every in-progress session with
`0 < page_offset < page_size`, `ProcessDfuPageStoreRequest` sends exactly one
PageStore response `[OPERATION_NOT_PERMITTED]`, makes no call of the flash
interface, and leaves every session field (the partially filled page
included) and the world unchanged. -/
theorem pageStore_partial_page {W : Type} (L : CRCLib) (F : Flasher W) (p : List Nat)
    (len : Nat) (s : DfuState) (w : W)
    (hin : s.DfuInProgress ≠ 0) (hpo : 0 < s.PageOffset) (hlt : s.PageOffset < s.PageSize) :
    (ProcessDfuPageStoreRequest L F p len s w).events
      = [.UART_Send UART_CMD_DFU_PAGE_STORE_RESP [DFU_OPERATION_NOT_PERMITTED]] ∧
    (ProcessDfuPageStoreRequest L F p len s w).state = s ∧
    (ProcessDfuPageStoreRequest L F p len s w).world = w ∧
    (ProcessDfuPageStoreRequest L F p len s w).returns = true := by
  have hpo2 : ¬ s.PageOffset = 0 := by omega
  have hne : s.PageOffset ≠ s.PageSize := by omega
  unfold ProcessDfuPageStoreRequest
  dsimp only
  rw [if_neg hin, if_neg hpo2, if_pos hne]
  exact ⟨rfl, rfl, rfl, rfl⟩

theorem pageStore_empty {W : Type} (L : CRCLib) (F : Flasher W) (p : List Nat)
    (len : Nat) (s : DfuState) (w : W) (hin : s.DfuInProgress ≠ 0) (hpo : s.PageOffset = 0) :
    ProcessDfuPageStoreRequest L F p len s w =
      { state := s, world := w,
        events := [.UART_Send UART_CMD_DFU_PAGE_STORE_RESP [DFU_SUCCESS]], returns := true } := by
  unfold ProcessDfuPageStoreRequest
  dsimp only
  rw [if_neg hin, if_pos hpo]

/-- C14: an empty PageStore is an idempotent no-op. For every in-progress
session with `page_offset = 0`, whatever `page_size` is,
`ProcessDfuPageStoreRequest` sends `[SUCCESS]`, makes no call of the flash
interface, and leaves the session state and the world unchanged; hence `n`
such requests in a row send `n` times `[SUCCESS]` and leave the same state,
for every `n`. -/
theorem pageStore_empty_noop {W : Type} (L : CRCLib) (F : Flasher W) (p : List Nat)
    (len : Nat) (s : DfuState) (w : W) (hin : s.DfuInProgress ≠ 0) (hpo : s.PageOffset = 0) :
    (ProcessDfuPageStoreRequest L F p len s w).events
      = [.UART_Send UART_CMD_DFU_PAGE_STORE_RESP [DFU_SUCCESS]] ∧
    (ProcessDfuPageStoreRequest L F p len s w).state = s ∧
    (ProcessDfuPageStoreRequest L F p len s w).world = w ∧
    (ProcessDfuPageStoreRequest L F p len s w).returns = true ∧
    ∀ n : Nat,
      (pageStoreTimes L F p len n s w).events
        = List.replicate n (.UART_Send UART_CMD_DFU_PAGE_STORE_RESP [DFU_SUCCESS]) ∧
      (pageStoreTimes L F p len n s w).state = s ∧
      (pageStoreTimes L F p len n s w).world = w ∧
      (pageStoreTimes L F p len n s w).returns = true := by
  have h1 := pageStore_empty L F p len s w hin hpo
  refine ⟨by rw [h1], by rw [h1], by rw [h1], by rw [h1], ?_⟩
  intro n
  induction n with
  | zero => exact ⟨rfl, rfl, rfl, rfl⟩
  | succ n ih =>
    obtain ⟨e1, e2, e3, e4⟩ := ih
    simp only [pageStoreTimes, h1, if_true]
    refine ⟨?_, e2, e3, e4⟩
    rw [e1, List.replicate_succ]
    rfl

/-- C15: a flash write failure is retryable. For every in-progress session with
a complete page where `Flasher_SaveMemoryToFlash` returns a value other than
`FLASHER_SUCCESS`, `ProcessDfuPageStoreRequest` responds `[OPERATION_FAILED]`
and leaves the entire session state unchanged; a second PageStore, in the world
the failed call left, issues the flash write for the same address offset, page
buffer and word count, and when that write succeeds it either advances
`firmware_offset` by `page_offset` or completes the transfer. -/
theorem pageStore_flash_failure {W : Type} (L : CRCLib) (F : Flasher W) (p q : List Nat)
    (len qlen : Nat) (s : DfuState) (w : W)
    (hin : s.DfuInProgress ≠ 0) (hpo : 0 < s.PageOffset) (hps : s.PageOffset = s.PageSize)
    (hfail : (pageStoreSave F s w).1 % U8_MOD ≠ F.FLASHER_SUCCESS) :
    (ProcessDfuPageStoreRequest L F p len s w).events
      = [pageStoreSaveEvent F s w,
         .UART_Send UART_CMD_DFU_PAGE_STORE_RESP [DFU_OPERATION_FAILED]] ∧
    (ProcessDfuPageStoreRequest L F p len s w).state = s ∧
    (ProcessDfuPageStoreRequest L F p len s w).world = (pageStoreSave F s w).2 ∧
    (ProcessDfuPageStoreRequest L F p len s w).returns = true ∧
    (ProcessDfuPageStoreRequest L F q qlen (ProcessDfuPageStoreRequest L F p len s w).state
        (ProcessDfuPageStoreRequest L F p len s w).world).events.head?
      = some (pageStoreSaveEvent F s (pageStoreSave F s w).2) ∧
    ((pageStoreSave F s (pageStoreSave F s w).2).1 % U8_MOD = F.FLASHER_SUCCESS →
      ((ProcessDfuPageStoreRequest L F q qlen (ProcessDfuPageStoreRequest L F p len s w).state
          (ProcessDfuPageStoreRequest L F p len s w).world).state.FirmwareOffset
          = sizeAdd s.FirmwareOffset s.PageOffset ∧
        (ProcessDfuPageStoreRequest L F q qlen (ProcessDfuPageStoreRequest L F p len s w).state
          (ProcessDfuPageStoreRequest L F p len s w).world).state.PageOffset = 0) ∨
      (ProcessDfuPageStoreRequest L F q qlen (ProcessDfuPageStoreRequest L F p len s w).state
          (ProcessDfuPageStoreRequest L F p len s w).world).state = MCU_DFU_ClearStates) := by
  have h1 : ProcessDfuPageStoreRequest L F p len s w =
      { state := s, world := (pageStoreSave F s w).2,
        events := [pageStoreSaveEvent F s w,
          .UART_Send UART_CMD_DFU_PAGE_STORE_RESP [DFU_OPERATION_FAILED]],
        returns := true } := by
    rw [pageStore_complete L F p len s w hin hpo hps, if_pos hfail]
  rw [h1]
  refine ⟨rfl, rfl, rfl, rfl, ?_, ?_⟩
  · show (ProcessDfuPageStoreRequest L F q qlen s (pageStoreSave F s w).2).events.head? = _
    rw [pageStore_complete L F q qlen s _ hin hpo hps]
    split_ifs <;> rfl
  · intro hok
    show ((ProcessDfuPageStoreRequest L F q qlen s (pageStoreSave F s w).2).state.FirmwareOffset
          = sizeAdd s.FirmwareOffset s.PageOffset ∧
        (ProcessDfuPageStoreRequest L F q qlen s (pageStoreSave F s w).2).state.PageOffset = 0) ∨
      (ProcessDfuPageStoreRequest L F q qlen s (pageStoreSave F s w).2).state
        = MCU_DFU_ClearStates
    rw [pageStore_complete L F q qlen s _ hin hpo hps, if_neg (fun h => h hok)]
    split_ifs
    · exact Or.inl ⟨rfl, rfl⟩
    · exact Or.inr rfl
    · exact Or.inr rfl

/-- C16: commands outside a session. Whenever `in_progress` is false, for every
payload, PageCreate and PageStore each send their response with payload
`[OPERATION_NOT_PERMITTED]` followed by a Cancel request with empty payload,
WriteData sends only the Cancel request, and in all three cases no call of the
flash interface is made and the session state and the world stay as they
were. -/
theorem commands_outside_session {W : Type} (L : CRCLib) (F : Flasher W) (p : List Nat)
    (len : Nat) (s : DfuState) (w : W) (hidle : s.DfuInProgress = 0) :
    ((ProcessDfuPageCreateRequest p len s w).events
        = [.UART_Send UART_CMD_DFU_PAGE_CREATE_RESP [DFU_OPERATION_NOT_PERMITTED],
           .UART_Send UART_CMD_DFU_CANCEL_REQ []] ∧
      (ProcessDfuPageCreateRequest p len s w).state = s ∧
      (ProcessDfuPageCreateRequest p len s w).world = w) ∧
    ((ProcessDfuPageStoreRequest L F p len s w).events
        = [.UART_Send UART_CMD_DFU_PAGE_STORE_RESP [DFU_OPERATION_NOT_PERMITTED],
           .UART_Send UART_CMD_DFU_CANCEL_REQ []] ∧
      (ProcessDfuPageStoreRequest L F p len s w).state = s ∧
      (ProcessDfuPageStoreRequest L F p len s w).world = w) ∧
    ((ProcessDfuWriteDataEvent p len s w).events = [.UART_Send UART_CMD_DFU_CANCEL_REQ []] ∧
      (ProcessDfuWriteDataEvent p len s w).state = s ∧
      (ProcessDfuWriteDataEvent p len s w).world = w) := by
  refine ⟨?_, ?_, ?_⟩
  · unfold ProcessDfuPageCreateRequest
    dsimp only
    rw [if_pos hidle]
    exact ⟨rfl, rfl, rfl⟩
  · unfold ProcessDfuPageStoreRequest
    dsimp only
    rw [if_pos hidle]
    exact ⟨rfl, rfl, rfl⟩
  · unfold ProcessDfuWriteDataEvent
    dsimp only
    rw [if_pos hidle]
    exact ⟨rfl, rfl, rfl⟩

theorem init_firmwareOffset {W : Type} (F : Flasher W) (p : List Nat) (len : Nat)
    (s : DfuState) (w : W) : (ProcessDfuInitRequest F p len s w).state.FirmwareOffset = 0 := by
  unfold ProcessDfuInitRequest
  dsimp only
  split_ifs <;> rfl

theorem pageCreate_firmwareOffset {W : Type} (p : List Nat) (len : Nat) (s : DfuState) (w : W) :
    (ProcessDfuPageCreateRequest p len s w).state.FirmwareOffset = s.FirmwareOffset := by
  unfold ProcessDfuPageCreateRequest
  dsimp only
  split_ifs <;> rfl

theorem writeData_firmwareOffset {W : Type} (p : List Nat) (len : Nat) (s : DfuState) (w : W) :
    (ProcessDfuWriteDataEvent p len s w).state.FirmwareOffset = s.FirmwareOffset := by
  unfold ProcessDfuWriteDataEvent
  dsimp only
  split_ifs <;> rfl

theorem stateCheck_state {W : Type} (p : List Nat) (len : Nat) (s : DfuState) (w : W) :
    (ProcessDfuStateCheckResponse p len s w).state = s := by
  unfold ProcessDfuStateCheckResponse
  dsimp only
  split_ifs <;> rfl

/-- What `ProcessDfuPageStoreRequest` does to `FirmwareOffset`: nothing, a reset
to 0, or the advance by `PageOffset` after a flash write that succeeded. -/
theorem pageStore_firmwareOffset {W : Type} (L : CRCLib) (F : Flasher W) (p : List Nat)
    (len : Nat) (s : DfuState) (w : W) :
    (ProcessDfuPageStoreRequest L F p len s w).state.FirmwareOffset = s.FirmwareOffset ∨
    (ProcessDfuPageStoreRequest L F p len s w).state.FirmwareOffset = 0 ∨
    (pageStoreSaveEvent F s w ∈ (ProcessDfuPageStoreRequest L F p len s w).events ∧
      (pageStoreSave F s w).1 % U8_MOD = F.FLASHER_SUCCESS ∧
      (ProcessDfuPageStoreRequest L F p len s w).state.FirmwareOffset
        = sizeAdd s.FirmwareOffset s.PageOffset) := by
  by_cases hin : s.DfuInProgress = 0
  · left
    unfold ProcessDfuPageStoreRequest
    dsimp only
    rw [if_pos hin]
  · by_cases hpo : s.PageOffset = 0
    · left
      rw [pageStore_empty L F p len s w hin hpo]
    · by_cases hps : s.PageOffset = s.PageSize
      · rw [pageStore_complete L F p len s w hin (by omega) hps]
        by_cases hok : (pageStoreSave F s w).1 % U8_MOD = F.FLASHER_SUCCESS
        · rw [if_neg (fun h => h hok)]
          split_ifs
          · right; right
            exact ⟨by simp, hok, rfl⟩
          · right; left; rfl
          · right; left; rfl
        · left
          rw [if_pos hok]
      · left
        unfold ProcessDfuPageStoreRequest
        dsimp only
        rw [if_neg hin, if_neg hpo, if_pos hps]

/-- C17: `firmware_offset` advances only after a successful flash write. For
every DFU handler, every session state and every payload: if the handler leaves
`firmware_offset` larger than it found it, then the handler is
`ProcessDfuPageStoreRequest`, it issued the flash write, the write returned
`FLASHER_SUCCESS`, and the new value is the old `firmware_offset` plus the old
`page_offset`; every change of `firmware_offset` other than that advance of
`ProcessDfuPageStoreRequest` (which is computed in `size_t`) is a reset
to 0. -/
theorem firmwareOffset_advances_after_flash_write {W : Type} (L : CRCLib) (F : Flasher W)
    (c : DfuCommand) (p : List Nat) (len : Nat) (s : DfuState) (w : W)
    (hpo : s.PageOffset < SIZE_MOD) :
    (s.FirmwareOffset < (dfuHandle L F c p len s w).state.FirmwareOffset →
      c = .PageStoreRequest ∧
      pageStoreSaveEvent F s w ∈ (dfuHandle L F c p len s w).events ∧
      (pageStoreSave F s w).1 % U8_MOD = F.FLASHER_SUCCESS ∧
      (dfuHandle L F c p len s w).state.FirmwareOffset = s.FirmwareOffset + s.PageOffset) ∧
    ((dfuHandle L F c p len s w).state.FirmwareOffset ≠ s.FirmwareOffset →
      (dfuHandle L F c p len s w).state.FirmwareOffset = 0 ∨
      (c = .PageStoreRequest ∧
        pageStoreSaveEvent F s w ∈ (dfuHandle L F c p len s w).events ∧
        (pageStoreSave F s w).1 % U8_MOD = F.FLASHER_SUCCESS ∧
        (dfuHandle L F c p len s w).state.FirmwareOffset
          = sizeAdd s.FirmwareOffset s.PageOffset)) := by
  have hwrap : ∀ x, x = sizeAdd s.FirmwareOffset s.PageOffset → s.FirmwareOffset < x →
      x = s.FirmwareOffset + s.PageOffset := by
    intro x hx hlt
    unfold sizeAdd SIZE_MOD at *
    omega
  cases c with
  | InitRequest =>
    have h := init_firmwareOffset F p len s w
    simp only [dfuHandle]
    rw [h]
    exact ⟨fun hlt => absurd hlt (by omega), fun _ => Or.inl rfl⟩
  | StatusRequest =>
    simp only [dfuHandle, ProcessDfuStatusRequest]
    exact ⟨fun hlt => absurd hlt (by omega), fun hne => absurd rfl hne⟩
  | PageCreateRequest =>
    have h := pageCreate_firmwareOffset p len s w
    simp only [dfuHandle]
    rw [h]
    exact ⟨fun hlt => absurd hlt (by omega), fun hne => absurd rfl hne⟩
  | WriteDataEvent =>
    have h := writeData_firmwareOffset p len s w
    simp only [dfuHandle]
    rw [h]
    exact ⟨fun hlt => absurd hlt (by omega), fun hne => absurd rfl hne⟩
  | PageStoreRequest =>
    simp only [dfuHandle]
    rcases pageStore_firmwareOffset L F p len s w with h | h | ⟨h1, h2, h3⟩
    · rw [h]
      exact ⟨fun hlt => absurd hlt (by omega), fun hne => absurd rfl hne⟩
    · rw [h]
      exact ⟨fun hlt => absurd hlt (by omega), fun _ => Or.inl rfl⟩
    · refine ⟨fun hlt => ⟨trivial, h1, h2, hwrap _ h3 hlt⟩, fun _ => Or.inr ⟨trivial, h1, h2, h3⟩⟩
  | StateCheckResponse =>
    have h := stateCheck_state p len s w
    simp only [dfuHandle]
    rw [h]
    exact ⟨fun hlt => absurd hlt (by omega), fun hne => absurd rfl hne⟩
  | CancelResponse =>
    simp only [dfuHandle, ProcessDfuCancelResponse]
    exact ⟨fun hlt => absurd hlt (by rw [clear_FirmwareOffset]; omega), fun _ => Or.inl rfl⟩

theorem take_succ_head_tail (a : List Nat) (j : Nat) :
    (a.take (j + 1)).getD 0 0 = a.getD 0 0 ∧ (a.take (j + 1)).tail = a.tail.take j := by
  cases a <;> simp

theorem memcmp_take (n : Nat) : ∀ (a b : List Nat) (j : Nat), n ≤ j →
    memcmp (a.take j) b n = memcmp a b n := by
  induction n with
  | zero => intro a b j _; rfl
  | succ n ih =>
    intro a b j hj
    obtain ⟨j', rfl⟩ : ∃ j', j = j' + 1 := ⟨j - 1, by omega⟩
    obtain ⟨h1, h2⟩ := take_succ_head_tail a j'
    simp only [memcmp, h1, h2, ih a.tail b.tail j' (by omega)]

theorem strncmp_take (n : Nat) : ∀ (a b : List Nat) (j : Nat), n ≤ j →
    strncmp (a.take j) b n = strncmp a b n := by
  induction n with
  | zero => intro a b j _; rfl
  | succ n ih =>
    intro a b j hj
    obtain ⟨j', rfl⟩ : ∃ j', j = j' + 1 := ⟨j - 1, by omega⟩
    obtain ⟨h1, h2⟩ := take_succ_head_tail a j'
    simp only [strncmp, h1, h2, ih a.tail b.tail j' (by omega)]

theorem memchr_take (c n : Nat) : ∀ (a : List Nat) (j : Nat), n ≤ j →
    memchr (a.take j) c n = memchr a c n := by
  induction n with
  | zero => intro a j _; rfl
  | succ n ih =>
    intro a j hj
    obtain ⟨j', rfl⟩ : ∃ j', j = j' + 1 := ⟨j - 1, by omega⟩
    obtain ⟨h1, h2⟩ := take_succ_head_tail a j'
    simp only [memchr, h1, h2, ih a.tail j' (by omega)]

theorem memchr_lt (c n : Nat) : ∀ (a : List Nat) (k : Nat), memchr a c n = some k → k < n := by
  induction n with
  | zero => intro a k h; simp [memchr] at h
  | succ n ih =>
    intro a k h
    simp only [memchr] at h
    by_cases h0 : a.getD 0 0 = c
    · rw [if_pos h0] at h
      have : k = 0 := by simpa using h.symm
      omega
    · rw [if_neg h0] at h
      cases hm : memchr a.tail c n with
      | none => rw [hm] at h; simp at h
      | some k' =>
        rw [hm] at h
        have hk := ih a.tail k' hm
        have : k = k' + 1 := by simpa using h.symm
        omega

/-- The validation reads the application data only: its outcome is that of the
first `app_data_len` bytes at `p_app_data`. -/
theorem validate_take (m : List Nat) (n : Nat) (hn : n ≤ 255) :
    MCU_DFU_AppData_Validate (m.take n) n = MCU_DFU_AppData_Validate m n := by
  unfold MCU_DFU_AppData_Validate
  rw [memcmp_take n m _ n (Nat.le_refl n), memchr_take SLASH n m n (Nat.le_refl n)]
  cases hm : memchr m SLASH n with
  | none => rfl
  | some k =>
    have hk := memchr_lt SLASH n m k hm
    have hkmod : k % U8_MOD = k := by unfold U8_MOD; omega
    have hbl : (n + (U8_MOD - k) + (U8_MOD - 1)) % U8_MOD = n - (k + 1) := by
      unfold U8_MOD
      omega
    simp only [hkmod, hbl]
    rw [strncmp_take k m _ n (by omega), List.drop_take,
      strncmp_take (n - (k + 1)) _ _ (n - (k + 1)) (Nat.le_refl _)]

theorem validate_status (m : List Nat) (n : Nat) :
    MCU_DFU_AppData_Validate m n = DFU_SUCCESS ∨
    MCU_DFU_AppData_Validate m n = DFU_INVALID_OBJECT ∨
    MCU_DFU_AppData_Validate m n = DFU_FIRMWARE_ALREADY_UP_TO_DATE := by
  unfold MCU_DFU_AppData_Validate
  split_ifs
  · exact Or.inl rfl
  · cases memchr m SLASH n with
    | none => exact Or.inr (Or.inl rfl)
    | some k =>
      dsimp only
      split_ifs
      · exact Or.inr (Or.inl rfl)
      · exact Or.inr (Or.inr rfl)
      · exact Or.inl rfl

/-- The digest loop after `n` of its 32 rounds: the last `n` cells of the
32-byte array hold the payload bytes from index 4 on in reverse order. -/
theorem sha_loop (p sha : List Nat) (hsha : sha.length = 32) (n : Nat) (hn : n ≤ 32) :
    ((List.range n).foldl
        (fun acc i => acc.set (SHA256_SIZE - i - 1) (p.getD (4 + i) 0)) sha).length = 32 ∧
    ∀ j, ((List.range n).foldl
        (fun acc i => acc.set (SHA256_SIZE - i - 1) (p.getD (4 + i) 0)) sha).getD j 0
      = if 32 - n ≤ j ∧ j < 32 then p.getD (4 + 31 - j) 0 else sha.getD j 0 := by
  induction n with
  | zero =>
    refine ⟨hsha, fun j => ?_⟩
    have : ¬ (32 - 0 ≤ j ∧ j < 32) := by omega
    rw [if_neg this]
    rfl
  | succ n ih =>
    obtain ⟨hl, hg⟩ := ih (by omega)
    rw [List.range_succ, List.foldl_append]
    simp only [List.foldl_cons, List.foldl_nil, List.length_set, SHA256_SIZE]
    refine ⟨by simpa [SHA256_SIZE] using hl, fun j => ?_⟩
    rw [getD_set_eq_ite]
    simp only [SHA256_SIZE] at hl hg
    rw [hl, hg]
    by_cases hj : j = 32 - n - 1
    · have c1 : j = 32 - n - 1 ∧ 32 - n - 1 < 32 := ⟨hj, by omega⟩
      have c2 : 32 - (n + 1) ≤ j ∧ j < 32 := by omega
      have c3 : 4 + 31 - j = 4 + n := by omega
      rw [if_pos c1, if_pos c2, c3]
    · have c1 : ¬ (j = 32 - n - 1 ∧ 32 - n - 1 < 32) := fun h => hj h.1
      rw [if_neg c1]
      by_cases h2 : 32 - n ≤ j ∧ j < 32
      · have c2 : 32 - (n + 1) ≤ j ∧ j < 32 := by omega
        rw [if_pos h2, if_pos c2]
      · have c2 : ¬ (32 - (n + 1) ≤ j ∧ j < 32) := by omega
        rw [if_neg h2, if_neg c2]

/-- The digest held after the Init loop is the transmitted one un-reversed. -/
theorem readSha256_clear (p : List Nat) :
    (readSha256 p MCU_DFU_ClearStates.Sha256).length = 32 ∧
    ∀ j, j < 32 → (readSha256 p MCU_DFU_ClearStates.Sha256).getD j 0 = p.getD (4 + 31 - j) 0 := by
  have hlen : MCU_DFU_ClearStates.Sha256.length = 32 := List.length_replicate _ _
  obtain ⟨hl, hg⟩ := sha_loop p MCU_DFU_ClearStates.Sha256 hlen 32 (Nat.le_refl _)
  refine ⟨hl, fun j hj => ?_⟩
  have := hg j
  rw [if_pos (by omega)] at this
  exact this

/-- The three outcomes of `ProcessDfuInitRequest`, by the validation status and
the size comparison. -/
theorem init_cases {W : Type} (F : Flasher W) (p : List Nat) (len : Nat) (s : DfuState)
    (w : W) :
    ProcessDfuInitRequest F p len s w =
      if MCU_DFU_AppData_Validate (p.drop 37) (p.getD 36 0) ≠ DFU_SUCCESS then
        { state := MCU_DFU_ClearStates, world := w,
          events := [.UART_Send UART_CMD_DFU_INIT_RESP
            [MCU_DFU_AppData_Validate (p.drop 37) (p.getD 36 0)]],
          returns := true }
      else if F.Flasher_GetSpaceSize w > readU32 p 0 then
        { state := { MCU_DFU_ClearStates with
            FirmwareSize := readU32 p 0,
            Sha256 := readSha256 p MCU_DFU_ClearStates.Sha256,
            DfuInProgress := 1 },
          world := F.Flasher_EraseSpace w,
          events := [.Flasher_EraseSpace, .UART_Send UART_CMD_DFU_INIT_RESP [DFU_SUCCESS]],
          returns := true }
      else
        { state := MCU_DFU_ClearStates, world := w,
          events := [.UART_Send UART_CMD_DFU_INIT_RESP [DFU_INSUFFICIENT_RESOURCES]],
          returns := true } := by
  unfold ProcessDfuInitRequest
  dsimp only

/-- C18 (as amended): an Init rejected for lack of space resets the session.
For every prior session state (one with a transfer in progress included) and
every Init request with valid application data whose declared size is not
below `Flasher_GetSpaceSize()`, `ProcessDfuInitRequest` responds
`[INSUFFICIENT_RESOURCES]`, does not erase, and leaves the DFU session in the
zero state; the state is as it was before the request only if it was the zero
state already. -/
theorem init_no_space_resets {W : Type} (F : Flasher W) (p : List Nat) (len : Nat)
    (s : DfuState) (w : W)
    (hvalid : MCU_DFU_AppData_Validate (p.drop 37) (p.getD 36 0) = DFU_SUCCESS)
    (hnofit : F.Flasher_GetSpaceSize w ≤ readU32 p 0) :
    (ProcessDfuInitRequest F p len s w).events
      = [.UART_Send UART_CMD_DFU_INIT_RESP [DFU_INSUFFICIENT_RESOURCES]] ∧
    (ProcessDfuInitRequest F p len s w).world = w ∧
    (ProcessDfuInitRequest F p len s w).returns = true ∧
    (ProcessDfuInitRequest F p len s w).state = MCU_DFU_ClearStates ∧
    ((ProcessDfuInitRequest F p len s w).state = s ↔ s = MCU_DFU_ClearStates) := by
  have hgt : ¬ (F.Flasher_GetSpaceSize w > readU32 p 0) := by omega
  rw [init_cases, if_neg (fun h => h hvalid), if_neg hgt]
  exact ⟨rfl, rfl, rfl, rfl, ⟨fun h => h.symm, fun h => h.symm⟩⟩

/-- C19: Init rejected by validation. For every prior session state and every
Init request whose application data validates to a status `s` other than
SUCCESS, which is then INVALID_OBJECT or FIRMWARE_ALREADY_UP_TO_DATE,
`ProcessDfuInitRequest` sends exactly one Init response with payload `[s]`,
does not erase flash, and ends with `in_progress = 0` and the session in the
zero state; in particular an Init whose application data is
`DFU_VALIDATION_STRING/BUILD_NUMBER` answers `[FIRMWARE_ALREADY_UP_TO_DATE]`
with `in_progress` false. -/
theorem init_rejected_by_validation {W : Type} (F : Flasher W) (p : List Nat) (len : Nat)
    (s : DfuState) (w : W)
    (hs : MCU_DFU_AppData_Validate (p.drop 37) (p.getD 36 0) ≠ DFU_SUCCESS) :
    (ProcessDfuInitRequest F p len s w).events
      = [.UART_Send UART_CMD_DFU_INIT_RESP
          [MCU_DFU_AppData_Validate (p.drop 37) (p.getD 36 0)]] ∧
    (MCU_DFU_AppData_Validate (p.drop 37) (p.getD 36 0) = DFU_INVALID_OBJECT ∨
      MCU_DFU_AppData_Validate (p.drop 37) (p.getD 36 0) = DFU_FIRMWARE_ALREADY_UP_TO_DATE) ∧
    DfuEvent.Flasher_EraseSpace ∉ (ProcessDfuInitRequest F p len s w).events ∧
    (ProcessDfuInitRequest F p len s w).world = w ∧
    (ProcessDfuInitRequest F p len s w).state = MCU_DFU_ClearStates ∧
    (ProcessDfuInitRequest F p len s w).state.DfuInProgress = 0 ∧
    (37 + p.getD 36 0 ≤ p.length →
      (p.drop 37).take (p.getD 36 0) = DFU_VALIDATION_STRING ++ [SLASH] ++ BUILD_NUMBER →
      (ProcessDfuInitRequest F p len s w).events
        = [.UART_Send UART_CMD_DFU_INIT_RESP [DFU_FIRMWARE_ALREADY_UP_TO_DATE]]) := by
  have hstat : MCU_DFU_AppData_Validate (p.drop 37) (p.getD 36 0) = DFU_INVALID_OBJECT ∨
      MCU_DFU_AppData_Validate (p.drop 37) (p.getD 36 0) = DFU_FIRMWARE_ALREADY_UP_TO_DATE := by
    rcases validate_status (p.drop 37) (p.getD 36 0) with h | h
    · exact absurd h hs
    · exact h
  rw [init_cases, if_pos hs]
  refine ⟨rfl, hstat, by simp, rfl, rfl, rfl, ?_⟩
  intro hlen htake
  have hn : p.getD 36 0 = 12 := by
    have h1 : ((p.drop 37).take (p.getD 36 0)).length = 12 := by rw [htake]; rfl
    rw [List.length_take, List.length_drop] at h1
    omega
  have hv : MCU_DFU_AppData_Validate (p.drop 37) (p.getD 36 0)
      = DFU_FIRMWARE_ALREADY_UP_TO_DATE := by
    rw [← validate_take _ _ (by omega), htake, hn]
    decide
  show [DfuEvent.UART_Send UART_CMD_DFU_INIT_RESP
    [MCU_DFU_AppData_Validate (p.drop 37) (p.getD 36 0)]] = _
  rw [hv]

theorem send_mem_singleton (c x y : Nat)
    (h : DfuEvent.UART_Send c [x] ∈ [DfuEvent.UART_Send c [y]]) : y = x := by
  have h2 := List.mem_singleton.mp h
  injection h2 with _ h3
  injection h3 with h4 _
  exact h4.symm

/-- An Init request answered `[SUCCESS]` passed the validation and the size
comparison; the fields it stores. -/
theorem init_accepted {W : Type} (F : Flasher W) (p : List Nat) (len : Nat) (s : DfuState)
    (w : W)
    (haccept : DfuEvent.UART_Send UART_CMD_DFU_INIT_RESP [DFU_SUCCESS]
      ∈ (ProcessDfuInitRequest F p len s w).events) :
    MCU_DFU_AppData_Validate (p.drop 37) (p.getD 36 0) = DFU_SUCCESS ∧
    F.Flasher_GetSpaceSize w > readU32 p 0 ∧
    (ProcessDfuInitRequest F p len s w).state.FirmwareSize = readU32 p 0 ∧
    (ProcessDfuInitRequest F p len s w).state.Sha256
      = readSha256 p MCU_DFU_ClearStates.Sha256 := by
  by_cases hv : MCU_DFU_AppData_Validate (p.drop 37) (p.getD 36 0) = DFU_SUCCESS
  · by_cases hfit : F.Flasher_GetSpaceSize w > readU32 p 0
    · refine ⟨hv, hfit, ?_, ?_⟩
      · rw [init_cases, if_neg (fun h => h hv), if_pos hfit]
      · rw [init_cases, if_neg (fun h => h hv), if_pos hfit]
    · exfalso
      rw [init_cases, if_neg (fun h => h hv), if_neg hfit] at haccept
      have := send_mem_singleton _ _ _ haccept
      revert this
      decide
  · exfalso
    rw [init_cases, if_pos hv] at haccept
    exact hv (send_mem_singleton _ _ _ haccept)

/-- C20: Init payload decoding. For every Init payload `p` of bytes that is
accepted (answered `[SUCCESS]`), the session afterwards holds
`firmware_size = p[0] + 2^8*p[1] + 2^16*p[2] + 2^24*p[3]` and a 32-byte
`expected_sha256` with `expected_sha256[j] = p[4 + 31 - j]` for every `j` in
0..31, and the application data validated is exactly the `p[36]` bytes
`p[37 .. 37 + p[36])`: the validation of those bytes alone gives the same
status, SUCCESS. -/
theorem init_payload_decoding {W : Type} (F : Flasher W) (p : List Nat) (len : Nat)
    (s : DfuState) (w : W) (hbytes : ∀ x ∈ p, x < 256)
    (haccept : DfuEvent.UART_Send UART_CMD_DFU_INIT_RESP [DFU_SUCCESS]
      ∈ (ProcessDfuInitRequest F p len s w).events) :
    (ProcessDfuInitRequest F p len s w).state.FirmwareSize
      = p.getD 0 0 + 2 ^ 8 * p.getD 1 0 + 2 ^ 16 * p.getD 2 0 + 2 ^ 24 * p.getD 3 0 ∧
    (ProcessDfuInitRequest F p len s w).state.Sha256.length = 32 ∧
    (∀ j, j < 32 →
      (ProcessDfuInitRequest F p len s w).state.Sha256.getD j 0 = p.getD (4 + 31 - j) 0) ∧
    MCU_DFU_AppData_Validate (p.drop 37) (p.getD 36 0)
      = MCU_DFU_AppData_Validate ((p.drop 37).take (p.getD 36 0)) (p.getD 36 0) ∧
    MCU_DFU_AppData_Validate ((p.drop 37).take (p.getD 36 0)) (p.getD 36 0) = DFU_SUCCESS := by
  have hn : p.getD 36 0 ≤ 255 := by
    have := getD_lt_of_bytes p hbytes 36
    omega
  have htake := validate_take (p.drop 37) (p.getD 36 0) hn
  have hread := readU32_eq p 0 (getD_lt_of_bytes p hbytes _) (getD_lt_of_bytes p hbytes _)
    (getD_lt_of_bytes p hbytes _) (getD_lt_of_bytes p hbytes _)
  obtain ⟨hv, _, hsize, hsha⟩ := init_accepted F p len s w haccept
  obtain ⟨hl, hg⟩ := readSha256_clear p
  rw [hsize, hsha]
  refine ⟨?_, hl, hg, htake.symm, by rw [htake]; exact hv⟩
  rw [hread]
  norm_num

/-- Witness of `pageStore_final_page_updates`: an 8-byte image stored as one
page whose digest matches. -/
theorem pageStore_final_page_updates_witness :
    sizeAdd (sessionAfter 8 8 [1, 2, 3, 4, 5, 6, 7, 8]).FirmwareOffset
        (sessionAfter 8 8 [1, 2, 3, 4, 5, 6, 7, 8]).PageOffset
      = (sessionAfter 8 8 [1, 2, 3, 4, 5, 6, 7, 8]).FirmwareSize ∧
    (ProcessDfuPageStoreRequest crcOfSum (flasherOfSize 4096) [] 0
        (sessionAfter 8 8 [1, 2, 3, 4, 5, 6, 7, 8]) ()).returns = false :=
  ⟨by decide,
    (pageStore_final_page_updates crcOfSum (flasherOfSize 4096) [] 0
      (sessionAfter 8 8 [1, 2, 3, 4, 5, 6, 7, 8]) () (by decide) (by decide) (by decide)
      (by decide) (by decide) (by decide)).2.2.2⟩

/-- Witness of `pageStore_final_page_wrong_hash`: an 8-byte image stored as one
page, with a digest of ones against an expected digest of zeros. -/
theorem pageStore_final_page_wrong_hash_witness :
    (ProcessDfuPageStoreRequest crcOfOnes (flasherOfSize 4096) [] 0
        (sessionAfter 8 8 [1, 2, 3, 4, 5, 6, 7, 8]) ()).state.DfuInProgress = 0 :=
  (pageStore_final_page_wrong_hash crcOfOnes (flasherOfSize 4096) [] [] 0 0
    (sessionAfter 8 8 [1, 2, 3, 4, 5, 6, 7, 8]) () (by decide) (by decide) (by decide)
    (by decide) (by decide) (by decide)).2.2.2.1

/-- Witness of `pageStore_partial_page`: 5 bytes written into a page of 8. -/
theorem pageStore_partial_page_witness :
    0 < (sessionAfter 100 8 [1, 2, 3, 4, 5]).PageOffset ∧
    (sessionAfter 100 8 [1, 2, 3, 4, 5]).PageOffset
      < (sessionAfter 100 8 [1, 2, 3, 4, 5]).PageSize ∧
    (ProcessDfuPageStoreRequest crcOfSum (flasherOfSize 4096) [] 0
        (sessionAfter 100 8 [1, 2, 3, 4, 5]) ()).events
      = [.UART_Send UART_CMD_DFU_PAGE_STORE_RESP [DFU_OPERATION_NOT_PERMITTED]] :=
  ⟨by decide, by decide,
    (pageStore_partial_page crcOfSum (flasherOfSize 4096) [] 0
      (sessionAfter 100 8 [1, 2, 3, 4, 5]) () (by decide) (by decide) (by decide)).1⟩

/-- Witness of `pageStore_empty_noop`: a page of 8 bytes created and nothing
written into it; three requests in a row. -/
theorem pageStore_empty_noop_witness :
    (sessionAfter 100 8 []).PageOffset = 0 ∧
    (pageStoreTimes crcOfSum (flasherOfSize 4096) [] 0 3 (sessionAfter 100 8 []) ()).state
      = sessionAfter 100 8 [] :=
  ⟨by decide,
    ((pageStore_empty_noop crcOfSum (flasherOfSize 4096) [] 0 (sessionAfter 100 8 []) ()
      (by decide) (by decide)).2.2.2.2 3).2.1⟩

/-- Witness of `pageStore_flash_failure`: a complete page of 8 bytes and a flash
interface whose writes fail. -/
theorem pageStore_flash_failure_witness :
    (pageStoreSave flasherFailing (sessionAfter 100 8 [1, 2, 3, 4, 5, 6, 7, 8]) ()).1 % U8_MOD
      ≠ flasherFailing.FLASHER_SUCCESS ∧
    (ProcessDfuPageStoreRequest crcOfSum flasherFailing [] 0
        (sessionAfter 100 8 [1, 2, 3, 4, 5, 6, 7, 8]) ()).state
      = sessionAfter 100 8 [1, 2, 3, 4, 5, 6, 7, 8] :=
  ⟨by decide,
    (pageStore_flash_failure crcOfSum flasherFailing [] [] 0 0
      (sessionAfter 100 8 [1, 2, 3, 4, 5, 6, 7, 8]) () (by decide) (by decide) (by decide)
      (by decide)).2.1⟩

/-- Witness of `commands_outside_session`: the zero session state. -/
theorem commands_outside_session_witness :
    (ProcessDfuWriteDataEvent [3, 1, 2, 3] 4 MCU_DFU_ClearStates ()).events
      = [.UART_Send UART_CMD_DFU_CANCEL_REQ []] :=
  (commands_outside_session crcOfSum (flasherOfSize 4096) [3, 1, 2, 3] 4 MCU_DFU_ClearStates ()
    rfl).2.2.1

/-- Witness of `firmwareOffset_advances_after_flash_write`: a PageStore request
on a complete page of 8 bytes. -/
theorem firmwareOffset_advances_after_flash_write_witness :
    (sessionAfter 100 8 [1, 2, 3, 4, 5, 6, 7, 8]).PageOffset < SIZE_MOD ∧
    ((sessionAfter 100 8 [1, 2, 3, 4, 5, 6, 7, 8]).FirmwareOffset
        < (dfuHandle crcOfSum (flasherOfSize 4096) .PageStoreRequest [] 0
            (sessionAfter 100 8 [1, 2, 3, 4, 5, 6, 7, 8]) ()).state.FirmwareOffset →
      (dfuHandle crcOfSum (flasherOfSize 4096) .PageStoreRequest [] 0
          (sessionAfter 100 8 [1, 2, 3, 4, 5, 6, 7, 8]) ()).state.FirmwareOffset
        = (sessionAfter 100 8 [1, 2, 3, 4, 5, 6, 7, 8]).FirmwareOffset
          + (sessionAfter 100 8 [1, 2, 3, 4, 5, 6, 7, 8]).PageOffset) :=
  ⟨by decide, fun h =>
    ((firmwareOffset_advances_after_flash_write crcOfSum (flasherOfSize 4096)
      .PageStoreRequest [] 0 (sessionAfter 100 8 [1, 2, 3, 4, 5, 6, 7, 8]) ()
      (by decide)).1 h).2.2.2⟩

/-- Witness of `init_no_space_resets`: a transfer in progress, then an Init
declaring 4 bytes for a flash space of 4 bytes. -/
theorem init_no_space_resets_witness :
    MCU_DFU_AppData_Validate ((initPayloadIgnore 4 0 0 0).drop 37)
        ((initPayloadIgnore 4 0 0 0).getD 36 0) = DFU_SUCCESS ∧
    (flasherOfSize 4).Flasher_GetSpaceSize () ≤ readU32 (initPayloadIgnore 4 0 0 0) 0 ∧
    (ProcessDfuInitRequest (flasherOfSize 4) (initPayloadIgnore 4 0 0 0) 43
        (sessionAfter 100 8 [1, 2, 3, 4, 5, 6, 7, 8]) ()).state = MCU_DFU_ClearStates :=
  ⟨by decide, by decide,
    (init_no_space_resets (flasherOfSize 4) (initPayloadIgnore 4 0 0 0) 43
      (sessionAfter 100 8 [1, 2, 3, 4, 5, 6, 7, 8]) () (by decide) (by decide)).2.2.2.1⟩

/-- C18 (as stated) fails. A transfer is in progress (`in_progress = 1`,
`firmware_size = 100`, a page of 8 bytes filled); an Init with valid
application data declares 4 bytes for a flash space of 4 bytes.
`ProcessDfuInitRequest` answers `[INSUFFICIENT_RESOURCES]` and the session is
not as it was: `in_progress`, `firmware_size`, `page_offset` and `page_size`
are 0. -/
theorem init_no_space_counterexample :
    (sessionAfter 100 8 [1, 2, 3, 4, 5, 6, 7, 8]).DfuInProgress = 1 ∧
    (sessionAfter 100 8 [1, 2, 3, 4, 5, 6, 7, 8]).FirmwareSize = 100 ∧
    (sessionAfter 100 8 [1, 2, 3, 4, 5, 6, 7, 8]).PageOffset = 8 ∧
    (sessionAfter 100 8 [1, 2, 3, 4, 5, 6, 7, 8]).PageSize = 8 ∧
    MCU_DFU_AppData_Validate ((initPayloadIgnore 4 0 0 0).drop 37)
        ((initPayloadIgnore 4 0 0 0).getD 36 0) = DFU_SUCCESS ∧
    (flasherOfSize 4).Flasher_GetSpaceSize () ≤ readU32 (initPayloadIgnore 4 0 0 0) 0 ∧
    (ProcessDfuInitRequest (flasherOfSize 4) (initPayloadIgnore 4 0 0 0) 43
        (sessionAfter 100 8 [1, 2, 3, 4, 5, 6, 7, 8]) ()).events
      = [.UART_Send UART_CMD_DFU_INIT_RESP [DFU_INSUFFICIENT_RESOURCES]] ∧
    (ProcessDfuInitRequest (flasherOfSize 4) (initPayloadIgnore 4 0 0 0) 43
        (sessionAfter 100 8 [1, 2, 3, 4, 5, 6, 7, 8]) ()).state.DfuInProgress = 0 ∧
    (ProcessDfuInitRequest (flasherOfSize 4) (initPayloadIgnore 4 0 0 0) 43
        (sessionAfter 100 8 [1, 2, 3, 4, 5, 6, 7, 8]) ()).state.FirmwareSize = 0 ∧
    (ProcessDfuInitRequest (flasherOfSize 4) (initPayloadIgnore 4 0 0 0) 43
        (sessionAfter 100 8 [1, 2, 3, 4, 5, 6, 7, 8]) ()).state.PageOffset = 0 ∧
    (ProcessDfuInitRequest (flasherOfSize 4) (initPayloadIgnore 4 0 0 0) 43
        (sessionAfter 100 8 [1, 2, 3, 4, 5, 6, 7, 8]) ()).state.PageSize = 0 ∧
    (ProcessDfuInitRequest (flasherOfSize 4) (initPayloadIgnore 4 0 0 0) 43
        (sessionAfter 100 8 [1, 2, 3, 4, 5, 6, 7, 8]) ()).state
      ≠ sessionAfter 100 8 [1, 2, 3, 4, 5, 6, 7, 8] := by
  refine ⟨by decide, by decide, by decide, by decide, by decide, by decide, by decide,
    by decide, by decide, by decide, by decide, ?_⟩
  intro h
  have h2 := congrArg DfuState.DfuInProgress h
  revert h2
  decide

/-- Witness of `init_rejected_by_validation`: an Init carrying the running
build `"client/0.0.0"`. -/
theorem init_rejected_by_validation_witness :
    MCU_DFU_AppData_Validate (initPayloadRunningBuild.drop 37)
        (initPayloadRunningBuild.getD 36 0) ≠ DFU_SUCCESS ∧
    (ProcessDfuInitRequest (flasherOfSize 4096) initPayloadRunningBuild 49
        (sessionAfter 100 8 [1, 2, 3, 4, 5, 6, 7, 8]) ()).events
      = [.UART_Send UART_CMD_DFU_INIT_RESP [DFU_FIRMWARE_ALREADY_UP_TO_DATE]] :=
  ⟨by decide,
    (init_rejected_by_validation (flasherOfSize 4096) initPayloadRunningBuild 49
      (sessionAfter 100 8 [1, 2, 3, 4, 5, 6, 7, 8]) () (by decide)).2.2.2.2.2.2
      (by decide) (by decide)⟩

/-- Witness of `init_payload_decoding`: an Init declaring `0x0164 = 356` bytes
with the digest bytes `1, ..., 32`, for a flash space of 4096 bytes; the first
digest byte held is the last one transmitted. -/
theorem init_payload_decoding_witness :
    (ProcessDfuInitRequest (flasherOfSize 4096) initPayloadDigest 43
        MCU_DFU_ClearStates ()).state.FirmwareSize = 356 ∧
    (ProcessDfuInitRequest (flasherOfSize 4096) initPayloadDigest 43
        MCU_DFU_ClearStates ()).state.Sha256.getD 0 0 = 32 ∧
    (ProcessDfuInitRequest (flasherOfSize 4096) initPayloadDigest 43
        MCU_DFU_ClearStates ()).state.Sha256.getD 31 0 = 1 :=
  ⟨(init_payload_decoding (flasherOfSize 4096) initPayloadDigest 43
      MCU_DFU_ClearStates () (by decide) (by decide)).1,
    (init_payload_decoding (flasherOfSize 4096) initPayloadDigest 43
      MCU_DFU_ClearStates () (by decide) (by decide)).2.2.1 0 (by decide),
    (init_payload_decoding (flasherOfSize 4096) initPayloadDigest 43
      MCU_DFU_ClearStates () (by decide) (by decide)).2.2.1 31 (by decide)⟩

/-! ## Handlers inside a session, wire format, dispatch and traces -/
/-- The four bytes of `bytesU32 v` are bytes, and a 32-bit `v` is their
little-endian value. -/
theorem bytesU32_spec (v : Nat) (hv : v < SIZE_MOD) :
    ∃ b0 b1 b2 b3, bytesU32 v = [b0, b1, b2, b3] ∧ b0 < 256 ∧ b1 < 256 ∧ b2 < 256 ∧ b3 < 256 ∧
      b0 + 256 * b1 + 65536 * b2 + 16777216 * b3 = v := by
  refine ⟨v % 256, v / 256 % 256, v / 65536 % 256, v / 16777216 % 256, ?_, ?_, ?_, ?_, ?_, ?_⟩
  · simp [bytesU32, U8_MOD, Nat.shiftRight_eq_div_pow]
  · omega
  · omega
  · omega
  · omega
  · unfold SIZE_MOD at hv
    omega

/-- The running CRC32 is a `uint32_t`. -/
theorem calcCRC_lt {W : Type} (L : CRCLib) (F : Flasher W) (s : DfuState) (w : W) :
    MCU_DFU_CalcCRC L F s w < SIZE_MOD := by
  have hm : ∀ x, x % SIZE_MOD < SIZE_MOD := fun x => Nat.mod_lt _ (by decide)
  have hn : ∀ x, not32 x < SIZE_MOD := by
    intro x
    have := hm x
    unfold not32
    unfold SIZE_MOD at *
    omega
  unfold MCU_DFU_CalcCRC
  dsimp only
  split_ifs <;> first | exact hm _ | exact hn _

/-- C21: PageCreate inside a session. For every in-progress session and every
payload whose first four bytes decode little-endian to `r`,
`ProcessDfuPageCreateRequest` responds `[SUCCESS]` and sets `page_offset = 0`,
`page_size = r` when `r ≤ 1024`, and responds `[INSUFFICIENT_RESOURCES]` with
no change to the session when `r > 1024`; in both cases `in_progress`,
`firmware_size`, `firmware_offset` and the expected hash are unchanged, no
Cancel is sent, and the outside world is left alone. -/
theorem pageCreate_in_session {W : Type} (p : List Nat) (len r : Nat) (s : DfuState) (w : W)
    (hin : s.DfuInProgress ≠ 0)
    (h0 : p.getD 0 0 < 256) (h1 : p.getD 1 0 < 256) (h2 : p.getD 2 0 < 256)
    (h3 : p.getD 3 0 < 256)
    (hr : r = p.getD 0 0 + 256 * p.getD 1 0 + 65536 * p.getD 2 0 + 16777216 * p.getD 3 0) :
    (r ≤ 1024 →
      (ProcessDfuPageCreateRequest p len s w).events
        = [.UART_Send UART_CMD_DFU_PAGE_CREATE_RESP [DFU_SUCCESS]] ∧
      (ProcessDfuPageCreateRequest p len s w).state
        = { s with PageOffset := 0, PageSize := r }) ∧
    (r > 1024 →
      (ProcessDfuPageCreateRequest p len s w).events
        = [.UART_Send UART_CMD_DFU_PAGE_CREATE_RESP [DFU_INSUFFICIENT_RESOURCES]] ∧
      (ProcessDfuPageCreateRequest p len s w).state = s) ∧
    (ProcessDfuPageCreateRequest p len s w).state.DfuInProgress = s.DfuInProgress ∧
    (ProcessDfuPageCreateRequest p len s w).state.FirmwareSize = s.FirmwareSize ∧
    (ProcessDfuPageCreateRequest p len s w).state.FirmwareOffset = s.FirmwareOffset ∧
    (ProcessDfuPageCreateRequest p len s w).state.Sha256 = s.Sha256 ∧
    (∀ x, DfuEvent.UART_Send UART_CMD_DFU_CANCEL_REQ x
      ∉ (ProcessDfuPageCreateRequest p len s w).events) ∧
    (ProcessDfuPageCreateRequest p len s w).world = w ∧
    (ProcessDfuPageCreateRequest p len s w).returns = true := by
  have hread : readU32 p 0 = r := by
    rw [hr]
    exact readU32_eq p 0 h0 h1 h2 h3
  unfold ProcessDfuPageCreateRequest
  dsimp only
  rw [if_neg hin, hread]
  by_cases hle : r ≤ MAX_PAGE_SIZE
  · rw [if_pos hle]
    have hle2 : r ≤ 1024 := hle
    refine ⟨fun _ => ⟨rfl, rfl⟩, fun hgt => absurd hle2 (by omega), rfl, rfl, rfl, rfl, ?_, rfl, rfl⟩
    intro x hx
    simp [UART_CMD_DFU_CANCEL_REQ, UART_CMD_DFU_PAGE_CREATE_RESP] at hx
  · rw [if_neg hle]
    have hgt2 : ¬ r ≤ 1024 := hle
    refine ⟨fun h => absurd h hgt2, fun _ => ⟨rfl, rfl⟩, rfl, rfl, rfl, rfl, ?_, rfl, rfl⟩
    intro x hx
    simp [UART_CMD_DFU_CANCEL_REQ, UART_CMD_DFU_PAGE_CREATE_RESP] at hx

/-- C22: WriteData inside a session. For every in-progress session whose page
cursor and page size satisfy `page_offset ≤ page_size ≤ 1024` (the page buffer
has 1024 cells) and every payload `p` with chunk length `n = p[0]`: if
`page_offset + n ≤ page_size`, `ProcessDfuWriteDataEvent` copies
`p[1 .. 1+n)` to `page_buffer[page_offset .. page_offset+n)`, leaves the rest
of the page buffer unchanged and sets `page_offset` to `page_offset + n`;
otherwise it changes nothing; in both cases it transmits nothing and leaves
`firmware_offset`, `firmware_size`, `page_size`, `in_progress` and the
expected hash unchanged. -/
theorem writeData_in_session {W : Type} (p : List Nat) (len : Nat) (s : DfuState) (w : W)
    (hin : s.DfuInProgress ≠ 0) (hbuf : s.PageBuffer.length = MAX_PAGE_SIZE)
    (hpo : s.PageOffset ≤ s.PageSize) (hps : s.PageSize ≤ MAX_PAGE_SIZE)
    (hn : p.getD 0 0 < 256) :
    (s.PageOffset + p.getD 0 0 ≤ s.PageSize →
      (∀ i, i < p.getD 0 0 →
        (ProcessDfuWriteDataEvent p len s w).state.PageBuffer.getD (s.PageOffset + i) 0
          = p.getD (1 + i) 0) ∧
      (∀ k, k < s.PageOffset ∨ s.PageOffset + p.getD 0 0 ≤ k →
        (ProcessDfuWriteDataEvent p len s w).state.PageBuffer.getD k 0
          = s.PageBuffer.getD k 0) ∧
      (ProcessDfuWriteDataEvent p len s w).state.PageBuffer.length = MAX_PAGE_SIZE ∧
      (ProcessDfuWriteDataEvent p len s w).state.PageOffset = s.PageOffset + p.getD 0 0) ∧
    (¬ s.PageOffset + p.getD 0 0 ≤ s.PageSize →
      (ProcessDfuWriteDataEvent p len s w).state = s) ∧
    (ProcessDfuWriteDataEvent p len s w).events = [] ∧
    (ProcessDfuWriteDataEvent p len s w).world = w ∧
    (ProcessDfuWriteDataEvent p len s w).state.FirmwareOffset = s.FirmwareOffset ∧
    (ProcessDfuWriteDataEvent p len s w).state.FirmwareSize = s.FirmwareSize ∧
    (ProcessDfuWriteDataEvent p len s w).state.PageSize = s.PageSize ∧
    (ProcessDfuWriteDataEvent p len s w).state.DfuInProgress = s.DfuInProgress ∧
    (ProcessDfuWriteDataEvent p len s w).state.Sha256 = s.Sha256 := by
  have hps2 : s.PageSize ≤ 1024 := hps
  have hsum : sizeAdd s.PageOffset (p.getD 0 0) = s.PageOffset + p.getD 0 0 := by
    unfold sizeAdd SIZE_MOD
    omega
  unfold ProcessDfuWriteDataEvent
  dsimp only
  rw [if_neg hin, hsum]
  by_cases hfit : s.PageOffset + p.getD 0 0 ≤ s.PageSize
  · rw [if_pos hfit]
    refine ⟨fun _ => ⟨?_, ?_, ?_, rfl⟩, fun h => absurd hfit h, rfl, rfl, rfl, rfl, rfl, rfl, rfl⟩
    · intro i hi
      show (memcpy s.PageBuffer s.PageOffset (p.drop 1) (p.getD 0 0)).getD (s.PageOffset + i) 0 = _
      rw [memcpy_getD, if_pos (by rw [hbuf]; unfold MAX_PAGE_SIZE; omega), getD_drop_eq]
      congr 1
      omega
    · intro k hk
      show (memcpy s.PageBuffer s.PageOffset (p.drop 1) (p.getD 0 0)).getD k 0 = _
      rw [memcpy_getD, if_neg (by omega)]
    · show (memcpy s.PageBuffer s.PageOffset (p.drop 1) (p.getD 0 0)).length = _
      rw [memcpy_length, hbuf]
  · rw [if_neg hfit]
    exact ⟨fun h => absurd h hfit, fun _ => rfl, rfl, rfl, rfl, rfl, rfl, rfl, rfl⟩

/-- C23: Status response layout. For every session state,
`ProcessDfuStatusRequest` sends exactly one Status response whose 13-byte
payload is `[SUCCESS]`, then `00 04 00 00` (1024 as u32 little-endian), then
four bytes whose little-endian value is `firmware_offset + page_offset` as a
`uint32_t`, then four bytes whose little-endian value is the running CRC32
`MCU_DFU_CalcCRC`; the session state and the outside world are unchanged. -/
theorem status_response_layout {W : Type} (L : CRCLib) (F : Flasher W) (p : List Nat)
    (len : Nat) (s : DfuState) (w : W) :
    ∃ o0 o1 o2 o3 c0 c1 c2 c3,
      (ProcessDfuStatusRequest L F p len s w).events
        = [.UART_Send UART_CMD_DFU_STATUS_RESP
            [DFU_SUCCESS, 0x00, 0x04, 0x00, 0x00, o0, o1, o2, o3, c0, c1, c2, c3]] ∧
      o0 < 256 ∧ o1 < 256 ∧ o2 < 256 ∧ o3 < 256 ∧
      o0 + 256 * o1 + 65536 * o2 + 16777216 * o3
        = (s.FirmwareOffset + s.PageOffset) % 4294967296 ∧
      c0 < 256 ∧ c1 < 256 ∧ c2 < 256 ∧ c3 < 256 ∧
      c0 + 256 * c1 + 65536 * c2 + 16777216 * c3 = MCU_DFU_CalcCRC L F s w ∧
      (ProcessDfuStatusRequest L F p len s w).state = s ∧
      (ProcessDfuStatusRequest L F p len s w).world = w ∧
      (ProcessDfuStatusRequest L F p len s w).returns = true := by
  obtain ⟨o0, o1, o2, o3, ho, ho0, ho1, ho2, ho3, hov⟩ :=
    bytesU32_spec (sizeAdd s.FirmwareOffset s.PageOffset) (Nat.mod_lt _ (by decide))
  obtain ⟨c0, c1, c2, c3, hc, hc0, hc1, hc2, hc3, hcv⟩ :=
    bytesU32_spec (MCU_DFU_CalcCRC L F s w) (calcCRC_lt L F s w)
  refine ⟨o0, o1, o2, o3, c0, c1, c2, c3, ?_, ho0, ho1, ho2, ho3, hov, hc0, hc1, hc2, hc3,
    hcv, rfl, rfl, rfl⟩
  unfold ProcessDfuStatusRequest
  dsimp only
  rw [ho, hc]
  rfl

/-- C24: StateCheck desynchronisation. For every session state (the flag
`in_progress` being 0 or 1) and every payload with status byte `s = p[0]`,
`ProcessDfuStateCheckResponse` sends a Cancel request with an empty payload if
and only if the flag of the peer `s = DFU_STATUS_IN_PROGRESS` disagrees with the
local `in_progress` flag, sends nothing otherwise, and never modifies the
session state. -/
theorem stateCheck_cancel_iff {W : Type} (p : List Nat) (len : Nat) (s : DfuState) (w : W)
    (hflag : s.DfuInProgress = 0 ∨ s.DfuInProgress = 1) :
    ((ProcessDfuStateCheckResponse p len s w).events = [.UART_Send UART_CMD_DFU_CANCEL_REQ []]
      ↔ ¬ (p.getD 0 0 = DFU_STATUS_IN_PROGRESS ↔ s.DfuInProgress ≠ 0)) ∧
    ((ProcessDfuStateCheckResponse p len s w).events = []
      ↔ (p.getD 0 0 = DFU_STATUS_IN_PROGRESS ↔ s.DfuInProgress ≠ 0)) ∧
    (ProcessDfuStateCheckResponse p len s w).state = s ∧
    (ProcessDfuStateCheckResponse p len s w).world = w := by
  unfold ProcessDfuStateCheckResponse
  dsimp only
  generalize p.getD 0 0 = st
  by_cases hst : st = DFU_STATUS_IN_PROGRESS
  · rw [if_pos hst]
    rcases hflag with h | h
    · rw [h]
      simp [hst]
    · rw [h]
      simp [hst]
  · rw [if_neg hst]
    rcases hflag with h | h
    · rw [h]
      simp [hst]
    · rw [h]
      simp [hst]


/-- C26: encoded wire format. For every command and every payload of `len`
bytes, `UARTInternal_Send` hands `UARTDriver_WriteBytes`, in its single call,
exactly `len + 6` bytes: `0xAA`, `0x55`, `len`, `cmd`, the payload bytes in
order, then the low byte and the high byte of the CRC16 obtained by running
`CalcCRC16` over the byte `len`, then the byte `cmd`, then the payload,
starting from `CRC16_INIT_VAL` (every intermediate value held in a
`uint16_t`). -/
theorem send_wire_format (L : CRCLib) (cmd : Nat) (payload : List Nat) :
    UARTInternal_Send L payload.length cmd payload
      = [0xAA, 0x55, payload.length, cmd] ++ payload ++
          [(L.CalcCRC16 payload
              (L.CalcCRC16 [cmd]
                (L.CalcCRC16 [payload.length] (L.CRC16_INIT_VAL % 65536) % 65536) % 65536)
              % 65536) % 256,
           (L.CalcCRC16 payload
              (L.CalcCRC16 [cmd]
                (L.CalcCRC16 [payload.length] (L.CRC16_INIT_VAL % 65536) % 65536) % 65536)
              % 65536) / 256 % 256] ∧
    (UARTInternal_Send L payload.length cmd payload).length = payload.length + 6 := by
  constructor
  · simp [UARTInternal_Send, UARTInternal_CalcCRC16, PREAMBLE_BYTE_1, PREAMBLE_BYTE_2, lowByte,
      highByte, U16_MOD, U8_MOD]
  · simp [UARTInternal_Send]

/-- C27: header mismatch resets the parser. In `ExtractFrameFromBuffer` a byte
other than `0xAA` at counter 0, a byte other than `0x55` at counter 1 (the
byte `0xAA` included) and a byte greater than 127 at counter 2 each return
false and leave the byte counter at 0 and everything else as it was; a
matching byte returns false and advances the counter by exactly one, and an
accepted length byte becomes `rx_frame.len`. -/
theorem header_mismatch_resets (L : CRCLib) (s : RxParser) (b : Nat) :
    (s.count = 0 → b ≠ 0xAA →
      ExtractFrameFromBuffer L (some b) s = (false, { s with count := 0 })) ∧
    (s.count = 0 → b = 0xAA →
      ExtractFrameFromBuffer L (some b) s = (false, { s with count := 1 })) ∧
    (s.count = 1 → b ≠ 0x55 →
      ExtractFrameFromBuffer L (some b) s = (false, { s with count := 0 })) ∧
    (s.count = 1 →
      ExtractFrameFromBuffer L (some 0xAA) s = (false, { s with count := 0 })) ∧
    (s.count = 1 → b = 0x55 →
      ExtractFrameFromBuffer L (some b) s = (false, { s with count := 2 })) ∧
    (s.count = 2 → b > 127 →
      ExtractFrameFromBuffer L (some b) s = (false, { s with count := 0 })) ∧
    (s.count = 2 → b ≤ 127 →
      ExtractFrameFromBuffer L (some b) s
        = (false, { s with count := 3, rx_frame := { s.rx_frame with len := b } })) := by
  refine ⟨?_, ?_, ?_, ?_, ?_, ?_, ?_⟩
  · intro h hb
    simp only [ExtractFrameFromBuffer, PREAMBLE_BYTE_1_OFFSET, PREAMBLE_BYTE_1]
    rw [if_pos h, if_neg hb]
  · intro h hb
    simp only [ExtractFrameFromBuffer, PREAMBLE_BYTE_1_OFFSET, PREAMBLE_BYTE_1]
    rw [if_pos h, if_pos hb, h]
  · intro h hb
    have c0 : ¬ s.count = 0 := by omega
    simp only [ExtractFrameFromBuffer, PREAMBLE_BYTE_1_OFFSET, PREAMBLE_BYTE_2_OFFSET,
      PREAMBLE_BYTE_2]
    rw [if_neg c0, if_pos h, if_neg hb]
  · intro h
    have c0 : ¬ s.count = 0 := by omega
    simp only [ExtractFrameFromBuffer, PREAMBLE_BYTE_1_OFFSET, PREAMBLE_BYTE_2_OFFSET,
      PREAMBLE_BYTE_2]
    rw [if_neg c0, if_pos h, if_neg (by decide)]
  · intro h hb
    have c0 : ¬ s.count = 0 := by omega
    simp only [ExtractFrameFromBuffer, PREAMBLE_BYTE_1_OFFSET, PREAMBLE_BYTE_2_OFFSET,
      PREAMBLE_BYTE_2]
    rw [if_neg c0, if_pos h, if_pos hb, h]
  · intro h hb
    have c0 : ¬ s.count = 0 := by omega
    have c1 : ¬ s.count = 1 := by omega
    have hb2 : ¬ b ≤ 127 := by omega
    simp only [ExtractFrameFromBuffer, PREAMBLE_BYTE_1_OFFSET, PREAMBLE_BYTE_2_OFFSET,
      LEN_OFFSET, MAX_PAYLOAD_SIZE]
    rw [if_neg c0, if_neg c1, if_pos h, if_neg hb2]
  · intro h hb
    have c0 : ¬ s.count = 0 := by omega
    have c1 : ¬ s.count = 1 := by omega
    simp only [ExtractFrameFromBuffer, PREAMBLE_BYTE_1_OFFSET, PREAMBLE_BYTE_2_OFFSET,
      LEN_OFFSET, MAX_PAYLOAD_SIZE]
    rw [if_neg c0, if_neg c1, if_pos h, if_pos hb, h]

/-- C30: DequeueByte contract. For every buffer state with `wr, rd < C`,
`RingBuffer_DequeueByte` returns false exactly when `wr = rd`
(`RingBuffer_isEmpty`), and then changes nothing; otherwise it returns true,
outputs the byte stored at index `rd`, sets `rd` to `(rd + 1) mod C`, and
leaves `wr` and the backing array unchanged. -/
theorem dequeueByte_contract (rb : RingBuffer_T) (hC : rb.buf_len < SIZE_MOD)
    (hwr : rb.wr < rb.buf_len) (hrd : rb.rd < rb.buf_len) :
    ((RingBuffer_DequeueByte rb).1 = false ↔ rb.wr = rb.rd) ∧
    (RingBuffer_isEmpty rb = true ↔ rb.wr = rb.rd) ∧
    (rb.wr = rb.rd → RingBuffer_DequeueByte rb = (false, none, rb)) ∧
    (rb.wr ≠ rb.rd →
      RingBuffer_DequeueByte rb
        = (true, some (rb.p_buf.getD rb.rd 0), { rb with rd := (rb.rd + 1) % rb.buf_len })) := by
  have hinc : (if sizeAdd rb.rd 1 ≥ rb.buf_len then 0 else sizeAdd rb.rd 1)
      = (rb.rd + 1) % rb.buf_len := by
    have e : sizeAdd rb.rd 1 = rb.rd + 1 := by
      unfold sizeAdd
      exact Nat.mod_eq_of_lt (by omega)
    rw [e]
    by_cases hlast : rb.rd + 1 = rb.buf_len
    · rw [if_pos (by omega), hlast, Nat.mod_self]
    · rw [if_neg (by omega), Nat.mod_eq_of_lt (by omega)]
  have hemp : RingBuffer_isEmpty rb = true ↔ rb.wr = rb.rd := by
    simp [RingBuffer_isEmpty]
  by_cases he : rb.wr = rb.rd
  · have hE : RingBuffer_isEmpty rb = true := hemp.mpr he
    have hrun : RingBuffer_DequeueByte rb = (false, none, rb) := by
      unfold RingBuffer_DequeueByte
      rw [if_pos hE]
    refine ⟨?_, hemp, fun _ => hrun, fun h => absurd he h⟩
    rw [hrun]
    exact ⟨fun _ => he, fun _ => rfl⟩
  · have hE : ¬ RingBuffer_isEmpty rb = true := fun h => he (hemp.mp h)
    have hrun : RingBuffer_DequeueByte rb
        = (true, some (rb.p_buf.getD rb.rd 0), { rb with rd := (rb.rd + 1) % rb.buf_len }) := by
      unfold RingBuffer_DequeueByte
      rw [if_neg hE]
      dsimp only
      rw [hinc]
    refine ⟨?_, hemp, fun h => absurd h he, fun _ => hrun⟩
    rw [hrun]
    exact ⟨fun h => Bool.noConfusion h, fun h => absurd h he⟩


/-- The calls of the `switch` for the inbound DFU codes. -/
theorem switchCalls_dfu (beyond : List Nat) (f : RxFrame_t) (d : DfuCommand)
    (h : f.cmd = inboundCode d) :
    switchCalls beyond f = [⟨.Dfu d, some (f.p_payload ++ beyond, f.len)⟩] := by
  unfold switchCalls
  cases d <;> simp [h, inboundCode, UART_CMD_PING_REQUEST, UART_CMD_INIT_DEVICE_EVENT,
    UART_CMD_CREATE_INSTANCES_RESPONSE, UART_CMD_INIT_NODE_EVENT, UART_CMD_START_NODE_RESPONSE,
    UART_CMD_MESH_MESSAGE_REQUEST, UART_CMD_ATTENTION_EVENT, UART_CMD_ERROR,
    UART_CMD_MODEM_FIRMWARE_VERSION_RESPONSE, UART_CMD_START_TEST_REQ, UART_CMD_DFU_INIT_REQ,
    UART_CMD_DFU_STATUS_REQ, UART_CMD_DFU_PAGE_CREATE_REQ, UART_CMD_DFU_WRITE_DATA_EVENT,
    UART_CMD_DFU_PAGE_STORE_REQ, UART_CMD_DFU_STATE_CHECK_RESP, UART_CMD_DFU_CANCEL_RESP]

/-- A command code that is no `case` label makes the `switch` call nothing. -/
theorem switchCalls_unknown (beyond : List Nat) (f : RxFrame_t) (h : f.cmd ∉ switchLabels) :
    switchCalls beyond f = [] := by
  simp only [switchLabels, List.mem_cons, List.mem_singleton, not_or, List.not_mem_nil,
    not_false_eq_true, and_true] at h
  obtain ⟨h1, h2, h3, h4, h5, h6, h7, h8, h9, h10, h11, h12, h13, h14, h15, h16, h17, h18, h19,
    h20, h21, h22⟩ := h
  unfold switchCalls
  dsimp only
  rw [if_neg h1, if_neg h2, if_neg h3, if_neg h4, if_neg h5, if_neg h6, if_neg h7, if_neg h8,
    if_neg h9, if_neg h10, if_neg h11, if_neg h12, if_neg h13, if_neg h14, if_neg h15,
    if_neg h16, if_neg h17, if_neg h18, if_neg h19, if_neg h20, if_neg h21, if_neg h22]

/-- The poll that consumes the second CRC byte of a frame with a matching CRC
hands the frame to the `switch`. -/
theorem poll_valid_frame {σ : Type} (L : CRCLib) (dispatch : RxFrame_t → σ → σ) (sys : σ)
    (s : RxParser) (cmd c0 c1 : Nat) (P : List Nat)
    (h0 : s.count = 0) (hp : s.rx_frame.p_payload.length = MAX_PAYLOAD_SIZE)
    (hmax : P.length ≤ MAX_PAYLOAD_SIZE) (hc0 : c0 < 256) (hc1 : c1 < 256)
    (hcrc : c0 + 256 * c1 = UARTInternal_CalcCRC16 L P.length cmd P) :
    (UART_ProcessIncomingCommand L dispatch (some c1)
        (feedBytes L s ([PREAMBLE_BYTE_1, PREAMBLE_BYTE_2, P.length, cmd] ++ P ++ [c0])).2
        sys).2
      = dispatch { len := P.length, cmd := cmd,
                   p_payload := P ++ s.rx_frame.p_payload.drop P.length } sys := by
  rw [feedBytes_to_crc_low L s cmd c0 P h0 hp hmax]
  have hstep := extract_crc_high L
    { crc := c0, count := 4 + P.length + 1,
      rx_frame := { len := P.length, cmd := cmd,
                    p_payload := P ++ s.rx_frame.p_payload.drop P.length } } c1 (by simp)
  have hval : (c0 + c1 * 256) % U16_MOD = c0 + 256 * c1 := by
    unfold U16_MOD
    omega
  simp only [calcCRC16_append, hval] at hstep
  simp only [UART_ProcessIncomingCommand, hstep, beq_iff_eq]
  simp [hcrc]

/-- C29: dispatch table. When the poll of `UART_ProcessIncomingCommand` that
consumes the last byte of a frame `AA 55 L C P c0 c1` with a matching CRC
completes the frame, each inbound DFU code makes the `switch` call exactly its
own handler, once, and no other: `0x80` calls `ProcessDfuInitRequest`, `0x82`
`ProcessDfuStatusRequest`, `0x84` `ProcessDfuPageCreateRequest`, `0x86`
`ProcessDfuWriteDataEvent`, `0x87` `ProcessDfuPageStoreRequest`, `0x8A`
`ProcessDfuStateCheckResponse` and `0x8C` `ProcessDfuCancelResponse`, each
with the pointer `rx_frame.p_payload` and the declared length `L`. The memory
at that pointer starts with the `L` payload bytes of the frame, goes on with
what earlier frames left in the array, and, past the 127 cells of the array,
with whatever bytes `beyond` lie after it. The system after the poll is the
one that handler leaves. For every command code that is no `case` label no
handler is called, nothing is transmitted and the DFU session state is
unchanged: the system is as it was. -/
theorem dispatch_table {W : Type} (L : CRCLib) (F : Flasher W)
    (ext : HandlerCall → McuSystem W → McuSystem W) (beyond : List Nat) (sys : McuSystem W)
    (s : RxParser) (cmd c0 c1 : Nat) (P : List Nat)
    (h0 : s.count = 0) (hp : s.rx_frame.p_payload.length = MAX_PAYLOAD_SIZE)
    (hmax : P.length ≤ MAX_PAYLOAD_SIZE) (hc0 : c0 < 256) (hc1 : c1 < 256)
    (hcrc : c0 + 256 * c1 = UARTInternal_CalcCRC16 L P.length cmd P) :
    (cmd = 0x80 →
      (UART_ProcessIncomingCommand L (dispatchFrame L F ext beyond) (some c1)
          (feedBytes L s ([PREAMBLE_BYTE_1, PREAMBLE_BYTE_2, P.length, cmd] ++ P ++ [c0])).2
          sys).2
        = handlerEffect sys
            ⟨.Dfu .InitRequest, some (P ++ s.rx_frame.p_payload.drop P.length ++ beyond, P.length)⟩
            (ProcessDfuInitRequest F (P ++ s.rx_frame.p_payload.drop P.length ++ beyond) P.length
              sys.dfu sys.world)) ∧
    (cmd = 0x82 →
      (UART_ProcessIncomingCommand L (dispatchFrame L F ext beyond) (some c1)
          (feedBytes L s ([PREAMBLE_BYTE_1, PREAMBLE_BYTE_2, P.length, cmd] ++ P ++ [c0])).2
          sys).2
        = handlerEffect sys
            ⟨.Dfu .StatusRequest, some (P ++ s.rx_frame.p_payload.drop P.length ++ beyond, P.length)⟩
            (ProcessDfuStatusRequest L F (P ++ s.rx_frame.p_payload.drop P.length ++ beyond) P.length
              sys.dfu sys.world)) ∧
    (cmd = 0x84 →
      (UART_ProcessIncomingCommand L (dispatchFrame L F ext beyond) (some c1)
          (feedBytes L s ([PREAMBLE_BYTE_1, PREAMBLE_BYTE_2, P.length, cmd] ++ P ++ [c0])).2
          sys).2
        = handlerEffect sys
            ⟨.Dfu .PageCreateRequest, some (P ++ s.rx_frame.p_payload.drop P.length ++ beyond, P.length)⟩
            (ProcessDfuPageCreateRequest (P ++ s.rx_frame.p_payload.drop P.length ++ beyond) P.length
              sys.dfu sys.world)) ∧
    (cmd = 0x86 →
      (UART_ProcessIncomingCommand L (dispatchFrame L F ext beyond) (some c1)
          (feedBytes L s ([PREAMBLE_BYTE_1, PREAMBLE_BYTE_2, P.length, cmd] ++ P ++ [c0])).2
          sys).2
        = handlerEffect sys
            ⟨.Dfu .WriteDataEvent, some (P ++ s.rx_frame.p_payload.drop P.length ++ beyond, P.length)⟩
            (ProcessDfuWriteDataEvent (P ++ s.rx_frame.p_payload.drop P.length ++ beyond) P.length
              sys.dfu sys.world)) ∧
    (cmd = 0x87 →
      (UART_ProcessIncomingCommand L (dispatchFrame L F ext beyond) (some c1)
          (feedBytes L s ([PREAMBLE_BYTE_1, PREAMBLE_BYTE_2, P.length, cmd] ++ P ++ [c0])).2
          sys).2
        = handlerEffect sys
            ⟨.Dfu .PageStoreRequest, some (P ++ s.rx_frame.p_payload.drop P.length ++ beyond, P.length)⟩
            (ProcessDfuPageStoreRequest L F (P ++ s.rx_frame.p_payload.drop P.length ++ beyond) P.length
              sys.dfu sys.world)) ∧
    (cmd = 0x8A →
      (UART_ProcessIncomingCommand L (dispatchFrame L F ext beyond) (some c1)
          (feedBytes L s ([PREAMBLE_BYTE_1, PREAMBLE_BYTE_2, P.length, cmd] ++ P ++ [c0])).2
          sys).2
        = handlerEffect sys
            ⟨.Dfu .StateCheckResponse, some (P ++ s.rx_frame.p_payload.drop P.length ++ beyond, P.length)⟩
            (ProcessDfuStateCheckResponse (P ++ s.rx_frame.p_payload.drop P.length ++ beyond) P.length
              sys.dfu sys.world)) ∧
    (cmd = 0x8C →
      (UART_ProcessIncomingCommand L (dispatchFrame L F ext beyond) (some c1)
          (feedBytes L s ([PREAMBLE_BYTE_1, PREAMBLE_BYTE_2, P.length, cmd] ++ P ++ [c0])).2
          sys).2
        = handlerEffect sys
            ⟨.Dfu .CancelResponse, some (P ++ s.rx_frame.p_payload.drop P.length ++ beyond, P.length)⟩
            (ProcessDfuCancelResponse (P ++ s.rx_frame.p_payload.drop P.length ++ beyond) P.length
              sys.dfu sys.world)) ∧
    (cmd ∉ switchLabels →
      (UART_ProcessIncomingCommand L (dispatchFrame L F ext beyond) (some c1)
          (feedBytes L s ([PREAMBLE_BYTE_1, PREAMBLE_BYTE_2, P.length, cmd] ++ P ++ [c0])).2
          sys).2 = sys) ∧
    (P ++ s.rx_frame.p_payload.drop P.length ++ beyond).take P.length = P ∧
    (P ++ s.rx_frame.p_payload.drop P.length ++ beyond).drop MAX_PAYLOAD_SIZE = beyond := by
  rw [poll_valid_frame L (dispatchFrame L F ext beyond) sys s cmd c0 c1 P h0 hp hmax hc0 hc1
    hcrc]
  have hdfu : ∀ d : DfuCommand, cmd = inboundCode d →
      dispatchFrame L F ext beyond
          { len := P.length, cmd := cmd,
            p_payload := P ++ s.rx_frame.p_payload.drop P.length } sys
        = handlerEffect sys
            ⟨.Dfu d, some (P ++ s.rx_frame.p_payload.drop P.length ++ beyond, P.length)⟩
            (dfuHandle L F d (P ++ s.rx_frame.p_payload.drop P.length ++ beyond) P.length
              sys.dfu sys.world) := by
    intro d hd
    unfold dispatchFrame
    rw [switchCalls_dfu beyond _ d hd]
    rfl
  refine ⟨fun h => hdfu .InitRequest h, fun h => hdfu .StatusRequest h,
    fun h => hdfu .PageCreateRequest h, fun h => hdfu .WriteDataEvent h,
    fun h => hdfu .PageStoreRequest h, fun h => hdfu .StateCheckResponse h,
    fun h => hdfu .CancelResponse h, ?_, ?_, ?_⟩
  · intro hno
    unfold dispatchFrame
    rw [switchCalls_unknown beyond _ hno]
    rfl
  · rw [List.append_assoc, List.take_left']
    rfl
  · have hl : (P ++ s.rx_frame.p_payload.drop P.length).length = MAX_PAYLOAD_SIZE := by
      rw [List.length_append, List.length_drop, hp]
      omega
    exact List.drop_left' hl

/-- Inverting one of the eight bits of a byte gives another byte. -/
theorem flipBit_byte (b k : Nat) (hb : b < 256) (hk : k < 8) :
    flipBit b k < 256 ∧ flipBit b k ≠ b := by
  constructor
  · have h2 : 2 ^ k < 2 ^ 8 := Nat.pow_lt_pow_right (by decide) hk
    exact Nat.xor_lt_two_pow (n := 8) hb h2
  · intro h
    have h3 : b ^^^ (b ^^^ 2 ^ k) = b ^^^ b := by
      unfold flipBit at h
      rw [h]
    rw [← Nat.xor_assoc, Nat.xor_self, Nat.zero_xor] at h3
    have : 0 < 2 ^ k := Nat.pow_pos (by decide)
    omega

/-- A frame whose two CRC bytes do not assemble to the CRC16 of its length,
command and payload is consumed without any call returning true. -/
theorem feedBytes_crc_mismatch (L : CRCLib) (s : RxParser) (cmd c0 c1 : Nat) (P : List Nat)
    (h0 : s.count = 0) (hp : s.rx_frame.p_payload.length = MAX_PAYLOAD_SIZE)
    (hmax : P.length ≤ MAX_PAYLOAD_SIZE) (hc0 : c0 < 256) (hc1 : c1 < 256)
    (hne : c0 + 256 * c1 ≠ UARTInternal_CalcCRC16 L P.length cmd P) :
    (feedBytes L s ([PREAMBLE_BYTE_1, PREAMBLE_BYTE_2, P.length, cmd] ++ P ++ [c0, c1])).1
      = List.replicate (P.length + 6) false := by
  have hsplit : [PREAMBLE_BYTE_1, PREAMBLE_BYTE_2, P.length, cmd] ++ P ++ [c0, c1]
      = ([PREAMBLE_BYTE_1, PREAMBLE_BYTE_2, P.length, cmd] ++ P ++ [c0]) ++ [c1] := by simp
  rw [hsplit, feedBytes_append, feedBytes_to_crc_low L s cmd c0 P h0 hp hmax]
  have hstep := extract_crc_high L
    { crc := c0, count := 4 + P.length + 1,
      rx_frame := { len := P.length, cmd := cmd,
                    p_payload := P ++ s.rx_frame.p_payload.drop P.length } } c1 (by simp)
  have hval : (c0 + c1 * 256) % U16_MOD = c0 + 256 * c1 := by
    unfold U16_MOD
    omega
  simp only [calcCRC16_append, hval] at hstep
  have hfalse : (c0 + 256 * c1 == UARTInternal_CalcCRC16 L P.length cmd P) = false := by
    simp [hne]
  rw [hfalse] at hstep
  simp only [feedBytes, hstep]
  rw [List.replicate_succ' (P.length + 5)]

/-- When the two payload bytes of a frame are the CRC16 of the empty frame with
the same command, inverting bit 1 of the length byte `02` makes the parser
deliver that empty frame: the call consuming the sixth byte returns true,
whatever the CRC routine. -/
theorem length_flip_delivers (L : CRCLib) (s : RxParser) (cmd : Nat)
    (h0 : s.count = 0) (hp : s.rx_frame.p_payload.length = MAX_PAYLOAD_SIZE) :
    (feedBytes L s
      [PREAMBLE_BYTE_1, PREAMBLE_BYTE_2, flipBit 2 1, cmd,
        lowByte (UARTInternal_CalcCRC16 L 0 cmd []),
        highByte (UARTInternal_CalcCRC16 L 0 cmd [])]).1
      = [false, false, false, false, false, true] := by
  have hflip : flipBit 2 1 = ([] : List Nat).length := by decide
  have hsplit : [PREAMBLE_BYTE_1, PREAMBLE_BYTE_2, flipBit 2 1, cmd,
        lowByte (UARTInternal_CalcCRC16 L 0 cmd []),
        highByte (UARTInternal_CalcCRC16 L 0 cmd [])]
      = ([PREAMBLE_BYTE_1, PREAMBLE_BYTE_2, ([] : List Nat).length, cmd] ++ []
          ++ [lowByte (UARTInternal_CalcCRC16 L 0 cmd [])])
        ++ [highByte (UARTInternal_CalcCRC16 L 0 cmd [])] := by
    rw [hflip]
    rfl
  rw [hsplit, feedBytes_append,
    feedBytes_to_crc_low L s cmd _ [] h0 hp (by decide)]
  have hstep := extract_crc_high L
    { crc := lowByte (UARTInternal_CalcCRC16 L 0 cmd []), count := 4 + ([] : List Nat).length + 1,
      rx_frame := { len := ([] : List Nat).length, cmd := cmd,
                    p_payload := [] ++ s.rx_frame.p_payload.drop ([] : List Nat).length } }
    (highByte (UARTInternal_CalcCRC16 L 0 cmd [])) (by simp)
  have hre := crc_bytes_reassemble (UARTInternal_CalcCRC16 L 0 cmd []) (calcCRC16_lt L 0 cmd [])
  have hcrc0 : UARTInternal_CalcCRC16 L 0 cmd ([] ++ List.drop 0 s.rx_frame.p_payload)
      = UARTInternal_CalcCRC16 L 0 cmd [] := by
    simp [UARTInternal_CalcCRC16]
  simp only [List.length_nil, hre, hcrc0, beq_self_eq_true] at hstep
  simp only [feedBytes, List.length_nil, hstep]
  rfl

/-- Corruption that the CRC routine detects is dropped. For every CRC routine,
every command, every payload `P` of at most 127 bytes and the frame
`AA 55 len cmd P lo hi` that `UARTInternal_Send` builds, fed from a receive
state with counter 0: a frame with one bit of a CRC byte inverted is consumed
without any call of `ExtractFrameFromBuffer` returning true; a frame with one
bit of the command byte or of a payload byte inverted is consumed without any
call returning true whenever `CalcCRC16` gives the altered content another
CRC16 than the original. -/
theorem corruption_dropped_of_detection (L : CRCLib) (s : RxParser) (cmd : Nat) (P : List Nat)
    (h0 : s.count = 0) (hp : s.rx_frame.p_payload.length = MAX_PAYLOAD_SIZE)
    (hmax : P.length ≤ MAX_PAYLOAD_SIZE) :
    UARTInternal_Send L P.length cmd P
      = [PREAMBLE_BYTE_1, PREAMBLE_BYTE_2, P.length, cmd] ++ P
          ++ [lowByte (UARTInternal_CalcCRC16 L P.length cmd P),
              highByte (UARTInternal_CalcCRC16 L P.length cmd P)] ∧
    (∀ k, k < 8 →
      UARTInternal_CalcCRC16 L P.length (flipBit cmd k) P
        ≠ UARTInternal_CalcCRC16 L P.length cmd P →
      (feedBytes L s ([PREAMBLE_BYTE_1, PREAMBLE_BYTE_2, P.length, flipBit cmd k] ++ P
          ++ [lowByte (UARTInternal_CalcCRC16 L P.length cmd P),
              highByte (UARTInternal_CalcCRC16 L P.length cmd P)])).1
        = List.replicate (P.length + 6) false) ∧
    (∀ j k, j < P.length → k < 8 →
      UARTInternal_CalcCRC16 L P.length cmd (P.set j (flipBit (P.getD j 0) k))
        ≠ UARTInternal_CalcCRC16 L P.length cmd P →
      (feedBytes L s ([PREAMBLE_BYTE_1, PREAMBLE_BYTE_2, P.length, cmd]
          ++ P.set j (flipBit (P.getD j 0) k)
          ++ [lowByte (UARTInternal_CalcCRC16 L P.length cmd P),
              highByte (UARTInternal_CalcCRC16 L P.length cmd P)])).1
        = List.replicate (P.length + 6) false) ∧
    (∀ k, k < 8 →
      (feedBytes L s ([PREAMBLE_BYTE_1, PREAMBLE_BYTE_2, P.length, cmd] ++ P
          ++ [flipBit (lowByte (UARTInternal_CalcCRC16 L P.length cmd P)) k,
              highByte (UARTInternal_CalcCRC16 L P.length cmd P)])).1
        = List.replicate (P.length + 6) false) ∧
    (∀ k, k < 8 →
      (feedBytes L s ([PREAMBLE_BYTE_1, PREAMBLE_BYTE_2, P.length, cmd] ++ P
          ++ [lowByte (UARTInternal_CalcCRC16 L P.length cmd P),
              flipBit (highByte (UARTInternal_CalcCRC16 L P.length cmd P)) k])).1
        = List.replicate (P.length + 6) false) := by
  have hlt := calcCRC16_lt L P.length cmd P
  have hlo : lowByte (UARTInternal_CalcCRC16 L P.length cmd P) < 256 :=
    Nat.mod_lt _ (by decide)
  have hhi : highByte (UARTInternal_CalcCRC16 L P.length cmd P) < 256 :=
    Nat.mod_lt _ (by decide)
  have hsum : lowByte (UARTInternal_CalcCRC16 L P.length cmd P)
      + 256 * highByte (UARTInternal_CalcCRC16 L P.length cmd P)
      = UARTInternal_CalcCRC16 L P.length cmd P := by
    unfold lowByte highByte U8_MOD
    unfold U16_MOD at hlt
    omega
  refine ⟨?_, ?_, ?_, ?_, ?_⟩
  · simp [UARTInternal_Send]
  · intro k hk hdet
    refine feedBytes_crc_mismatch L s (flipBit cmd k) _ _ P h0 hp hmax hlo hhi ?_
    rw [hsum]
    exact fun h => hdet h.symm
  · intro j k hj hk hdet
    have hlen : (P.set j (flipBit (P.getD j 0) k)).length = P.length := List.length_set _ _ _
    have h := feedBytes_crc_mismatch L s cmd
      (lowByte (UARTInternal_CalcCRC16 L P.length cmd P))
      (highByte (UARTInternal_CalcCRC16 L P.length cmd P))
      (P.set j (flipBit (P.getD j 0) k)) h0 hp (by rw [hlen]; exact hmax) hlo hhi
      (by rw [hsum, hlen]; exact fun h => hdet h.symm)
    rw [hlen] at h
    exact h
  · intro k hk
    have hf := flipBit_byte _ k hlo hk
    refine feedBytes_crc_mismatch L s cmd _ _ P h0 hp hmax hf.1 hhi ?_
    intro h
    apply hf.2
    omega
  · intro k hk
    have hf := flipBit_byte _ k hhi hk
    refine feedBytes_crc_mismatch L s cmd _ _ P h0 hp hmax hlo hf.1 ?_
    intro h
    apply hf.2
    omega

/-- `MCU_DFU_AppData_Validate` on application data of at most 255 bytes returns
the status `appDataStatusSpec` describes. -/
theorem validate_eq_spec (d : List Nat) (hlen : d.length ≤ 255) :
    MCU_DFU_AppData_Validate d d.length = appDataStatusSpec d := by
  unfold MCU_DFU_AppData_Validate appDataStatusSpec
  by_cases hig : d = DFU_VALIDATION_IGNORE_STRING
  · rw [if_pos ((validate_bypass_iff d).mpr hig), if_pos hig]
  · rw [if_neg (fun h => hig ((validate_bypass_iff d).mp h)), if_neg hig, memchr_spec]
    by_cases hmem : SLASH ∈ d
    · have hk := takeWhile_length_lt SLASH d hmem
      have hkmod : (d.takeWhile (fun x => x != SLASH)).length % U8_MOD
          = (d.takeWhile (fun x => x != SLASH)).length := by
        unfold U8_MOD
        omega
      have hbl : (d.length + (U8_MOD - (d.takeWhile (fun x => x != SLASH)).length)
          + (U8_MOD - 1)) % U8_MOD
          = (d.drop ((d.takeWhile (fun x => x != SLASH)).length + 1)).length := by
        rw [List.length_drop]
        unfold U8_MOD
        omega
      simp only [if_pos hmem, hkmod, hbl]
      rw [drop_takeWhile_length]
      have htag := validate_tag_iff d _ (Nat.le_of_lt hk)
      rw [take_takeWhile_length] at htag
      have hbuild := validate_build_iff (d.dropWhile (fun x => x != SLASH)).tail
      by_cases ht : d.takeWhile (fun x => x != SLASH) = DFU_VALIDATION_STRING
      · have ht2 : ¬ (SLASH ∉ d ∨ d.takeWhile (fun x => x != SLASH) ≠ DFU_VALIDATION_STRING) := by
          simp [hmem, ht]
        rw [if_neg (fun h => (htag.mp h) ht), if_neg ht2]
        by_cases hb : (d.dropWhile (fun x => x != SLASH)).tail = BUILD_NUMBER
        · rw [if_pos (hbuild.mpr hb), if_pos hb]
        · rw [if_neg (fun h => hb (hbuild.mp h)), if_neg hb]
      · rw [if_pos (htag.mpr ht), if_pos (Or.inr ht)]
    · simp only [if_neg hmem]
      rw [if_pos (Or.inl hmem)]

/-- Application data `<DFU_VALIDATION_STRING>/<build>` with a build number
other than the running one validates. -/
theorem validate_tag_other_build (build : List Nat) (hlen : build.length ≤ 248)
    (hb : build ≠ BUILD_NUMBER) :
    MCU_DFU_AppData_Validate (DFU_VALIDATION_STRING ++ [SLASH] ++ build)
      (DFU_VALIDATION_STRING ++ [SLASH] ++ build).length = DFU_SUCCESS := by
  have hl : (DFU_VALIDATION_STRING ++ [SLASH] ++ build).length ≤ 255 := by
    simp [DFU_VALIDATION_STRING]
    omega
  rw [validate_eq_spec _ hl]
  have hd : DFU_VALIDATION_STRING ++ [SLASH] ++ build
      = 99 :: 108 :: 105 :: 101 :: 110 :: 116 :: 47 :: build := rfl
  unfold appDataStatusSpec
  rw [hd]
  have h1 : ¬ (99 :: 108 :: 105 :: 101 :: 110 :: 116 :: 47 :: build
      = DFU_VALIDATION_IGNORE_STRING) := by
    simp [DFU_VALIDATION_IGNORE_STRING]
  have htw : (99 :: 108 :: 105 :: 101 :: 110 :: 116 :: 47 :: build).takeWhile
      (fun c => c != SLASH) = DFU_VALIDATION_STRING := by
    simp [List.takeWhile, SLASH, DFU_VALIDATION_STRING]
  have hdw : ((99 :: 108 :: 105 :: 101 :: 110 :: 116 :: 47 :: build).dropWhile
      (fun c => c != SLASH)).tail = build := by
    simp [List.dropWhile, SLASH]
  have hmem : SLASH ∈ (99 :: 108 :: 105 :: 101 :: 110 :: 116 :: 47 :: build) := by
    simp [SLASH]
  rw [if_neg h1, htw, hdw, if_neg (by simp [hmem]), if_neg hb]

/-- Reading back the four little-endian bytes of a 32-bit value. -/
theorem readU32_bytesU32 (v : Nat) (rest : List Nat) (hv : v < SIZE_MOD) :
    readU32 (bytesU32 v ++ rest) 0 = v := by
  have e : bytesU32 v ++ rest
      = v % 256 :: (v / 256) % 256 :: (v / 65536) % 256 :: (v / 16777216) % 256 :: rest := by
    simp [bytesU32, U8_MOD, Nat.shiftRight_eq_div_pow]
  rw [e, readU32_eq _ 0 (Nat.mod_lt _ (by decide)) (Nat.mod_lt _ (by decide))
    (Nat.mod_lt _ (by decide)) (Nat.mod_lt _ (by decide))]
  show v % 256 + 256 * ((v / 256) % 256) + 65536 * ((v / 65536) % 256)
    + 16777216 * ((v / 16777216) % 256) = v
  unfold SIZE_MOD at hv
  omega

/-- A run over `a ++ b` whose first part returns control continues with `b`. -/
theorem dfuRun_append {W : Type} (L : CRCLib) (F : Flasher W) (a b : List DfuRequest) :
    ∀ (s : DfuState) (w : W), (dfuRun L F a s w).returns = true →
      dfuRun L F (a ++ b) s w =
        { state := (dfuRun L F b (dfuRun L F a s w).state (dfuRun L F a s w).world).state,
          world := (dfuRun L F b (dfuRun L F a s w).state (dfuRun L F a s w).world).world,
          events := (dfuRun L F a s w).events
            ++ (dfuRun L F b (dfuRun L F a s w).state (dfuRun L F a s w).world).events,
          returns := (dfuRun L F b (dfuRun L F a s w).state (dfuRun L F a s w).world).returns } := by
  induction a with
  | nil =>
    intro s w _
    rfl
  | cons r rs ih =>
    intro s w hret
    by_cases hr : (dfuHandle L F r.cmd r.p_payload r.len s w).returns = true
    · have e1 : ∀ l, dfuRun L F (r :: l) s w =
          { state := (dfuRun L F l (dfuHandle L F r.cmd r.p_payload r.len s w).state
              (dfuHandle L F r.cmd r.p_payload r.len s w).world).state,
            world := (dfuRun L F l (dfuHandle L F r.cmd r.p_payload r.len s w).state
              (dfuHandle L F r.cmd r.p_payload r.len s w).world).world,
            events := (dfuHandle L F r.cmd r.p_payload r.len s w).events ++
              (dfuRun L F l (dfuHandle L F r.cmd r.p_payload r.len s w).state
                (dfuHandle L F r.cmd r.p_payload r.len s w).world).events,
            returns := (dfuRun L F l (dfuHandle L F r.cmd r.p_payload r.len s w).state
              (dfuHandle L F r.cmd r.p_payload r.len s w).world).returns } := by
        intro l
        show (if (dfuHandle L F r.cmd r.p_payload r.len s w).returns = true then _ else _) = _
        rw [if_pos hr]
      have hret2 : (dfuRun L F rs (dfuHandle L F r.cmd r.p_payload r.len s w).state
          (dfuHandle L F r.cmd r.p_payload r.len s w).world).returns = true := by
        rw [e1 rs] at hret
        exact hret
      rw [List.cons_append, e1 (rs ++ b), e1 rs, ih _ _ hret2]
      simp only [List.append_assoc]
    · exfalso
      have e2 : dfuRun L F (r :: rs) s w = dfuHandle L F r.cmd r.p_payload r.len s w := by
        show (if (dfuHandle L F r.cmd r.p_payload r.len s w).returns = true then _ else _) = _
        rw [if_neg hr]
      rw [e2] at hret
      exact hr hret

/-- A run of WriteData events whose chunks fit the open page: nothing is
transmitted, the cursor advances by the chunk lengths, and nothing but the
page buffer and the cursor changes. -/
theorem writeData_run {W : Type} (L : CRCLib) (F : Flasher W) (chunks : List (List Nat)) :
    ∀ (s : DfuState) (w : W), s.DfuInProgress ≠ 0 →
      s.PageOffset + (chunks.map List.length).sum ≤ s.PageSize → s.PageSize < SIZE_MOD →
      (dfuRun L F (chunks.map writeDataEvent) s w).events = [] ∧
      (dfuRun L F (chunks.map writeDataEvent) s w).world = w ∧
      (dfuRun L F (chunks.map writeDataEvent) s w).returns = true ∧
      (dfuRun L F (chunks.map writeDataEvent) s w).state.PageOffset
        = s.PageOffset + (chunks.map List.length).sum ∧
      (dfuRun L F (chunks.map writeDataEvent) s w).state.PageSize = s.PageSize ∧
      (dfuRun L F (chunks.map writeDataEvent) s w).state.FirmwareOffset = s.FirmwareOffset ∧
      (dfuRun L F (chunks.map writeDataEvent) s w).state.FirmwareSize = s.FirmwareSize ∧
      (dfuRun L F (chunks.map writeDataEvent) s w).state.Sha256 = s.Sha256 ∧
      (dfuRun L F (chunks.map writeDataEvent) s w).state.DfuInProgress = s.DfuInProgress := by
  induction chunks with
  | nil =>
    intro s w _ _ _
    exact ⟨rfl, rfl, rfl, rfl, rfl, rfl, rfl, rfl, rfl⟩
  | cons c cs ih =>
    intro s w hin hfit hps
    simp only [List.map_cons, List.sum_cons] at hfit ⊢
    have hsum : sizeAdd s.PageOffset c.length = s.PageOffset + c.length := by
      unfold sizeAdd
      exact Nat.mod_eq_of_lt (by omega)
    have hstep : dfuHandle L F (writeDataEvent c).cmd (writeDataEvent c).p_payload
        (writeDataEvent c).len s w =
        { state := { s with
            PageBuffer := memcpy s.PageBuffer s.PageOffset c c.length,
            PageOffset := s.PageOffset + c.length },
          world := w, events := [], returns := true } := by
      show ProcessDfuWriteDataEvent (c.length :: c) (c.length + 1) s w = _
      unfold ProcessDfuWriteDataEvent
      dsimp only
      rw [if_neg hin]
      have e1 : (c.length :: c).getD 0 0 = c.length := rfl
      have e2 : List.drop 1 (c.length :: c) = c := rfl
      rw [e1, e2, hsum, if_pos (by omega)]
    have hrun : dfuRun L F (writeDataEvent c :: cs.map writeDataEvent) s w =
        { state := (dfuRun L F (cs.map writeDataEvent) { s with
            PageBuffer := memcpy s.PageBuffer s.PageOffset c c.length,
            PageOffset := s.PageOffset + c.length } w).state,
          world := (dfuRun L F (cs.map writeDataEvent) { s with
            PageBuffer := memcpy s.PageBuffer s.PageOffset c c.length,
            PageOffset := s.PageOffset + c.length } w).world,
          events := [] ++ (dfuRun L F (cs.map writeDataEvent) { s with
            PageBuffer := memcpy s.PageBuffer s.PageOffset c c.length,
            PageOffset := s.PageOffset + c.length } w).events,
          returns := (dfuRun L F (cs.map writeDataEvent) { s with
            PageBuffer := memcpy s.PageBuffer s.PageOffset c c.length,
            PageOffset := s.PageOffset + c.length } w).returns } := by
      show (if (dfuHandle L F (writeDataEvent c).cmd (writeDataEvent c).p_payload
        (writeDataEvent c).len s w).returns = true then _ else _) = _
      rw [hstep, if_pos rfl]
    obtain ⟨i1, i2, i3, i4, i5, i6, i7, i8, i9⟩ := ih { s with
        PageBuffer := memcpy s.PageBuffer s.PageOffset c c.length,
        PageOffset := s.PageOffset + c.length } w hin
      (by show s.PageOffset + c.length + (cs.map List.length).sum ≤ s.PageSize; omega) hps
    rw [hrun]
    refine ⟨?_, i2, i3, ?_, i5, i6, i7, i8, i9⟩
    · show [] ++ _ = []
      rw [i1]
      rfl
    · show (dfuRun L F (cs.map writeDataEvent) _ w).state.PageOffset = _
      rw [i4]
      show s.PageOffset + c.length + _ = _
      omega

/-- A run over one frame is the handler call. -/
theorem dfuRun_single {W : Type} (L : CRCLib) (F : Flasher W) (r : DfuRequest) (s : DfuState)
    (w : W) :
    (dfuRun L F [r] s w).events = (dfuHandle L F r.cmd r.p_payload r.len s w).events ∧
    (dfuRun L F [r] s w).state = (dfuHandle L F r.cmd r.p_payload r.len s w).state ∧
    (dfuRun L F [r] s w).world = (dfuHandle L F r.cmd r.p_payload r.len s w).world ∧
    (dfuRun L F [r] s w).returns = (dfuHandle L F r.cmd r.p_payload r.len s w).returns := by
  by_cases hr : (dfuHandle L F r.cmd r.p_payload r.len s w).returns = true
  · have e : dfuRun L F [r] s w =
        { state := (dfuHandle L F r.cmd r.p_payload r.len s w).state,
          world := (dfuHandle L F r.cmd r.p_payload r.len s w).world,
          events := (dfuHandle L F r.cmd r.p_payload r.len s w).events ++ [],
          returns := true } := by
      show (if (dfuHandle L F r.cmd r.p_payload r.len s w).returns = true then _ else _) = _
      rw [if_pos hr]
      rfl
    rw [e]
    exact ⟨List.append_nil _, rfl, rfl, hr.symm⟩
  · have e : dfuRun L F [r] s w = dfuHandle L F r.cmd r.p_payload r.len s w := by
      show (if (dfuHandle L F r.cmd r.p_payload r.len s w).returns = true then _ else _) = _
      rw [if_neg hr]
    rw [e]
    exact ⟨rfl, rfl, rfl, rfl⟩

/-- A run whose first handler call returns control continues from what that
call left. -/
theorem dfuRun_cons {W : Type} (L : CRCLib) (F : Flasher W) (r : DfuRequest)
    (rs : List DfuRequest) (s : DfuState) (w : W) (a : DfuResult W)
    (h : dfuHandle L F r.cmd r.p_payload r.len s w = a) (hr : a.returns = true) :
    dfuRun L F (r :: rs) s w =
      { state := (dfuRun L F rs a.state a.world).state,
        world := (dfuRun L F rs a.state a.world).world,
        events := a.events ++ (dfuRun L F rs a.state a.world).events,
        returns := (dfuRun L F rs a.state a.world).returns } := by
  show (if (dfuHandle L F r.cmd r.p_payload r.len s w).returns = true then _ else _) = _
  rw [h, if_pos hr]

/-- The opening of an update, from any state: Init and PageCreate are answered
with SUCCESS, the WriteData events fill the page exactly. -/
theorem happyPath_opening {W : Type} (L : CRCLib) (F : Flasher W) (s : DfuState) (w : W)
    (size p : Nat) (sha build : List Nat) (chunks : List (List Nat))
    (hfit : size < F.Flasher_GetSpaceSize w) (hsize : size < SIZE_MOD)
    (hsha : sha.length = SHA256_SIZE) (hblen : build.length ≤ 248)
    (hbuild : build ≠ BUILD_NUMBER) (hp : p ≤ MAX_PAGE_SIZE)
    (htotal : (chunks.map List.length).sum = p) :
    (dfuRun L F (happyPath size sha build p chunks) s w).events
      = [.Flasher_EraseSpace, .UART_Send UART_CMD_DFU_INIT_RESP [DFU_SUCCESS],
         .UART_Send UART_CMD_DFU_PAGE_CREATE_RESP [DFU_SUCCESS]] ∧
    (dfuRun L F (happyPath size sha build p chunks) s w).world = F.Flasher_EraseSpace w ∧
    (dfuRun L F (happyPath size sha build p chunks) s w).returns = true ∧
    (dfuRun L F (happyPath size sha build p chunks) s w).state.DfuInProgress = 1 ∧
    (dfuRun L F (happyPath size sha build p chunks) s w).state.FirmwareSize = size ∧
    (dfuRun L F (happyPath size sha build p chunks) s w).state.FirmwareOffset = 0 ∧
    (dfuRun L F (happyPath size sha build p chunks) s w).state.PageOffset = p ∧
    (dfuRun L F (happyPath size sha build p chunks) s w).state.PageSize = p := by
  have hp2 : p ≤ 1024 := hp
  have hsha2 : sha.length = 32 := hsha
  have hdrop : (bytesU32 size ++ sha ++ [(DFU_VALIDATION_STRING ++ [SLASH] ++ build).length]
      ++ (DFU_VALIDATION_STRING ++ [SLASH] ++ build)).drop 37
      = DFU_VALIDATION_STRING ++ [SLASH] ++ build := by
    apply List.drop_left'
    simp [bytesU32, hsha2]
  have hget : (bytesU32 size ++ sha ++ [(DFU_VALIDATION_STRING ++ [SLASH] ++ build).length]
      ++ (DFU_VALIDATION_STRING ++ [SLASH] ++ build)).getD 36 0
      = (DFU_VALIDATION_STRING ++ [SLASH] ++ build).length := by
    rw [List.append_assoc, List.getD_append_right _ _ _ _ (by simp [bytesU32, hsha2])]
    have : (bytesU32 size ++ sha).length = 36 := by simp [bytesU32, hsha2]
    rw [this]
    rfl
  have hread : readU32 (bytesU32 size ++ sha
      ++ [(DFU_VALIDATION_STRING ++ [SLASH] ++ build).length]
      ++ (DFU_VALIDATION_STRING ++ [SLASH] ++ build)) 0 = size := by
    rw [List.append_assoc, List.append_assoc]
    exact readU32_bytesU32 size _ hsize
  have hvalid := validate_tag_other_build build hblen hbuild
  have hinit : dfuHandle L F (initRequest size sha (DFU_VALIDATION_STRING ++ [SLASH] ++ build)).cmd
      (initRequest size sha (DFU_VALIDATION_STRING ++ [SLASH] ++ build)).p_payload
      (initRequest size sha (DFU_VALIDATION_STRING ++ [SLASH] ++ build)).len s w =
      { state := { MCU_DFU_ClearStates with
          FirmwareSize := size,
          Sha256 := readSha256 (initRequest size sha
            (DFU_VALIDATION_STRING ++ [SLASH] ++ build)).p_payload MCU_DFU_ClearStates.Sha256,
          DfuInProgress := 1 },
        world := F.Flasher_EraseSpace w,
        events := [.Flasher_EraseSpace, .UART_Send UART_CMD_DFU_INIT_RESP [DFU_SUCCESS]],
        returns := true } := by
    show ProcessDfuInitRequest F (bytesU32 size ++ sha
      ++ [(DFU_VALIDATION_STRING ++ [SLASH] ++ build).length]
      ++ (DFU_VALIDATION_STRING ++ [SLASH] ++ build))
      (37 + (DFU_VALIDATION_STRING ++ [SLASH] ++ build).length) s w = _
    rw [init_cases, hdrop, hget, hvalid, if_neg (fun h => h rfl), hread, if_pos hfit]
    rfl
  have hreadp : readU32 (bytesU32 p) 0 = p := by
    have := readU32_bytesU32 p [] (by unfold SIZE_MOD; omega)
    rw [List.append_nil] at this
    exact this
  have hcreate : ∀ (s1 : DfuState) (w1 : W), s1.DfuInProgress ≠ 0 →
      dfuHandle L F (pageCreateRequest p).cmd (pageCreateRequest p).p_payload
        (pageCreateRequest p).len s1 w1 =
      { state := { s1 with PageOffset := 0, PageSize := p }, world := w1,
        events := [.UART_Send UART_CMD_DFU_PAGE_CREATE_RESP [DFU_SUCCESS]], returns := true } := by
    intro s1 w1 h1
    show ProcessDfuPageCreateRequest (bytesU32 p) 4 s1 w1 = _
    unfold ProcessDfuPageCreateRequest
    dsimp only
    rw [if_neg h1, hreadp, if_pos hp]
  unfold happyPath
  rw [dfuRun_cons L F _ _ s w _ hinit rfl]
  dsimp only
  rw [dfuRun_cons L F _ _ _ _ _ (hcreate _ _ (fun h => Nat.one_ne_zero h)) rfl]
  dsimp only
  obtain ⟨i1, i2, i3, i4, i5, i6, i7, i8, i9⟩ := writeData_run L F chunks
    { DfuInProgress := 1, FirmwareSize := size,
      FirmwareOffset := MCU_DFU_ClearStates.FirmwareOffset,
      Sha256 := readSha256 (initRequest size sha
        (DFU_VALIDATION_STRING ++ [SLASH] ++ build)).p_payload MCU_DFU_ClearStates.Sha256,
      PageBuffer := MCU_DFU_ClearStates.PageBuffer, PageOffset := 0, PageSize := p }
    (F.Flasher_EraseSpace w) (fun h => Nat.one_ne_zero h)
    (by show 0 + (chunks.map List.length).sum ≤ p; omega)
    (by show p < SIZE_MOD; unfold SIZE_MOD; omega)
  refine ⟨?_, i2, i3, i9, i7, i6, ?_, i5⟩
  · rw [i1]
    rfl
  · rw [i4]
    show 0 + (chunks.map List.length).sum = p
    omega

/-- C25 (amended): the DFU happy path as a trace. From any state, an Init
declaring `size < Flasher_GetSpaceSize()` with application data
`<DFU_VALIDATION_STRING>/<build>`, `build` other than the running build
number, then PageCreate for `0 < p ≤ 1024` bytes, then WriteData events whose
chunk lengths total exactly `p`, then PageStore with a succeeding flash write,
produce the responses Init `[SUCCESS]`, PageCreate `[SUCCESS]` (the WriteData
events are not answered) and PageStore `[SUCCESS]` when `p ≠ size` (so when
`p < size`), or `[FIRMWARE_SUCCESSFULLY_UPDATED]` followed by
`Flasher_UpdateFirmware` when `p = size` and the flashed image hashes to the
expected digest; after a `[SUCCESS]` store `firmware_offset = p`,
`page_offset = 0`, and a Status request reports the cumulative offset `p`. -/
theorem dfu_happy_path {W : Type} (L : CRCLib) (F : Flasher W) (s : DfuState) (w : W)
    (size p : Nat) (sha build : List Nat) (chunks : List (List Nat))
    (hfit : size < F.Flasher_GetSpaceSize w) (hsize : size < SIZE_MOD)
    (hsha : sha.length = SHA256_SIZE) (hblen : build.length ≤ 248)
    (hbuild : build ≠ BUILD_NUMBER) (hp0 : 0 < p) (hp : p ≤ MAX_PAGE_SIZE)
    (hchunk : ∀ c ∈ chunks, c.length < 256)
    (htotal : (chunks.map List.length).sum = p)
    (hflash : (pageStoreSave F (dfuRun L F (happyPath size sha build p chunks) s w).state
      (dfuRun L F (happyPath size sha build p chunks) s w).world).1 % U8_MOD
        = F.FLASHER_SUCCESS) :
    (dfuRun L F (happyPath size sha build p chunks) s w).events
      = [.Flasher_EraseSpace, .UART_Send UART_CMD_DFU_INIT_RESP [DFU_SUCCESS],
         .UART_Send UART_CMD_DFU_PAGE_CREATE_RESP [DFU_SUCCESS]] ∧
    (p ≠ size →
      (dfuRun L F (happyPath size sha build p chunks ++ [pageStoreRequest]) s w).events
        = [.Flasher_EraseSpace, .UART_Send UART_CMD_DFU_INIT_RESP [DFU_SUCCESS],
           .UART_Send UART_CMD_DFU_PAGE_CREATE_RESP [DFU_SUCCESS],
           pageStoreSaveEvent F (dfuRun L F (happyPath size sha build p chunks) s w).state
             (dfuRun L F (happyPath size sha build p chunks) s w).world,
           .UART_Send UART_CMD_DFU_PAGE_STORE_RESP [DFU_SUCCESS]] ∧
      (dfuRun L F (happyPath size sha build p chunks ++ [pageStoreRequest]) s w).state.FirmwareOffset
        = p ∧
      (dfuRun L F (happyPath size sha build p chunks ++ [pageStoreRequest]) s w).state.PageOffset
        = 0 ∧
      (ProcessDfuStatusRequest L F [] 0
        (dfuRun L F (happyPath size sha build p chunks ++ [pageStoreRequest]) s w).state
        (dfuRun L F (happyPath size sha build p chunks ++ [pageStoreRequest]) s w).world).events
        = [.UART_Send UART_CMD_DFU_STATUS_RESP
            ([DFU_SUCCESS] ++ bytesU32 MAX_PAGE_SIZE ++ bytesU32 p ++ bytesU32
              (MCU_DFU_CalcCRC L F
                (dfuRun L F (happyPath size sha build p chunks ++ [pageStoreRequest]) s w).state
                (dfuRun L F (happyPath size sha build p chunks ++ [pageStoreRequest]) s w).world))]) ∧
    (p = size →
      0 = memcmp
        (L.CalcSHA256 (F.memory
          (pageStoreSave F (dfuRun L F (happyPath size sha build p chunks) s w).state
            (dfuRun L F (happyPath size sha build p chunks) s w).world).2
          (F.Flasher_GetSpaceAddr
            (pageStoreSave F (dfuRun L F (happyPath size sha build p chunks) s w).state
              (dfuRun L F (happyPath size sha build p chunks) s w).world).2)
          size))
        (dfuRun L F (happyPath size sha build p chunks) s w).state.Sha256 SHA256_SIZE →
      (dfuRun L F (happyPath size sha build p chunks ++ [pageStoreRequest]) s w).events
        = [.Flasher_EraseSpace, .UART_Send UART_CMD_DFU_INIT_RESP [DFU_SUCCESS],
           .UART_Send UART_CMD_DFU_PAGE_CREATE_RESP [DFU_SUCCESS],
           pageStoreSaveEvent F (dfuRun L F (happyPath size sha build p chunks) s w).state
             (dfuRun L F (happyPath size sha build p chunks) s w).world,
           .UART_Send UART_CMD_DFU_PAGE_STORE_RESP [DFU_FIRMWARE_SUCCESSFULLY_UPDATED],
           .Flasher_UpdateFirmware (size / 4)]) := by
  obtain ⟨he, hw, hret, hin, hfs, hfo, hpo, hps⟩ :=
    happyPath_opening L F s w size p sha build chunks hfit hsize hsha hblen hbuild hp htotal
  have hrun := dfuRun_append L F (happyPath size sha build p chunks) [pageStoreRequest] s w hret
  have hp2 : p ≤ 1024 := hp
  generalize dfuRun L F (happyPath size sha build p chunks) s w = pre at *
  obtain ⟨s1, s2, s3, s4⟩ := dfuRun_single L F pageStoreRequest pre.state pre.world
  have hh : dfuHandle L F pageStoreRequest.cmd pageStoreRequest.p_payload pageStoreRequest.len
      pre.state pre.world = ProcessDfuPageStoreRequest L F [] 0 pre.state pre.world := rfl
  have hstore := pageStore_complete L F [] 0 pre.state pre.world
    (by rw [hin]; exact Nat.one_ne_zero) (by rw [hpo]; exact hp0) (by rw [hpo, hps])
  have hoff : sizeAdd pre.state.FirmwareOffset pre.state.PageOffset = p := by
    rw [hfo, hpo]
    unfold sizeAdd SIZE_MOD
    omega
  rw [if_neg (fun h => h hflash), hoff, hfs] at hstore
  rw [hh] at s1 s2 s3 s4
  refine ⟨he, ?_, ?_⟩
  · intro hne
    rw [if_pos hne] at hstore
    rw [hstore] at s1 s2 s3
    rw [hrun]
    dsimp only
    rw [s1, s2, s3, he]
    refine ⟨rfl, rfl, rfl, ?_⟩
    unfold ProcessDfuStatusRequest
    dsimp only
    have : sizeAdd p 0 = p := by
      unfold sizeAdd SIZE_MOD
      omega
    rw [this]
  · intro heq hhash
    subst heq
    rw [if_neg (fun h => h rfl), if_neg (fun h => h hhash)] at hstore
    rw [hstore] at s1
    rw [hrun]
    dsimp only
    rw [s1, he]
    rfl

/-- C25 (as stated) fails for `p = 0 = firmware_size`. Init declares an image
of 0 bytes (flash space 4096, application data `client/1`, expected digest 32
zero bytes, which is the digest of the flashed image), PageCreate asks for a
page of 0 bytes, no WriteData event is needed for a total of 0, and flash
writes succeed. PageStore finds `PageOffset == 0`, answers `[SUCCESS]` and
stores nothing: the update is not finalised, no
`[FIRMWARE_SUCCESSFULLY_UPDATED]` is sent. -/
theorem dfu_happy_path_counterexample :
    (0 : Nat) < (flasherOfSize 4096).Flasher_GetSpaceSize () ∧
    (0 : Nat) ≤ 1024 ∧
    (([] : List (List Nat)).map List.length).sum = 0 ∧
    0 = memcmp (crcOfSum.CalcSHA256 ((flasherOfSize 4096).memory () 0x8000 0))
      (dfuRun crcOfSum (flasherOfSize 4096) (happyPath 0 (List.replicate 32 0) [49] 0 [])
        MCU_DFU_ClearStates ()).state.Sha256 SHA256_SIZE ∧
    (dfuRun crcOfSum (flasherOfSize 4096) (happyPath 0 (List.replicate 32 0) [49] 0 [])
      MCU_DFU_ClearStates ()).state.FirmwareSize = 0 ∧
    (dfuRun crcOfSum (flasherOfSize 4096)
      (happyPath 0 (List.replicate 32 0) [49] 0 [] ++ [pageStoreRequest])
      MCU_DFU_ClearStates ()).events
      = [.Flasher_EraseSpace, .UART_Send UART_CMD_DFU_INIT_RESP [DFU_SUCCESS],
         .UART_Send UART_CMD_DFU_PAGE_CREATE_RESP [DFU_SUCCESS],
         .UART_Send UART_CMD_DFU_PAGE_STORE_RESP [DFU_SUCCESS]] := by
  refine ⟨by decide, by decide, rfl, by decide, by decide, ?_⟩
  decide

/-- Witness of `dfu_happy_path`: an image of 8 bytes, a page of 4 bytes written
as the chunks `[1, 2]` and `[3, 4]`; after the store the offset is 4. -/
theorem dfu_happy_path_witness :
    (dfuRun crcOfSum (flasherOfSize 4096)
      (happyPath 8 (List.replicate 32 0) [49] 4 [[1, 2], [3, 4]] ++ [pageStoreRequest])
      MCU_DFU_ClearStates ()).state.FirmwareOffset = 4 :=
  ((dfu_happy_path crcOfSum (flasherOfSize 4096) MCU_DFU_ClearStates () 8 4
    (List.replicate 32 0) [49] [[1, 2], [3, 4]] (by decide) (by decide)
    (List.length_replicate _ _) (by decide) (by decide) (by decide) (by decide) (by decide)
    rfl rfl).2.1 (by decide)).2.1

/-- Witness of `pageCreate_in_session`: a request for a page of 512 bytes
(`00 02 00 00`) in a session. -/
theorem pageCreate_in_session_witness :
    (sessionAfter 100 8 [1, 2, 3]).DfuInProgress ≠ 0 ∧
    (ProcessDfuPageCreateRequest [0, 2, 0, 0] 4 (sessionAfter 100 8 [1, 2, 3]) ()).events
      = [.UART_Send UART_CMD_DFU_PAGE_CREATE_RESP [DFU_SUCCESS]] :=
  ⟨by decide,
    ((pageCreate_in_session [0, 2, 0, 0] 4 512 (sessionAfter 100 8 [1, 2, 3]) () (by decide)
      (by decide) (by decide) (by decide) (by decide) (by decide)).1 (by decide)).1⟩

/-- Witness of `writeData_in_session`: a chunk of 2 bytes written at cursor 3 of
a page of 8 bytes. -/
theorem writeData_in_session_witness :
    (ProcessDfuWriteDataEvent [2, 9, 9] 3
      { DfuInProgress := 1, FirmwareSize := 100, FirmwareOffset := 0,
        Sha256 := List.replicate SHA256_SIZE 0, PageBuffer := List.replicate MAX_PAGE_SIZE 0,
        PageOffset := 3, PageSize := 8 } ()).state.PageOffset = 3 + 2 :=
  ((writeData_in_session [2, 9, 9] 3
    { DfuInProgress := 1, FirmwareSize := 100, FirmwareOffset := 0,
      Sha256 := List.replicate SHA256_SIZE 0, PageBuffer := List.replicate MAX_PAGE_SIZE 0,
      PageOffset := 3, PageSize := 8 } () (by decide) (List.length_replicate _ _) (by decide)
    (by decide) (by decide)).1 (by decide)).2.2.2

/-- Witness of `stateCheck_cancel_iff`: the peer reports a transfer in progress
to an idle engine. -/
theorem stateCheck_cancel_iff_witness :
    (ProcessDfuStateCheckResponse [0] 1 MCU_DFU_ClearStates ()).events
      = [.UART_Send UART_CMD_DFU_CANCEL_REQ []] :=
  (stateCheck_cancel_iff [0] 1 MCU_DFU_ClearStates () (Or.inl rfl)).1.mpr (by decide)

/-- Witness of `header_mismatch_resets`: the byte `0x55` at the first preamble
position. -/
theorem header_mismatch_resets_witness :
    ExtractFrameFromBuffer crcOfSum (some 0x55) rxReset = (false, { rxReset with count := 0 }) :=
  (header_mismatch_resets crcOfSum rxReset 0x55).1 rfl (by decide)

/-- Witness of `dequeueByte_contract`: three cells, the read cursor on the last
one. -/
theorem dequeueByte_contract_witness :
    RingBuffer_DequeueByte { p_buf := [7, 8, 9], buf_len := 3, wr := 0, rd := 2 }
      = (true, some 9, { p_buf := [7, 8, 9], buf_len := 3, wr := 0, rd := 0 }) :=
  (dequeueByte_contract { p_buf := [7, 8, 9], buf_len := 3, wr := 0, rd := 2 } (by decide)
    (by decide) (by decide)).2.2.2 (by decide)

/-- Witness of `dispatch_table`: the frame `AA 55 04 84 00 02 00 00 89 00`, a
PageCreate request for 512 bytes, arrives during a session; the `switch` calls
`ProcessDfuPageCreateRequest` and nothing else, the page is opened and
`[SUCCESS]` is answered. -/
theorem dispatch_table_witness :
    (UART_ProcessIncomingCommand crcOfSum
        (dispatchFrame crcOfSum (flasherOfSize 4096) (fun _ sys => sys) (List.replicate 165 238))
        (some 0)
        (feedBytes crcOfSum rxReset
          ([PREAMBLE_BYTE_1, PREAMBLE_BYTE_2, [0, 2, 0, 0].length, 0x84] ++ [0, 2, 0, 0]
            ++ [137])).2
        sysInSession).2.dfu.PageSize = 512 ∧
    (UART_ProcessIncomingCommand crcOfSum
        (dispatchFrame crcOfSum (flasherOfSize 4096) (fun _ sys => sys) (List.replicate 165 238))
        (some 0)
        (feedBytes crcOfSum rxReset
          ([PREAMBLE_BYTE_1, PREAMBLE_BYTE_2, [0, 2, 0, 0].length, 0x84] ++ [0, 2, 0, 0]
            ++ [137])).2
        sysInSession).2.events = [.UART_Send UART_CMD_DFU_PAGE_CREATE_RESP [DFU_SUCCESS]] ∧
    ((UART_ProcessIncomingCommand crcOfSum
        (dispatchFrame crcOfSum (flasherOfSize 4096) (fun _ sys => sys) (List.replicate 165 238))
        (some 0)
        (feedBytes crcOfSum rxReset
          ([PREAMBLE_BYTE_1, PREAMBLE_BYTE_2, [0, 2, 0, 0].length, 0x84] ++ [0, 2, 0, 0]
            ++ [137])).2
        sysInSession).2.calls.map (fun c => c.handler)) = [.Dfu .PageCreateRequest] := by
  rw [(dispatch_table crcOfSum (flasherOfSize 4096) (fun _ sys => sys) (List.replicate 165 238)
    sysInSession rxReset 0x84 137 0 [0, 2, 0, 0] rfl (List.length_replicate _ _) (by decide)
    (by decide) (by decide) (by decide)).2.2.1 rfl]
  decide

/-- Witness of `corruption_dropped_of_detection`: the frame of command 7 with
payload `[1, 2]`, bit 0 of its first CRC byte inverted. -/
theorem corruption_dropped_of_detection_witness :
    (feedBytes crcOfSum rxReset ([PREAMBLE_BYTE_1, PREAMBLE_BYTE_2, [1, 2].length, 7] ++ [1, 2]
        ++ [flipBit (lowByte (UARTInternal_CalcCRC16 crcOfSum [1, 2].length 7 [1, 2])) 0,
            highByte (UARTInternal_CalcCRC16 crcOfSum [1, 2].length 7 [1, 2])])).1
      = List.replicate ([1, 2].length + 6) false :=
  (corruption_dropped_of_detection crcOfSum rxReset 7 [1, 2] rfl (List.length_replicate _ _)
    (by decide)).2.2.2.1 0 (by decide)

/-! ## Timestamps, running CRC32, session invariants and parser safety -/

/-- C32: the code at the failing input. `Timestamp_Compare(lhs, rhs)` is true
exactly when `(rhs - lhs) mod 2^32 ≤ 2^31 - 1`, the difference 0 included: it
returns true for equal timestamps (`Timestamp_Compare(5, 5)`), where a
less-than operator, which needs `0 < (rhs - lhs) mod 2^32`, returns false. -/
theorem timestamp_compare_accepts_equal (lhs rhs t : Nat) :
    (Timestamp_Compare lhs rhs = true
      ↔ ((rhs : Int) - (lhs : Int)) % 4294967296 ≤ 2147483647) ∧
    Timestamp_Compare t t = true ∧
    Timestamp_Compare 5 5 = true ∧
    ¬ (0 < ((5 : Int) - (5 : Int)) % 4294967296) := by
  refine ⟨?_, ?_, by decide, by decide⟩
  · unfold Timestamp_Compare TIMESTAMP_MAX_COMPARABLE_DIFF TIMESTAMP_MAX sizeSub SIZE_MOD
    rw [decide_eq_true_eq]
    omega
  · unfold Timestamp_Compare TIMESTAMP_MAX_COMPARABLE_DIFF TIMESTAMP_MAX sizeSub SIZE_MOD
    rw [decide_eq_true_eq]
    omega

/-- C33: `Timestamp_GetTimeElapsed` is wrap-safe. For all 32-bit timestamps
`earlier` and `further`, `Timestamp_GetTimeElapsed(earlier, further)` equals
`(further - earlier) mod 2^32`: the plain difference when `earlier ≤ further`,
and the difference across one counter overflow otherwise; and
`Timestamp_GetTimeElapsed(t, Timestamp_GetDelayed(t, d)) = d` for every 32-bit
`t` and `d`. -/
theorem timestamp_elapsed_wrap_safe (earlier further t d : Nat)
    (he : earlier < 4294967296) (hf : further < 4294967296) (ht : t < 4294967296)
    (hd : d < 4294967296) :
    ((Timestamp_GetTimeElapsed earlier further : Nat) : Int)
      = ((further : Int) - (earlier : Int)) % 4294967296 ∧
    (earlier ≤ further → Timestamp_GetTimeElapsed earlier further = further - earlier) ∧
    (further < earlier →
      Timestamp_GetTimeElapsed earlier further = further + 4294967296 - earlier) ∧
    Timestamp_GetTimeElapsed t (Timestamp_GetDelayed t d) = d := by
  refine ⟨?_, ?_, ?_, ?_⟩
  · unfold Timestamp_GetTimeElapsed TIMESTAMP_MAX sizeSub sizeAdd SIZE_MOD
    split_ifs <;> omega
  · intro h
    unfold Timestamp_GetTimeElapsed TIMESTAMP_MAX sizeSub sizeAdd SIZE_MOD
    rw [if_neg (Nat.not_lt.mpr h)]
    omega
  · intro h
    unfold Timestamp_GetTimeElapsed TIMESTAMP_MAX sizeSub sizeAdd SIZE_MOD
    rw [if_pos h]
    omega
  · unfold Timestamp_GetTimeElapsed Timestamp_GetDelayed TIMESTAMP_MAX sizeSub sizeAdd SIZE_MOD
    split_ifs <;> omega

/-- For a capacity that divides 65536 and a buffer holding the queue `q` (fewer
than `C` bytes), `RingBuffer_GetMaxContinuousBuffer` returns the position `rd`
and the length `min(u, C - rd)` for the `u` unread bytes. -/
theorem maxContinuousBuffer_of_ringHolds (C : Nat) (rb : RingBuffer_T) (q : List Nat)
    (hdvd : U16_MOD % C = 0) (h : RingHolds C rb q) :
    RingBuffer_GetMaxContinuousBuffer rb = (rb.rd, min q.length (C - rb.rd)) := by
  obtain ⟨hbl, hpl, hwr, hrd, hql, hw, hcell⟩ := h
  have hC : C ≤ U16_MOD := Nat.le_of_dvd (by unfold U16_MOD; omega) (Nat.dvd_of_mod_eq_zero hdvd)
  have hw2 := hw
  rw [mod_wrap _ _ (by omega)] at hw2
  have hdl : RingBuffer_DataLen rb = q.length := by
    rw [dataLen_of_dvd rb (by rw [hbl]; exact hdvd) (by omega) (by omega), hbl]
    split_ifs at hw2 ⊢ <;> omega
  unfold U16_MOD at hC
  have hadd : sizeAdd rb.rd q.length = rb.rd + q.length := by
    unfold sizeAdd SIZE_MOD
    omega
  unfold RingBuffer_GetMaxContinuousBuffer
  rw [hdl, hadd, hbl]
  by_cases hgt : rb.rd + q.length > C
  · have hsub : sizeSub C rb.rd % U16_MOD = C - rb.rd := by
      rw [sizeSub_of_le C rb.rd (by omega) (by unfold SIZE_MOD; omega)]
      exact Nat.mod_eq_of_lt (by unfold U16_MOD; omega)
    rw [if_pos hgt, hsub, Nat.min_eq_right (by omega)]
  · rw [if_neg hgt, Nat.min_eq_left (by omega)]

/-- C31: the code at the failing input. With capacity 3 the calls queue `[1, 2]`,
dequeue, queue `[3]` lead to `wr = 0`, `rd = 1` with the two unread bytes
`2, 3` in cells 1 and 2; `RingBuffer_GetMaxContinuousBuffer` returns position
1 and length 0 there, while `min(u, C - rd)` is 2. With capacity 2, queueing
`[1, 2]` leaves `wr = rd = 0` with two unread bytes and the reported length is
0 as well. -/
theorem maxContinuousBuffer_underreports :
    (ringRun (RingBuffer_Init [0, 0, 0] 3) [.queue [1, 2], .dequeue, .queue [3]]).2
        = ⟨[1, 2, 3], 3, 0, 1⟩ ∧
      (fifoRun [] [.queue [1, 2], .dequeue, .queue [3]]).2 = [2, 3] ∧
      RingBuffer_GetMaxContinuousBuffer ⟨[1, 2, 3], 3, 0, 1⟩ = (1, 0) ∧
      min [2, 3].length (3 - 1) = 2 ∧
      (ringRun (RingBuffer_Init [0, 0] 2) [.queue [1, 2]]).2 = ⟨[1, 2], 2, 0, 0⟩ ∧
      (fifoRun [] [.queue [1, 2]]).2 = [1, 2] ∧
      RingBuffer_GetMaxContinuousBuffer ⟨[1, 2], 2, 0, 0⟩ = (0, 0) ∧
      min [1, 2].length (2 - 0) = 2 := by
  decide


/-- The complement of the complement of a 32-bit value. -/
theorem not32_not32 (x : Nat) : not32 (not32 x) = x % SIZE_MOD := by
  have := Nat.mod_lt x (show 0 < SIZE_MOD by decide)
  unfold not32 SIZE_MOD at *
  omega

/-- The complement is a 32-bit value. -/
theorem not32_lt (x : Nat) : not32 x < SIZE_MOD := by
  have := Nat.mod_lt x (show 0 < SIZE_MOD by decide)
  unfold not32 SIZE_MOD at *
  omega

/-- The complement looks at the low 32 bits only. -/
theorem not32_mod (x : Nat) : not32 (x % SIZE_MOD) = not32 x := by
  unfold not32
  rw [Nat.mod_mod]

/-- A register update that stays in 32 bits keeps the register in 32 bits over
any data. -/
theorem foldl_lt (upd : Nat → Nat → Nat) (hupd : ∀ r b, upd r b < SIZE_MOD) (data : List Nat) :
    ∀ r, r < SIZE_MOD → data.foldl upd r < SIZE_MOD := by
  induction data with
  | nil => intro r hr; exact hr
  | cons b bs ih => intro r _; exact ih _ (hupd r b)

/-- C34: the running CRC32 equals a one-shot CRC32. Assume `CalcCRC32(data, n,
init)` runs a byte-wise update `upd` of a 32-bit register from the seed `init`
(the register value before the final inversion) and returns the inverted
register, as the standard CRC-32 does, and that reading `firmware_offset`
bytes from flash yields that many bytes. Then for every session state the
value of `MCU_DFU_CalcCRC` equals `CalcCRC32` applied once, with
`CRC32_INIT_VAL`, to the `firmware_offset` bytes in flash followed by the
first `page_offset` bytes of the page buffer; when both lengths are 0 it is
the CRC32 of the empty string. -/
theorem runningCRC_eq_oneShot {W : Type} (L : CRCLib) (F : Flasher W) (upd : Nat → Nat → Nat)
    (s : DfuState) (w : W)
    (hupd : ∀ r b, upd r b < SIZE_MOD)
    (hcrc : ∀ data init, L.CalcCRC32 data init = not32 (data.foldl upd (init % SIZE_MOD)))
    (hmem : (F.memory w (F.Flasher_GetSpaceAddr w) s.FirmwareOffset).length = s.FirmwareOffset) :
    MCU_DFU_CalcCRC L F s w
      = L.CalcCRC32 (F.memory w (F.Flasher_GetSpaceAddr w) s.FirmwareOffset
          ++ s.PageBuffer.take s.PageOffset) L.CRC32_INIT_VAL ∧
    (s.FirmwareOffset = 0 → s.PageOffset = 0 →
      MCU_DFU_CalcCRC L F s w = L.CalcCRC32 [] L.CRC32_INIT_VAL) := by
  have hinit : L.CRC32_INIT_VAL % SIZE_MOD < SIZE_MOD := Nat.mod_lt _ (by decide)
  have hmain : MCU_DFU_CalcCRC L F s w
      = L.CalcCRC32 (F.memory w (F.Flasher_GetSpaceAddr w) s.FirmwareOffset
          ++ s.PageBuffer.take s.PageOffset) L.CRC32_INIT_VAL := by
    have hr := foldl_lt upd hupd (F.memory w (F.Flasher_GetSpaceAddr w) s.FirmwareOffset)
      _ hinit
    have h1 : (if s.FirmwareOffset ≠ 0 then
          L.CalcCRC32 (F.memory w (F.Flasher_GetSpaceAddr w) s.FirmwareOffset)
            (not32 (not32 L.CRC32_INIT_VAL)) % SIZE_MOD
        else not32 L.CRC32_INIT_VAL)
        = not32 ((F.memory w (F.Flasher_GetSpaceAddr w) s.FirmwareOffset).foldl upd
            (L.CRC32_INIT_VAL % SIZE_MOD)) := by
      by_cases hfo : s.FirmwareOffset = 0
      · have hnil : F.memory w (F.Flasher_GetSpaceAddr w) s.FirmwareOffset = [] :=
          List.length_eq_zero.mp (by rw [hmem, hfo])
        rw [if_neg (fun h => h hfo), hnil, List.foldl_nil, not32_mod]
      · rw [if_pos hfo, hcrc, not32_not32, Nat.mod_mod, Nat.mod_eq_of_lt (not32_lt _)]
    rw [hcrc, List.foldl_append]
    unfold MCU_DFU_CalcCRC
    dsimp only
    rw [h1]
    by_cases hpo : s.PageOffset = 0
    · rw [if_neg (fun h => h hpo), hpo, List.take_zero, List.foldl_nil]
    · rw [if_pos hpo, hcrc, not32_not32, Nat.mod_mod, Nat.mod_eq_of_lt hr,
        Nat.mod_eq_of_lt (not32_lt _)]
  refine ⟨hmain, ?_⟩
  intro hfo hpo
  rw [hmain]
  have hnil : F.memory w (F.Flasher_GetSpaceAddr w) s.FirmwareOffset = [] :=
    List.length_eq_zero.mp (by rw [hmem, hfo])
  rw [hnil, hpo, List.take_zero]
  rfl

/-- The reference CRC-32 of the ASCII digits `123456789` is the check value
`0xCBF43926`, and the CRC-32 of the empty string is 0. -/
theorem crc32Lib_check_value :
    crc32Lib.CalcCRC32 [49, 50, 51, 52, 53, 54, 55, 56, 57] crc32Lib.CRC32_INIT_VAL = 0xCBF43926 ∧
    crc32Lib.CalcCRC32 [] crc32Lib.CRC32_INIT_VAL = 0 := by
  constructor
  · simp [crc32Lib, crc32Update, crc32Bit, not32, SIZE_MOD]
  · simp [crc32Lib, not32, SIZE_MOD]

/-- Witness of `runningCRC_eq_oneShot`: the reference CRC-32, 4 bytes in flash
and 3 bytes pending in the page buffer. -/
theorem runningCRC_eq_oneShot_witness :
    MCU_DFU_CalcCRC crc32Lib (flasherOfSize 4096)
      { DfuInProgress := 1, FirmwareSize := 100, FirmwareOffset := 4,
        Sha256 := List.replicate SHA256_SIZE 0, PageBuffer := [49, 50, 51, 52, 53],
        PageOffset := 3, PageSize := 5 } ()
      = crc32Lib.CalcCRC32 ((flasherOfSize 4096).memory () 0x8000 4 ++ [49, 50, 51, 52, 53].take 3)
          crc32Lib.CRC32_INIT_VAL :=
  (runningCRC_eq_oneShot crc32Lib (flasherOfSize 4096) crc32Update
    { DfuInProgress := 1, FirmwareSize := 100, FirmwareOffset := 4,
      Sha256 := List.replicate SHA256_SIZE 0, PageBuffer := [49, 50, 51, 52, 53],
      PageOffset := 3, PageSize := 5 } ()
    (fun _ _ => Nat.mod_lt _ (by decide)) (fun _ _ => rfl) (List.length_replicate _ _)).1


/-- What a DFU handler can do to the session state. -/
theorem dfuHandle_state_cases {W : Type} (L : CRCLib) (F : Flasher W) (c : DfuCommand)
    (p : List Nat) (len : Nat) (s : DfuState) (w : W) :
    (dfuHandle L F c p len s w).state = s ∨
    (dfuHandle L F c p len s w).state = MCU_DFU_ClearStates ∨
    (c = .InitRequest ∧
      (dfuHandle L F c p len s w).state = { MCU_DFU_ClearStates with
        FirmwareSize := readU32 p 0,
        Sha256 := readSha256 p MCU_DFU_ClearStates.Sha256,
        DfuInProgress := 1 }) ∨
    (c = .PageCreateRequest ∧ s.DfuInProgress ≠ 0 ∧ readU32 p 0 ≤ MAX_PAGE_SIZE ∧
      (dfuHandle L F c p len s w).state = { s with PageOffset := 0, PageSize := readU32 p 0 }) ∨
    (c = .WriteDataEvent ∧ s.DfuInProgress ≠ 0 ∧
      sizeAdd s.PageOffset (p.getD 0 0) ≤ s.PageSize ∧
      (dfuHandle L F c p len s w).state = { s with
        PageBuffer := memcpy s.PageBuffer s.PageOffset (p.drop 1) (p.getD 0 0),
        PageOffset := sizeAdd s.PageOffset (p.getD 0 0) }) ∨
    (c = .PageStoreRequest ∧ s.DfuInProgress ≠ 0 ∧ s.PageOffset = s.PageSize ∧
      (dfuHandle L F c p len s w).state = { s with
        FirmwareOffset := sizeAdd s.FirmwareOffset s.PageOffset, PageOffset := 0,
        PageSize := 0 }) := by
  cases c with
  | InitRequest =>
    have hd : dfuHandle L F .InitRequest p len s w = ProcessDfuInitRequest F p len s w := rfl
    rw [hd]
    rw [init_cases]
    by_cases hv : MCU_DFU_AppData_Validate (p.drop 37) (p.getD 36 0) ≠ DFU_SUCCESS
    · rw [if_pos hv]
      exact Or.inr (Or.inl rfl)
    · rw [if_neg hv]
      by_cases hfit : F.Flasher_GetSpaceSize w > readU32 p 0
      · rw [if_pos hfit]
        exact Or.inr (Or.inr (Or.inl ⟨rfl, rfl⟩))
      · rw [if_neg hfit]
        exact Or.inr (Or.inl rfl)
  | StatusRequest => exact Or.inl rfl
  | PageCreateRequest =>
    have hd : dfuHandle L F .PageCreateRequest p len s w
        = ProcessDfuPageCreateRequest p len s w := rfl
    rw [hd]
    unfold ProcessDfuPageCreateRequest
    dsimp only
    by_cases hin : s.DfuInProgress = 0
    · rw [if_pos hin]
      exact Or.inl rfl
    · rw [if_neg hin]
      by_cases hle : readU32 p 0 ≤ MAX_PAGE_SIZE
      · rw [if_pos hle]
        exact Or.inr (Or.inr (Or.inr (Or.inl ⟨rfl, hin, hle, rfl⟩)))
      · rw [if_neg hle]
        exact Or.inl rfl
  | WriteDataEvent =>
    have hd : dfuHandle L F .WriteDataEvent p len s w
        = ProcessDfuWriteDataEvent p len s w := rfl
    rw [hd]
    unfold ProcessDfuWriteDataEvent
    dsimp only
    by_cases hin : s.DfuInProgress = 0
    · rw [if_pos hin]
      exact Or.inl rfl
    · rw [if_neg hin]
      by_cases hle : sizeAdd s.PageOffset (p.getD 0 0) ≤ s.PageSize
      · rw [if_pos hle]
        exact Or.inr (Or.inr (Or.inr (Or.inr (Or.inl ⟨rfl, hin, hle, rfl⟩))))
      · rw [if_neg hle]
        exact Or.inl rfl
  | PageStoreRequest =>
    have hd : dfuHandle L F .PageStoreRequest p len s w
        = ProcessDfuPageStoreRequest L F p len s w := rfl
    rw [hd]
    by_cases hin : s.DfuInProgress = 0
    · left
      unfold ProcessDfuPageStoreRequest
      dsimp only
      rw [if_pos hin]
    · by_cases hpo : s.PageOffset = 0
      · left
        rw [pageStore_empty L F p len s w hin hpo]
      · by_cases hps : s.PageOffset = s.PageSize
        · rw [pageStore_complete L F p len s w hin (by omega) hps]
          by_cases h1 : (pageStoreSave F s w).1 % U8_MOD ≠ F.FLASHER_SUCCESS
          · rw [if_pos h1]
            exact Or.inl rfl
          · rw [if_neg h1]
            by_cases h2 : sizeAdd s.FirmwareOffset s.PageOffset ≠ s.FirmwareSize
            · rw [if_pos h2]
              exact Or.inr (Or.inr (Or.inr (Or.inr (Or.inr ⟨rfl, hin, hps, rfl⟩))))
            · rw [if_neg h2]
              by_cases h3 : ¬ (0 = memcmp
                  (L.CalcSHA256 (F.memory (pageStoreSave F s w).2
                    (F.Flasher_GetSpaceAddr (pageStoreSave F s w).2)
                    (sizeAdd s.FirmwareOffset s.PageOffset)))
                  s.Sha256 SHA256_SIZE)
              · rw [if_pos h3]
                exact Or.inr (Or.inl rfl)
              · rw [if_neg h3]
                exact Or.inr (Or.inl rfl)
        · left
          unfold ProcessDfuPageStoreRequest
          dsimp only
          rw [if_neg hin, if_neg hpo, if_pos hps]
  | StateCheckResponse =>
    left
    exact stateCheck_state p len s w
  | CancelResponse => exact Or.inr (Or.inl rfl)

/-- A property of the session state that every handler call preserves holds
after every run that starts in a state where it holds. -/
theorem dfuRun_invariant {W : Type} (L : CRCLib) (F : Flasher W) (P : DfuState → Prop)
    (hstep : ∀ (c : DfuCommand) (p : List Nat) (len : Nat) (s : DfuState) (w : W),
      P s → P (dfuHandle L F c p len s w).state)
    (reqs : List DfuRequest) :
    ∀ (s : DfuState) (w : W), P s → P (dfuRun L F reqs s w).state := by
  induction reqs with
  | nil => intro s w h; exact h
  | cons r rs ih =>
    intro s w h
    have ha := hstep r.cmd r.p_payload r.len s w h
    by_cases hr : (dfuHandle L F r.cmd r.p_payload r.len s w).returns = true
    · rw [dfuRun_cons L F r rs s w _ rfl hr]
      exact ih _ _ ha
    · have e : dfuRun L F (r :: rs) s w = dfuHandle L F r.cmd r.p_payload r.len s w := by
        show (if (dfuHandle L F r.cmd r.p_payload r.len s w).returns = true then _ else _) = _
        rw [if_neg hr]
      rw [e]
      exact ha

/-- Every handler call keeps the page cursor within the page and the page
within the 1024-byte page buffer. -/
theorem pageBounds_step {W : Type} (L : CRCLib) (F : Flasher W) (c : DfuCommand)
    (p : List Nat) (len : Nat) (s : DfuState) (w : W)
    (h : s.PageOffset ≤ s.PageSize ∧ s.PageSize ≤ MAX_PAGE_SIZE ∧
      s.PageBuffer.length = MAX_PAGE_SIZE) :
    (dfuHandle L F c p len s w).state.PageOffset ≤ (dfuHandle L F c p len s w).state.PageSize ∧
    (dfuHandle L F c p len s w).state.PageSize ≤ MAX_PAGE_SIZE ∧
    (dfuHandle L F c p len s w).state.PageBuffer.length = MAX_PAGE_SIZE := by
  have hclear : MCU_DFU_ClearStates.PageBuffer.length = MAX_PAGE_SIZE :=
    List.length_replicate _ _
  rcases dfuHandle_state_cases L F c p len s w with
    e | e | ⟨_, e⟩ | ⟨_, _, hle, e⟩ | ⟨_, _, hle, e⟩ | ⟨_, _, _, e⟩
  · rw [e]
    exact h
  · rw [e]
    exact ⟨Nat.le_refl _, Nat.zero_le _, hclear⟩
  · rw [e]
    exact ⟨Nat.le_refl _, Nat.zero_le _, hclear⟩
  · rw [e]
    exact ⟨Nat.zero_le _, hle, h.2.2⟩
  · rw [e]
    exact ⟨hle, h.2.1, (memcpy_length _ _ _ _).trans h.2.2⟩
  · rw [e]
    exact ⟨Nat.le_refl _, Nat.zero_le _, h.2.2⟩

/-- C35: page bounds invariant. In every DFU session state reached from the
zero state by any sequence of DFU handler calls, with any payloads and any
flash interface, `page_offset ≤ page_size ≤ 1024` and the page buffer has its
1024 cells; so whenever `ProcessDfuWriteDataEvent` would copy a chunk of `n`
bytes (`page_offset + n ≤ page_size`), the cells `page_offset .. page_offset
+ n - 1` it writes lie inside the page buffer. -/
theorem page_bounds_invariant {W : Type} (L : CRCLib) (F : Flasher W)
    (reqs : List DfuRequest) (w : W) (p : List Nat) :
    (dfuRun L F reqs MCU_DFU_ClearStates w).state.PageOffset
      ≤ (dfuRun L F reqs MCU_DFU_ClearStates w).state.PageSize ∧
    (dfuRun L F reqs MCU_DFU_ClearStates w).state.PageSize ≤ 1024 ∧
    (dfuRun L F reqs MCU_DFU_ClearStates w).state.PageBuffer.length = 1024 ∧
    (p.getD 0 0 < 256 →
      sizeAdd (dfuRun L F reqs MCU_DFU_ClearStates w).state.PageOffset (p.getD 0 0)
        ≤ (dfuRun L F reqs MCU_DFU_ClearStates w).state.PageSize →
      (dfuRun L F reqs MCU_DFU_ClearStates w).state.PageOffset + p.getD 0 0
        ≤ (dfuRun L F reqs MCU_DFU_ClearStates w).state.PageBuffer.length) := by
  have hinv := dfuRun_invariant L F
    (fun s => s.PageOffset ≤ s.PageSize ∧ s.PageSize ≤ MAX_PAGE_SIZE ∧
      s.PageBuffer.length = MAX_PAGE_SIZE)
    (fun c p len s w h => pageBounds_step L F c p len s w h) reqs MCU_DFU_ClearStates w
    ⟨Nat.le_refl _, Nat.zero_le _, List.length_replicate _ _⟩
  obtain ⟨h1, h2, h3⟩ := hinv
  have h2b : (dfuRun L F reqs MCU_DFU_ClearStates w).state.PageSize ≤ 1024 := h2
  refine ⟨h1, h2, h3, ?_⟩
  intro hn hfit
  rw [h3]
  have hs : sizeAdd (dfuRun L F reqs MCU_DFU_ClearStates w).state.PageOffset (p.getD 0 0)
      = (dfuRun L F reqs MCU_DFU_ClearStates w).state.PageOffset + p.getD 0 0 := by
    unfold sizeAdd SIZE_MOD
    omega
  rw [hs] at hfit
  unfold MAX_PAGE_SIZE
  omega

/-- Every handler call leaves a state that is either in a session or zeroed. -/
theorem idle_step {W : Type} (L : CRCLib) (F : Flasher W) (c : DfuCommand)
    (p : List Nat) (len : Nat) (s : DfuState) (w : W)
    (h : s.DfuInProgress = 0 → s = MCU_DFU_ClearStates) :
    (dfuHandle L F c p len s w).state.DfuInProgress = 0 →
      (dfuHandle L F c p len s w).state = MCU_DFU_ClearStates := by
  rcases dfuHandle_state_cases L F c p len s w with
    e | e | ⟨_, e⟩ | ⟨_, hin, _, e⟩ | ⟨_, hin, _, e⟩ | ⟨_, hin, _, e⟩
  · rw [e]
    exact h
  · intro _
    exact e
  · rw [e]
    intro h0
    exact absurd h0 Nat.one_ne_zero
  · rw [e]
    intro h0
    exact absurd h0 hin
  · rw [e]
    intro h0
    exact absurd h0 hin
  · rw [e]
    intro h0
    exact absurd h0 hin

/-- C37: idle means zeroed. In every state reached from the zero state by any
sequence of DFU handler calls, `in_progress = 0` implies that `firmware_size`,
`firmware_offset`, `page_offset` and `page_size` are 0 and that the expected
digest and the page buffer are all zero bytes; a Status request handled in
such a state reports the offset `00 00 00 00`. -/
theorem idle_means_zeroed {W : Type} (L : CRCLib) (F : Flasher W)
    (reqs : List DfuRequest) (w w1 : W) (p : List Nat) (len : Nat) :
    (dfuRun L F reqs MCU_DFU_ClearStates w).state.DfuInProgress = 0 →
      (dfuRun L F reqs MCU_DFU_ClearStates w).state.FirmwareSize = 0 ∧
      (dfuRun L F reqs MCU_DFU_ClearStates w).state.FirmwareOffset = 0 ∧
      (dfuRun L F reqs MCU_DFU_ClearStates w).state.PageOffset = 0 ∧
      (dfuRun L F reqs MCU_DFU_ClearStates w).state.PageSize = 0 ∧
      (dfuRun L F reqs MCU_DFU_ClearStates w).state.Sha256 = List.replicate 32 0 ∧
      (dfuRun L F reqs MCU_DFU_ClearStates w).state.PageBuffer = List.replicate 1024 0 ∧
      (ProcessDfuStatusRequest L F p len (dfuRun L F reqs MCU_DFU_ClearStates w).state w1).events
        = [.UART_Send UART_CMD_DFU_STATUS_RESP
            ([DFU_SUCCESS, 0, 4, 0, 0, 0, 0, 0, 0] ++ bytesU32
              (MCU_DFU_CalcCRC L F (dfuRun L F reqs MCU_DFU_ClearStates w).state w1))] := by
  intro h0
  have hinv := dfuRun_invariant L F
    (fun s => s.DfuInProgress = 0 → s = MCU_DFU_ClearStates)
    (fun c p len s w h => idle_step L F c p len s w h) reqs MCU_DFU_ClearStates w
    (fun _ => rfl) h0
  have hfo : (dfuRun L F reqs MCU_DFU_ClearStates w).state.FirmwareOffset = 0 := by
    rw [hinv]
    rfl
  have hpo : (dfuRun L F reqs MCU_DFU_ClearStates w).state.PageOffset = 0 := by
    rw [hinv]
    rfl
  refine ⟨by rw [hinv]; rfl, hfo, hpo, by rw [hinv]; rfl, by rw [hinv]; rfl,
    by rw [hinv]; rfl, ?_⟩
  unfold ProcessDfuStatusRequest
  dsimp only
  rw [hfo, hpo]
  rfl

/-- The offset stays within the declared size over a run whose page stores stay
within the declared image. -/
theorem withinImage_run {W : Type} (L : CRCLib) (F : Flasher W) (reqs : List DfuRequest) :
    ∀ (s : DfuState) (w : W), s.FirmwareOffset ≤ s.FirmwareSize →
      storesWithinImage L F reqs s w = true →
      (dfuRun L F reqs s w).state.FirmwareOffset ≤ (dfuRun L F reqs s w).state.FirmwareSize := by
  induction reqs with
  | nil => intro s w h _; exact h
  | cons r rs ih =>
    intro s w h hg
    simp only [storesWithinImage, Bool.and_eq_true, Bool.or_eq_true, decide_eq_true_eq,
      bne_iff_ne, Bool.not_eq_true'] at hg
    obtain ⟨hguard, hrest⟩ := hg
    have ha : (dfuHandle L F r.cmd r.p_payload r.len s w).state.FirmwareOffset
        ≤ (dfuHandle L F r.cmd r.p_payload r.len s w).state.FirmwareSize := by
      rcases dfuHandle_state_cases L F r.cmd r.p_payload r.len s w with
        e | e | ⟨_, e⟩ | ⟨_, _, _, e⟩ | ⟨_, _, _, e⟩ | ⟨hc, _, _, e⟩
      · rw [e]
        exact h
      · rw [e]
        exact Nat.le_refl _
      · rw [e]
        exact Nat.zero_le _
      · rw [e]
        exact h
      · rw [e]
        exact h
      · rw [e]
        have hle : s.FirmwareOffset + s.PageOffset ≤ s.FirmwareSize := by
          rcases hguard with hne | hle
          · exact absurd hc hne
          · exact hle
        show sizeAdd s.FirmwareOffset s.PageOffset ≤ s.FirmwareSize
        exact Nat.le_trans (Nat.mod_le _ _) hle
    by_cases hr : (dfuHandle L F r.cmd r.p_payload r.len s w).returns = true
    · rw [dfuRun_cons L F r rs s w _ rfl hr]
      rcases hrest with hf | hrest
      · rw [hr] at hf
        exact absurd hf (by decide)
      · exact ih _ _ ha hrest
    · have e : dfuRun L F (r :: rs) s w = dfuHandle L F r.cmd r.p_payload r.len s w := by
        show (if (dfuHandle L F r.cmd r.p_payload r.len s w).returns = true then _ else _) = _
        rw [if_neg hr]
      rw [e]
      exact ha

/-- Only a page store moves the offset past the declared size: in every state
reached from the zero state by a sequence of DFU handler calls in which every
PageStore request is handled with `firmware_offset + page_offset ≤
firmware_size`, `firmware_offset ≤ firmware_size`. -/
theorem firmwareOffset_within_declared_size {W : Type} (L : CRCLib) (F : Flasher W)
    (reqs : List DfuRequest) (w : W)
    (hstores : storesWithinImage L F reqs MCU_DFU_ClearStates w = true) :
    (dfuRun L F reqs MCU_DFU_ClearStates w).state.FirmwareOffset
      ≤ (dfuRun L F reqs MCU_DFU_ClearStates w).state.FirmwareSize :=
  withinImage_run L F reqs MCU_DFU_ClearStates w (Nat.le_refl _) hstores

/-- Witness of `firmwareOffset_within_declared_size`: an image of 8 bytes, of
which one page of 4 bytes is stored. -/
theorem firmwareOffset_within_declared_size_witness :
    (dfuRun crcOfSum (flasherOfSize 4096)
      (happyPath 8 (List.replicate 32 0) [49] 4 [[1, 2], [3, 4]] ++ [pageStoreRequest])
      MCU_DFU_ClearStates ()).state.FirmwareOffset
      ≤ (dfuRun crcOfSum (flasherOfSize 4096)
        (happyPath 8 (List.replicate 32 0) [49] 4 [[1, 2], [3, 4]] ++ [pageStoreRequest])
        MCU_DFU_ClearStates ()).state.FirmwareSize :=
  firmwareOffset_within_declared_size crcOfSum (flasherOfSize 4096)
    (happyPath 8 (List.replicate 32 0) [49] 4 [[1, 2], [3, 4]] ++ [pageStoreRequest]) ()
    (by decide)


/-- Two memories with the same first `k` bytes read the same below `k`. -/
theorem getD_of_take_eq (p q : List Nat) (k i : Nat) (h : p.take k = q.take k) (hi : i < k) :
    p.getD i 0 = q.getD i 0 := by
  have e1 : (p.take k).getD i 0 = p.getD i 0 := by
    simp [List.getD_eq_getElem?_getD, List.getElem?_take, hi]
  have e2 : (q.take k).getD i 0 = q.getD i 0 := by
    simp [List.getD_eq_getElem?_getD, List.getElem?_take, hi]
  rw [← e1, ← e2, h]

/-- The copy `memcpy(dst + off, src, n)` reads the first `n` bytes of `src`
only. -/
theorem memcpy_congr (dst : List Nat) (off : Nat) (src src2 : List Nat) (n : Nat)
    (h : ∀ i, i < n → src.getD i 0 = src2.getD i 0) :
    memcpy dst off src n = memcpy dst off src2 n := by
  induction n with
  | zero => rfl
  | succ n ih =>
    show (memcpy dst off src n).set (off + n) (src.getD n 0)
      = (memcpy dst off src2 n).set (off + n) (src2.getD n 0)
    rw [ih (fun i hi => h i (by omega)), h n (by omega)]

/-- The digest loop reads the payload bytes 4 to 35 only. -/
theorem readSha256_congr (p q sha : List Nat) (h : ∀ i, i < 36 → p.getD i 0 = q.getD i 0) :
    readSha256 p sha = readSha256 q sha := by
  unfold readSha256
  apply List.foldl_ext
  intro acc i hi
  have hi2 : i < 32 := List.mem_range.mp hi
  rw [h (4 + i) (by omega)]

/-- The four-byte read at index 0 reads the payload bytes 0 to 3 only. -/
theorem readU32_congr (p q : List Nat) (h : ∀ i, i < 4 → p.getD i 0 = q.getD i 0) :
    readU32 p 0 = readU32 q 0 := by
  unfold readU32
  rw [h 0 (by omega), h (0 + 1) (by omega), h (0 + 2) (by omega), h (0 + 3) (by omega)]

/-- The handlers do not consult the declared length `len`. The outcome of
`ProcessDfuInitRequest` is determined by the first `37 + app_data_len` bytes of
the payload memory, `app_data_len = p[36]`: two memories that agree there give
the same result, whatever the declared lengths. The outcome of
`ProcessDfuWriteDataEvent` is determined by the first `1 + chunk_len` bytes,
`chunk_len = p[0]`. -/
theorem handlers_ignore_declared_length {W : Type} (F : Flasher W) (p q : List Nat)
    (len len2 : Nat) (s : DfuState) (w : W) (happ : p.getD 36 0 ≤ 255) :
    (p.take (37 + p.getD 36 0) = q.take (37 + p.getD 36 0) →
      ProcessDfuInitRequest F p len s w = ProcessDfuInitRequest F q len2 s w) ∧
    (p.take (1 + p.getD 0 0) = q.take (1 + p.getD 0 0) →
      ProcessDfuWriteDataEvent p len s w = ProcessDfuWriteDataEvent q len2 s w) := by
  constructor
  · intro h
    have hg : ∀ i, i < 37 + p.getD 36 0 → p.getD i 0 = q.getD i 0 :=
      fun i hi => getD_of_take_eq p q _ i h hi
    have h36 : q.getD 36 0 = p.getD 36 0 := (hg 36 (by omega)).symm
    have hsize : readU32 p 0 = readU32 q 0 := readU32_congr p q (fun i hi => hg i (by omega))
    have hsha : readSha256 p MCU_DFU_ClearStates.Sha256 = readSha256 q MCU_DFU_ClearStates.Sha256 :=
      readSha256_congr p q _ (fun i hi => hg i (by omega))
    have hdrop : (p.drop 37).take (p.getD 36 0) = (q.drop 37).take (p.getD 36 0) := by
      rw [List.take_drop, List.take_drop, h]
    have hval : MCU_DFU_AppData_Validate (p.drop 37) (p.getD 36 0)
        = MCU_DFU_AppData_Validate (q.drop 37) (q.getD 36 0) := by
      rw [h36, ← validate_take (p.drop 37) _ happ, ← validate_take (q.drop 37) _ happ, hdrop]
    rw [init_cases, init_cases, ← hval, ← hsize, ← hsha]
  · intro h
    have hg : ∀ i, i < 1 + p.getD 0 0 → p.getD i 0 = q.getD i 0 :=
      fun i hi => getD_of_take_eq p q _ i h hi
    have h0 : q.getD 0 0 = p.getD 0 0 := (hg 0 (by omega)).symm
    have hcopy : ∀ dst off, memcpy dst off (p.drop 1) (p.getD 0 0)
        = memcpy dst off (q.drop 1) (p.getD 0 0) := by
      intro dst off
      apply memcpy_congr
      intro i hi
      rw [getD_drop_eq, getD_drop_eq]
      exact hg (1 + i) (by omega)
    unfold ProcessDfuWriteDataEvent
    dsimp only
    rw [h0, hcopy]

/-- Witness of `handlers_ignore_declared_length`: an Init payload of 43 bytes and
the same payload followed by two more bytes, with declared lengths 43 and 0. -/
theorem handlers_ignore_declared_length_witness :
    ProcessDfuInitRequest (flasherOfSize 4096) (initPayloadIgnore 4 0 0 0) 43
        MCU_DFU_ClearStates ()
      = ProcessDfuInitRequest (flasherOfSize 4096) (initPayloadIgnore 4 0 0 0 ++ [9, 9]) 0
        MCU_DFU_ClearStates () :=
  (handlers_ignore_declared_length (flasherOfSize 4096) (initPayloadIgnore 4 0 0 0)
    (initPayloadIgnore 4 0 0 0 ++ [9, 9]) 43 0 MCU_DFU_ClearStates () (by decide)).1 (by decide)


/-- One call of `ExtractFrameFromBuffer` keeps the byte counter at or below
`rx_frame.len + 5`, the length at or below 127, and the payload array at its
127 cells. -/
theorem extract_bounds (L : CRCLib) (b : Nat) (s : RxParser)
    (h : s.count ≤ s.rx_frame.len + 5 ∧ s.rx_frame.len ≤ MAX_PAYLOAD_SIZE ∧
      s.rx_frame.p_payload.length = MAX_PAYLOAD_SIZE) :
    (ExtractFrameFromBuffer L (some b) s).2.count
        ≤ (ExtractFrameFromBuffer L (some b) s).2.rx_frame.len + 5 ∧
    (ExtractFrameFromBuffer L (some b) s).2.rx_frame.len ≤ MAX_PAYLOAD_SIZE ∧
    (ExtractFrameFromBuffer L (some b) s).2.rx_frame.p_payload.length = MAX_PAYLOAD_SIZE := by
  obtain ⟨h1, h2, h3⟩ := h
  simp only [ExtractFrameFromBuffer, PREAMBLE_BYTE_1_OFFSET, PREAMBLE_BYTE_2_OFFSET,
    LEN_OFFSET, CMD_OFFSET, CRC_BYTE_1_OFFSET, CRC_BYTE_2_OFFSET, PAYLOAD_OFFSET]
  split_ifs <;> simp only [List.length_set] <;> refine ⟨?_, ?_, ?_⟩ <;>
    first | assumption | omega

/-- The bounds of `extract_bounds` hold after any number of calls. -/
theorem feedBytes_bounds (L : CRCLib) (bytes : List Nat) :
    ∀ s : RxParser, (s.count ≤ s.rx_frame.len + 5 ∧ s.rx_frame.len ≤ MAX_PAYLOAD_SIZE ∧
        s.rx_frame.p_payload.length = MAX_PAYLOAD_SIZE) →
      (feedBytes L s bytes).2.count ≤ (feedBytes L s bytes).2.rx_frame.len + 5 ∧
      (feedBytes L s bytes).2.rx_frame.len ≤ MAX_PAYLOAD_SIZE ∧
      (feedBytes L s bytes).2.rx_frame.p_payload.length = MAX_PAYLOAD_SIZE := by
  induction bytes with
  | nil => intro s h; exact h
  | cons b bs ih =>
    intro s h
    exact ih _ (extract_bounds L b s h)

/-- What one call of `ExtractFrameFromBuffer` does to the payload array. -/
theorem extract_store (L : CRCLib) (b : Nat) (s : RxParser) :
    (∀ i, payloadStoreIndex s = some i →
      (ExtractFrameFromBuffer L (some b) s).2.rx_frame.p_payload
        = s.rx_frame.p_payload.set i b) ∧
    (payloadStoreIndex s = none →
      (ExtractFrameFromBuffer L (some b) s).2.rx_frame.p_payload = s.rx_frame.p_payload) := by
  simp only [payloadStoreIndex, ExtractFrameFromBuffer, PREAMBLE_BYTE_1_OFFSET,
    PREAMBLE_BYTE_2_OFFSET, LEN_OFFSET, CMD_OFFSET, CRC_BYTE_1_OFFSET, CRC_BYTE_2_OFFSET,
    PAYLOAD_OFFSET]
  constructor
  · intro i hi
    split_ifs at hi ⊢ <;> first | omega | (injection hi with hi; rw [← hi])
  · intro hn
    split_ifs at hn ⊢ <;> rfl

/-- C39: the parser stays inside the payload buffer. After any byte sequence
fed to `ExtractFrameFromBuffer` from the reset state, the byte counter is at
most `rx_frame.len + 5 ≤ 132`, `rx_frame.len` is at most 127, the payload
array has its 127 cells, and the next call stores its byte either nowhere in
the payload array or at an index smaller than `rx_frame.len`, hence smaller
than `MAX_PAYLOAD_SIZE`. -/
theorem parser_stays_in_buffer (L : CRCLib) (bytes : List Nat) (b : Nat) :
    (feedBytes L rxReset bytes).2.count ≤ (feedBytes L rxReset bytes).2.rx_frame.len + 5 ∧
    (feedBytes L rxReset bytes).2.rx_frame.len + 5 ≤ 132 ∧
    (feedBytes L rxReset bytes).2.rx_frame.len ≤ 127 ∧
    (feedBytes L rxReset bytes).2.rx_frame.p_payload.length = 127 ∧
    (∀ i, payloadStoreIndex (feedBytes L rxReset bytes).2 = some i →
      i < (feedBytes L rxReset bytes).2.rx_frame.len ∧ i < MAX_PAYLOAD_SIZE ∧
      (ExtractFrameFromBuffer L (some b) (feedBytes L rxReset bytes).2).2.rx_frame.p_payload
        = (feedBytes L rxReset bytes).2.rx_frame.p_payload.set i b) ∧
    (payloadStoreIndex (feedBytes L rxReset bytes).2 = none →
      (ExtractFrameFromBuffer L (some b) (feedBytes L rxReset bytes).2).2.rx_frame.p_payload
        = (feedBytes L rxReset bytes).2.rx_frame.p_payload) := by
  obtain ⟨h1, h2, h3⟩ := feedBytes_bounds L bytes rxReset
    ⟨Nat.zero_le _, Nat.zero_le _, List.length_replicate _ _⟩
  have h2b : (feedBytes L rxReset bytes).2.rx_frame.len ≤ 127 := h2
  obtain ⟨e1, e2⟩ := extract_store L b (feedBytes L rxReset bytes).2
  refine ⟨h1, by omega, h2b, h3, ?_, e2⟩
  intro i hi
  refine ⟨?_, ?_, e1 i hi⟩
  · simp only [payloadStoreIndex, CMD_OFFSET, CRC_BYTE_1_OFFSET, PAYLOAD_OFFSET] at hi
    split_ifs at hi with hc
    injection hi with hi
    omega
  · simp only [payloadStoreIndex, CMD_OFFSET, CRC_BYTE_1_OFFSET, PAYLOAD_OFFSET] at hi
    split_ifs at hi with hc
    injection hi with hi
    unfold MAX_PAYLOAD_SIZE
    omega

/-- Bytes other than `0xAA` leave a parser that waits for the first preamble
byte as it is. -/
theorem feedBytes_noise (L : CRCLib) (g : List Nat) (hg : ∀ b ∈ g, b ≠ 0xAA) :
    ∀ s : RxParser, s.count = 0 → feedBytes L s g = (List.replicate g.length false, s) := by
  induction g with
  | nil => intro s _; rfl
  | cons b bs ih =>
    intro s h0
    have hb : b ≠ PREAMBLE_BYTE_1 := hg b (List.mem_cons_self _ _)
    have hstep : ExtractFrameFromBuffer L (some b) s = (false, s) := by
      simp only [ExtractFrameFromBuffer, PREAMBLE_BYTE_1_OFFSET]
      rw [if_pos h0, if_neg hb]
      cases s
      simp only at h0
      rw [h0]
    show ((ExtractFrameFromBuffer L (some b) s).1
        :: (feedBytes L (ExtractFrameFromBuffer L (some b) s).2 bs).1,
      (feedBytes L (ExtractFrameFromBuffer L (some b) s).2 bs).2) = _
    rw [hstep, ih (fun x hx => hg x (List.mem_cons_of_mem _ hx)) s h0]
    rfl

/-- C40: resynchronisation after noise. For every sequence `g` of bytes none of
which is `0xAA` and every frame `f = encode(cmd, payload)` with a payload of
at most 127 bytes, feeding `g` followed by `f` to `ExtractFrameFromBuffer`
from a state with byte counter 0 (the reset state is one) returns false on
every byte of `g` and of `f` except the last byte of `f`, where it returns
true with `rx_frame.len`, `rx_frame.cmd` and the first `len` bytes of
`rx_frame.p_payload` equal to the length, command and payload sent. -/
theorem resync_after_noise (L : CRCLib) (s : RxParser) (g : List Nat) (cmd : Nat)
    (payload : List Nat)
    (h0 : s.count = 0) (hp : s.rx_frame.p_payload.length = MAX_PAYLOAD_SIZE)
    (hmax : payload.length ≤ 127) (hg : ∀ b ∈ g, b ≠ 0xAA) :
    (feedBytes L s (g ++ UARTInternal_Send L payload.length cmd payload)).1
      = List.replicate (g.length + payload.length + 5) false ++ [true] ∧
    (feedBytes L s (g ++ UARTInternal_Send L payload.length cmd payload)).2.count = 0 ∧
    (feedBytes L s (g ++ UARTInternal_Send L payload.length cmd payload)).2.rx_frame.len
      = payload.length ∧
    (feedBytes L s (g ++ UARTInternal_Send L payload.length cmd payload)).2.rx_frame.cmd
      = cmd ∧
    (feedBytes L s (g ++ UARTInternal_Send L payload.length cmd payload)).2.rx_frame.p_payload.take
      payload.length = payload := by
  have hsend : UARTInternal_Send L payload.length cmd payload
      = ([PREAMBLE_BYTE_1, PREAMBLE_BYTE_2, payload.length, cmd] ++ payload
          ++ [lowByte (UARTInternal_CalcCRC16 L payload.length cmd payload)])
        ++ [highByte (UARTInternal_CalcCRC16 L payload.length cmd payload)] := by
    simp [UARTInternal_Send]
  have hfeed := feedBytes_to_crc_low L s cmd
    (lowByte (UARTInternal_CalcCRC16 L payload.length cmd payload)) payload h0 hp hmax
  have hcrc := crc_bytes_reassemble _ (calcCRC16_lt L payload.length cmd payload)
  have hrep : List.replicate g.length false ++ (List.replicate (payload.length + 5) false ++ [true])
      = List.replicate (g.length + payload.length + 5) false ++ [true] := by
    rw [← List.append_assoc, ← List.replicate_add, Nat.add_assoc]
  rw [feedBytes_append, feedBytes_noise L g hg s h0, hsend, feedBytes_append, hfeed]
  simp only [feedBytes]
  rw [extract_crc_high L _ _ (by simp)]
  simp only [calcCRC16_append, hcrc, beq_self_eq_true, List.take_left']
  exact ⟨hrep, trivial, trivial, trivial, trivial⟩

/-- Witness of `resync_after_noise`: the noise `55 00 FF`, then command `0x87`
with payload `[1, 2, 3]`, from the start-up receive state. -/
theorem resync_after_noise_witness :
    (feedBytes crcOfSum rxReset ([0x55, 0x00, 0xFF] ++ UARTInternal_Send crcOfSum [1, 2, 3].length
        0x87 [1, 2, 3])).1
      = List.replicate ([0x55, 0x00, 0xFF].length + [1, 2, 3].length + 5) false ++ [true] :=
  (resync_after_noise crcOfSum rxReset [0x55, 0x00, 0xFF] 0x87 [1, 2, 3] rfl
    (List.length_replicate _ _) (by decide) (by decide)).1

/-- Witness of `timestamp_elapsed_wrap_safe`: 11 ms elapse from 6 ms before the
counter overflow to 5 ms after it. -/
theorem timestamp_elapsed_wrap_safe_witness :
    Timestamp_GetTimeElapsed 4294967290 5 = 5 + 4294967296 - 4294967290 :=
  (timestamp_elapsed_wrap_safe 4294967290 5 7 9 (by decide) (by decide) (by decide)
    (by decide)).2.2.1 (by decide)

/-- Witness of `idle_means_zeroed`: an accepted Init declaring 4 bytes, then a
Cancel response; the engine is idle and the declared size is forgotten. -/
theorem idle_means_zeroed_witness :
    (dfuRun crcOfSum (flasherOfSize 4096)
      [initRequest 4 (List.replicate 32 0) [105, 103, 110, 111, 114, 101],
       { cmd := .CancelResponse, p_payload := [], len := 0 }]
      MCU_DFU_ClearStates ()).state.FirmwareSize = 0 :=
  (idle_means_zeroed crcOfSum (flasherOfSize 4096)
    [initRequest 4 (List.replicate 32 0) [105, 103, 110, 111, 114, 101],
     { cmd := .CancelResponse, p_payload := [], len := 0 }] () () [] 0 (by decide)).1

/-! ## Corruption under a reference CRC-16, writes and reads out of bounds -/

/-- The reference CRC-16 with generator `0xA001` (reflected) and seed `0xFFFF`
gives the check value `0x4B37` of CRC-16/MODBUS for the digits `123456789`,
and with generator `0x1021` (most significant bit first) and seed `0xFFFF` the
check value `0x29B1` of CRC-16/CCITT-FALSE. -/
theorem crc16Lib_check_values :
    (crc16Lib true 0xA001 0xFFFF).CalcCRC16 [49, 50, 51, 52, 53, 54, 55, 56, 57] 0xFFFF = 0x4B37 ∧
    (crc16Lib false 0x1021 0xFFFF).CalcCRC16 [49, 50, 51, 52, 53, 54, 55, 56, 57] 0xFFFF
      = 0x29B1 := by
  constructor
  · simp [crc16Lib, crc16Update, crc16Bit, U16_MOD]
  · simp [crc16Lib, crc16Update, crc16Bit, U16_MOD]

/-- C36: the code at the failing input. The flash space has 8 bytes at address
`0x8000`. Init declares an image of 4 bytes and is accepted; PageCreate asks
for a page of 8 bytes, one WriteData event fills it, and PageStore stores it:
the engine writes 2 words at `0x8000`, answers and goes on with
`firmware_offset = 8`, above `firmware_size = 4`. A second page of 8 bytes is
stored the same way: the engine writes 2 words at `0x8008`, past the end of
the flash space whose size Init compared with the declared size, and
`firmware_offset` becomes 16. -/
theorem firmwareOffset_passes_declared_size :
    (flasherOfSize 8).Flasher_GetSpaceAddr () = 0x8000 ∧
    (flasherOfSize 8).Flasher_GetSpaceSize () = 8 ∧
    (dfuRun crcOfSum (flasherOfSize 8)
      (happyPath 4 (List.replicate 32 0) [49] 8 [[1, 2, 3, 4, 5, 6, 7, 8]] ++ [pageStoreRequest])
      MCU_DFU_ClearStates ()).state.FirmwareSize = 4 ∧
    (dfuRun crcOfSum (flasherOfSize 8)
      (happyPath 4 (List.replicate 32 0) [49] 8 [[1, 2, 3, 4, 5, 6, 7, 8]] ++ [pageStoreRequest])
      MCU_DFU_ClearStates ()).state.FirmwareOffset = 8 ∧
    (dfuRun crcOfSum (flasherOfSize 8)
      (happyPath 4 (List.replicate 32 0) [49] 8 [[1, 2, 3, 4, 5, 6, 7, 8]] ++ [pageStoreRequest])
      MCU_DFU_ClearStates ()).state.DfuInProgress = 1 ∧
    flashWriteCalls (dfuRun crcOfSum (flasherOfSize 8)
      (happyPath 4 (List.replicate 32 0) [49] 8 [[1, 2, 3, 4, 5, 6, 7, 8]] ++ [pageStoreRequest])
      MCU_DFU_ClearStates ()).events = [(0x8000, 2)] ∧
    (dfuRun crcOfSum (flasherOfSize 8)
      (happyPath 4 (List.replicate 32 0) [49] 8 [[1, 2, 3, 4, 5, 6, 7, 8]]
        ++ [pageStoreRequest, pageCreateRequest 8, writeDataEvent [9, 10, 11, 12, 13, 14, 15, 16],
            pageStoreRequest])
      MCU_DFU_ClearStates ()).state.FirmwareOffset = 16 ∧
    flashWriteCalls (dfuRun crcOfSum (flasherOfSize 8)
      (happyPath 4 (List.replicate 32 0) [49] 8 [[1, 2, 3, 4, 5, 6, 7, 8]]
        ++ [pageStoreRequest, pageCreateRequest 8, writeDataEvent [9, 10, 11, 12, 13, 14, 15, 16],
            pageStoreRequest])
      MCU_DFU_ClearStates ()).events = [(0x8000, 2), (0x8008, 2)] := by
  decide

/-- C38: the code at the failing inputs. A frame with declared length 0 is
dispatched to `ProcessDfuInitRequest`: with the payload memory holding an
earlier Init payload the request is accepted, with the memory holding zeros it
is answered `[INVALID_OBJECT]`, so the handler reads indices at and above
`len = 0`. A frame with declared length 1 and `p[0] = 3` dispatched to
`ProcessDfuWriteDataEvent` copies the three bytes `p[1..3]`, although
`1 + chunk_len = 4 > len`. A frame with declared length 127 and `p[0] = 200`,
in a session with a page of 250 bytes, makes it copy 200 bytes: the last one
copied is the byte at index 200 of the memory at `p_payload`, 74 bytes past the
127-cell array. -/
theorem handlers_read_past_declared_length :
    (ProcessDfuInitRequest (flasherOfSize 4096) (initPayloadIgnore 4 0 0 0) 0
        MCU_DFU_ClearStates ()).events
      = [.Flasher_EraseSpace, .UART_Send UART_CMD_DFU_INIT_RESP [DFU_SUCCESS]] ∧
    (ProcessDfuInitRequest (flasherOfSize 4096) (List.replicate 43 0) 0
        MCU_DFU_ClearStates ()).events
      = [.UART_Send UART_CMD_DFU_INIT_RESP [DFU_INVALID_OBJECT]] ∧
    (sessionAfter 100 8 []).DfuInProgress = 1 ∧
    (sessionAfter 100 8 []).PageOffset = 0 ∧
    (ProcessDfuWriteDataEvent [3, 7, 8, 9] 1 (sessionAfter 100 8 []) ()).state.PageOffset = 3 ∧
    (ProcessDfuWriteDataEvent [3, 7, 8, 9] 1 (sessionAfter 100 8 []) ()).state.PageBuffer.take 3
      = [7, 8, 9] ∧
    (sessionAfter 100 250 []).PageSize = 250 ∧
    (ProcessDfuWriteDataEvent (200 :: List.replicate 126 1 ++ List.replicate 100 9) 127
      (sessionAfter 100 250 []) ()).state.PageOffset = 200 ∧
    (ProcessDfuWriteDataEvent (200 :: List.replicate 126 1 ++ List.replicate 100 9) 127
      (sessionAfter 100 250 []) ()).state.PageBuffer.getD 199 0 = 9 := by
  refine ⟨by decide, by decide, by decide, by decide, by decide, by decide, by decide,
    by decide, ?_⟩
  have hin : (sessionAfter 100 250 []).DfuInProgress ≠ 0 := by decide
  have hpo : (sessionAfter 100 250 []).PageOffset = 0 := by decide
  have hps : (sessionAfter 100 250 []).PageSize = 250 := by decide
  have hlen : (sessionAfter 100 250 []).PageBuffer.length = 1024 :=
    List.length_replicate _ _
  generalize sessionAfter 100 250 [] = st at hin hpo hps hlen ⊢
  have h0 : (200 :: List.replicate 126 1 ++ List.replicate 100 9).getD 0 0 = 200 := rfl
  unfold ProcessDfuWriteDataEvent
  dsimp only
  rw [if_neg hin, h0, hpo, hps, if_pos (by decide)]
  dsimp only
  rw [memcpy_getD, if_pos (by rw [hlen]; decide), getD_drop_eq]
  have e : (200 :: List.replicate 126 1 ++ List.replicate 100 9)
      = (200 :: List.replicate 126 1) ++ List.replicate 100 9 := rfl
  rw [e, List.getD_append_right _ _ _ _ (by simp)]
  simp [List.getD_eq_getElem?_getD, List.getElem?_replicate]

end MCU
